import Mathlib

/-!
# Terminology widgets of 3D Slicer: serialization, delegate and navigator

A shallow embedding of `qSlicerTerminologyNavigatorWidget.cxx` and
`qSlicerTerminologyItemDelegate.cxx`.  Text is a list of characters, nullable
pointers are `Option`s, the widget's private data is an explicit state record
and the terminology logic (an external collaborator) is a record of lookup
functions passed as an argument.
-/

namespace Slicer

/-! ## Text -/

/-- Text held by a `QString`, a `std::string` or a C string: a list of characters. -/
abbrev QString := List Char

/-- The separator between the seven components of a serialized entry. -/
def tilde : Char := '~'

/-- The separator between the three parts of a code identifier. -/
def caret : Char := '^'

/-- The terminating character of a C string. -/
def nul : Char := Char.ofNat 0

/-- Model of `QString::split` for a one-character separator (the only way the source calls it),
with the default behaviour of keeping empty parts: the text is cut at every occurrence of the separator,
so a text with `n` separators has `n + 1` parts and the empty text has the single part `""`. -/
def split (sep : Char) : QString → List QString
  | [] => [[]]
  | c :: cs =>
    if c = sep then [] :: split sep cs
    else (c :: (split sep cs).headD []) :: (split sep cs).tail

/-- Model of `QString::toLatin1`: a character outside Latin-1 becomes `?` (one per UTF-16 code
unit). -/
def toLatin1 (s : QString) : QString :=
  s.flatMap fun c =>
    if c.toNat < 256 then [c] else if c.toNat < 65536 then ['?'] else ['?', '?']

/-- Reading a byte array through `constData()` as a C string: the text stops at the first NUL. -/
def constData (s : QString) : QString :=
  s.takeWhile fun c => c != nul

/-- The expression `q.toLatin1().constData()` handed to a `std::string` or `char*` setter. -/
def toStdString (q : QString) : QString :=
  constData (toLatin1 q)

/-- Model of `QString(const char*)`: a null pointer gives the empty text, any other C string its
text. The decoding is the identity on ASCII; how bytes above 127 are decoded depends on the Qt
version, and no theorem below relies on it. -/
def fromCStr (p : Option QString) : QString :=
  p.getD []

/-- A `char*` argument computed as `s.empty() ? NULL : s.c_str()`. -/
def cstrOrNull (s : QString) : Option QString :=
  if s.isEmpty then none else some s

/-! ## Data model -/

/-- Modelled from the spec: `vtkSlicerTerminologiesModuleLogic::CodeIdentifier` (declared in a
header that is not part of the sources); the triple (scheme designator, code value, code meaning)
of three `std::string`s. -/
structure CodeIdentifier where
  CodingSchemeDesignator : QString
  CodeValue : QString
  CodeMeaning : QString
deriving DecidableEq, Repr

/-- Modelled from the spec: `vtkSlicerTerminologyCategory` (its header is not part of the
sources); the three nullable `char*` members of a code and the show-anatomy flag, as read by
the getters the source calls. A freshly allocated object has null members. -/
structure vtkSlicerTerminologyCategory where
  CodingScheme : Option QString := none
  CodeValue : Option QString := none
  CodeMeaning : Option QString := none
  ShowAnatomy : Bool := true
deriving DecidableEq, Repr

/-- Modelled from the spec: `vtkSlicerTerminologyType` (its header is not part of the sources);
the three nullable `char*` members of a code, the has-modifiers flag and the recommended display
colour (three `unsigned char`s). A freshly allocated object has null members. -/
structure vtkSlicerTerminologyType where
  CodingScheme : Option QString := none
  CodeValue : Option QString := none
  CodeMeaning : Option QString := none
  HasModifiers : Bool := false
  RecommendedDisplayRGBValue : Fin 256 × Fin 256 × Fin 256 := (127, 127, 127)
deriving DecidableEq, Repr

/-- Modelled from the spec: `vtkSlicerTerminologyEntry` (its header is not part of the sources);
two nullable names and five nullable object pointers, as read and written by the source. -/
structure vtkSlicerTerminologyEntry where
  TerminologyContextName : Option QString := none
  CategoryObject : Option vtkSlicerTerminologyCategory := none
  TypeObject : Option vtkSlicerTerminologyType := none
  TypeModifierObject : Option vtkSlicerTerminologyType := none
  AnatomicContextName : Option QString := none
  AnatomicRegionObject : Option vtkSlicerTerminologyType := none
  AnatomicRegionModifierObject : Option vtkSlicerTerminologyType := none
deriving DecidableEq, Repr

/-- The text `QString(obj ? obj->GetCodingScheme() : NULL)` of a nullable category. -/
def categoryScheme (c : Option vtkSlicerTerminologyCategory) : QString :=
  fromCStr (c.bind fun o => o.CodingScheme)

/-- The text `QString(obj ? obj->GetCodeValue() : NULL)` of a nullable category. -/
def categoryValue (c : Option vtkSlicerTerminologyCategory) : QString :=
  fromCStr (c.bind fun o => o.CodeValue)

/-- The text `QString(obj ? obj->GetCodeMeaning() : NULL)` of a nullable category. -/
def categoryMeaning (c : Option vtkSlicerTerminologyCategory) : QString :=
  fromCStr (c.bind fun o => o.CodeMeaning)

/-- The text `QString(obj ? obj->GetCodingScheme() : NULL)` of a nullable type object. -/
def typeScheme (t : Option vtkSlicerTerminologyType) : QString :=
  fromCStr (t.bind fun o => o.CodingScheme)

/-- The text `QString(obj ? obj->GetCodeValue() : NULL)` of a nullable type object. -/
def typeValue (t : Option vtkSlicerTerminologyType) : QString :=
  fromCStr (t.bind fun o => o.CodeValue)

/-- The text `QString(obj ? obj->GetCodeMeaning() : NULL)` of a nullable type object. -/
def typeMeaning (t : Option vtkSlicerTerminologyType) : QString :=
  fromCStr (t.bind fun o => o.CodeMeaning)

/-! ## Serialization -/

/-- The overload `serializeTerminologyEntry(vtkSlicerTerminologyEntry*)`; a null entry gives the
null (empty) text. -/
def serializeTerminologyEntry (entry : Option vtkSlicerTerminologyEntry) : QString :=
  match entry with
  | none => []
  | some e =>
    let serializedEntry : QString := []
    let serializedEntry := serializedEntry ++ (fromCStr e.TerminologyContextName ++ [tilde])
    let serializedEntry := serializedEntry ++ (categoryScheme e.CategoryObject ++ [caret]
      ++ categoryValue e.CategoryObject ++ [caret]
      ++ categoryMeaning e.CategoryObject ++ [tilde])
    let serializedEntry := serializedEntry ++ (typeScheme e.TypeObject ++ [caret]
      ++ typeValue e.TypeObject ++ [caret]
      ++ typeMeaning e.TypeObject ++ [tilde])
    let serializedEntry := serializedEntry ++ (typeScheme e.TypeModifierObject ++ [caret]
      ++ typeValue e.TypeModifierObject ++ [caret]
      ++ typeMeaning e.TypeModifierObject ++ [tilde])
    let serializedEntry := serializedEntry ++ (fromCStr e.AnatomicContextName ++ [tilde])
    let serializedEntry := serializedEntry ++ (typeScheme e.AnatomicRegionObject ++ [caret]
      ++ typeValue e.AnatomicRegionObject ++ [caret]
      ++ typeMeaning e.AnatomicRegionObject ++ [tilde])
    let serializedEntry := serializedEntry ++ (typeScheme e.AnatomicRegionModifierObject ++ [caret]
      ++ typeValue e.AnatomicRegionModifierObject ++ [caret]
      ++ typeMeaning e.AnatomicRegionModifierObject)
    serializedEntry

/-- The overload `serializeTerminologyEntry(QString, ...)` of seventeen texts; every triple is
received as (value, scheme designator, meaning). -/
def serializeTerminologyEntryStrings
    (terminologyContextName : QString)
    (categoryValue categorySchemeDesignator categoryMeaning : QString)
    (typeValue typeSchemeDesignator typeMeaning : QString)
    (modifierValue modifierSchemeDesignator modifierMeaning : QString)
    (anatomicContextName : QString)
    (regionValue regionSchemeDesignator regionMeaning : QString)
    (regionModifierValue regionModifierSchemeDesignator regionModifierMeaning : QString) :
    QString :=
  let serializedEntry : QString := []
  let serializedEntry := serializedEntry ++ (terminologyContextName ++ [tilde])
  let serializedEntry := serializedEntry
    ++ (categorySchemeDesignator ++ [caret] ++ categoryValue ++ [caret] ++ categoryMeaning ++ [tilde])
  let serializedEntry := serializedEntry
    ++ (typeSchemeDesignator ++ [caret] ++ typeValue ++ [caret] ++ typeMeaning ++ [tilde])
  let serializedEntry := serializedEntry
    ++ (modifierSchemeDesignator ++ [caret] ++ modifierValue ++ [caret] ++ modifierMeaning ++ [tilde])
  let serializedEntry := serializedEntry ++ (anatomicContextName ++ [tilde])
  let serializedEntry := serializedEntry
    ++ (regionSchemeDesignator ++ [caret] ++ regionValue ++ [caret] ++ regionMeaning ++ [tilde])
  let serializedEntry := serializedEntry
    ++ (regionModifierSchemeDesignator ++ [caret] ++ regionModifierValue ++ [caret]
      ++ regionModifierMeaning)
  serializedEntry

/-! ## The terminology logic -/

/-- Modelled from the spec: `vtkSlicerTerminologiesModuleLogic` (an external collaborator whose
sources are not part of this fragment); it answers lookup and search queries by code identifier.
A lookup that returns `true` and fills its output object is `some` object, a lookup that returns
`false` is `none`; a search returns the identifiers it puts into its output vector. -/
structure vtkSlicerTerminologiesModuleLogic where
  GetLoadedTerminologyNames : List QString
  GetLoadedAnatomicContextNames : List QString
  FindCategoriesInTerminology : QString → QString → List CodeIdentifier
  FindTypesInTerminologyCategory : QString → CodeIdentifier → QString → List CodeIdentifier
  GetTypeModifiersInTerminologyType : QString → CodeIdentifier → CodeIdentifier → List CodeIdentifier
  FindRegionsInAnatomicContext : QString → QString → List CodeIdentifier
  GetRegionModifiersInAnatomicRegion : QString → CodeIdentifier → List CodeIdentifier
  GetCategoryInTerminology : QString → CodeIdentifier → Option vtkSlicerTerminologyCategory
  GetTypeInTerminologyCategory :
    QString → CodeIdentifier → CodeIdentifier → Option vtkSlicerTerminologyType
  GetTypeModifierInTerminologyType :
    QString → CodeIdentifier → CodeIdentifier → CodeIdentifier → Option vtkSlicerTerminologyType
  GetRegionInAnatomicContext : QString → CodeIdentifier → Option vtkSlicerTerminologyType
  GetRegionModifierInAnatomicRegion :
    QString → CodeIdentifier → CodeIdentifier → Option vtkSlicerTerminologyType

/-- Modelled from the spec: the static `CodeIdentifierFromTerminologyCategory` of the terminology
logic (not part of the sources); the code identifier of a category object, null members read as
empty text. -/
def CodeIdentifierFromTerminologyCategory (category : Option vtkSlicerTerminologyCategory) :
    CodeIdentifier :=
  { CodingSchemeDesignator := categoryScheme category
    CodeValue := categoryValue category
    CodeMeaning := categoryMeaning category }

/-- Modelled from the spec: the static `CodeIdentifierFromTerminologyType` of the terminology
logic (not part of the sources); the code identifier of a type object, null members read as
empty text. -/
def CodeIdentifierFromTerminologyType (type : Option vtkSlicerTerminologyType) : CodeIdentifier :=
  { CodingSchemeDesignator := typeScheme type
    CodeValue := typeValue type
    CodeMeaning := typeMeaning type }

/-- The code identifier built from the three parts of a split component, each passed as
`part.toLatin1().constData()`. -/
def codeIdentifierOfParts (ids : List QString) : CodeIdentifier :=
  { CodingSchemeDesignator := toStdString (ids.getD 0 [])
    CodeValue := toStdString (ids.getD 1 [])
    CodeMeaning := toStdString (ids.getD 2 []) }

/-- The function `deserializeTerminologyEntry(serializedEntry, entry)`: the returned flag and the
entry as the call leaves it. The argument `logic` is what the static `terminologyLogic()` returns
(`none` when the Terminologies module or its logic is not available). -/
def deserializeTerminologyEntry (logic : Option vtkSlicerTerminologiesModuleLogic)
    (serializedEntry : QString) (entry : vtkSlicerTerminologyEntry) :
    Bool × vtkSlicerTerminologyEntry :=
  -- Clear terminology entry object
  let entry := { entry with TerminologyContextName := none }
  let entry := { entry with CategoryObject := none }
  let entry := { entry with TypeObject := none }
  let entry := { entry with TypeModifierObject := none }
  let entry := { entry with AnatomicContextName := none }
  let entry := { entry with AnatomicRegionObject := none }
  let entry := { entry with AnatomicRegionModifierObject := none }
  let entryComponents := split tilde serializedEntry
  if entryComponents.length ≠ 7 then (false, entry) else
  match logic with
  | none => (false, entry)
  | some terminologyLogic =>
  -- Terminology context name
  if (entryComponents.getD 0 []).isEmpty then (false, entry) else
  let terminologyName := toStdString (entryComponents.getD 0 [])
  let entry := { entry with TerminologyContextName := cstrOrNull terminologyName }
  -- Category
  let categoryIds := split caret (entryComponents.getD 1 [])
  if categoryIds.length ≠ 3 then (false, entry) else
  let categoryId := codeIdentifierOfParts categoryIds
  match terminologyLogic.GetCategoryInTerminology terminologyName categoryId with
  | none => (false, entry)
  | some categoryObject =>
  let entry := { entry with CategoryObject := some categoryObject }
  -- Type
  let typeIds := split caret (entryComponents.getD 2 [])
  if typeIds.length ≠ 3 then (false, entry) else
  let typeId := codeIdentifierOfParts typeIds
  match terminologyLogic.GetTypeInTerminologyCategory terminologyName categoryId typeId with
  | none => (false, entry)
  | some typeObject =>
  let entry := { entry with TypeObject := some typeObject }
  -- Type modifier (optional)
  let typeModifierIds := split caret (entryComponents.getD 3 [])
  let entry :=
    if typeModifierIds.length = 3 then
      match terminologyLogic.GetTypeModifierInTerminologyType terminologyName categoryId typeId
          (codeIdentifierOfParts typeModifierIds) with
      | some typeModifierObject => { entry with TypeModifierObject := some typeModifierObject }
      | none => entry
    else entry
  -- Anatomic context name (optional)
  let anatomicContextName := toStdString (entryComponents.getD 4 [])
  let entry := { entry with AnatomicContextName := cstrOrNull anatomicContextName }
  -- Anatomic region (optional)
  let regionIds := split caret (entryComponents.getD 5 [])
  let entry :=
    if regionIds.length = 3 then
      let regionId := codeIdentifierOfParts regionIds
      let entry :=
        match terminologyLogic.GetRegionInAnatomicContext anatomicContextName regionId with
        | some regionObject => { entry with AnatomicRegionObject := some regionObject }
        | none => entry
      -- Anatomic region modifier (optional)
      let regionModifierIds := split caret (entryComponents.getD 6 [])
      if regionModifierIds.length = 3 then
        match terminologyLogic.GetRegionModifierInAnatomicRegion anatomicContextName regionId
            (codeIdentifierOfParts regionModifierIds) with
        | some regionModifierObject =>
          { entry with AnatomicRegionModifierObject := some regionModifierObject }
        | none => entry
      else entry
    else entry
  (true, entry)

/-! ## Colours -/

/-- Model of `QColor`, restricted to what the source uses: the invalid colour `QColor()` and the
opaque RGB colours made by `setRgb` from three `unsigned char`s. -/
inductive QColor where
  | invalid
  | rgb (r g b : Fin 256)
deriving DecidableEq, Repr

/-- Model of `QColor::isValid`. -/
def QColor.isValid : QColor → Bool
  | QColor.invalid => false
  | QColor.rgb _ _ _ => true

/-- The colour `color.setRgb(colorChar[0], colorChar[1], colorChar[2])` read from a type object
through `GetRecommendedDisplayRGBValue`. -/
def recommendedDisplayColor (typeObject : vtkSlicerTerminologyType) : QColor :=
  QColor.rgb typeObject.RecommendedDisplayRGBValue.1 typeObject.RecommendedDisplayRGBValue.2.1
    typeObject.RecommendedDisplayRGBValue.2.2

/-- The static `recommendedColorFromTerminology(entry)`. The result is `none` when the call
dereferences a null pointer (the type has modifiers and the entry holds no type modifier), which
in C++ is undefined behaviour. -/
def recommendedColorFromTerminology (entry : Option vtkSlicerTerminologyEntry) : Option QColor :=
  let color := QColor.invalid
  match entry with
  | none => some color
  | some e =>
    match e.TypeObject with
    | none => some color
    | some typeObject =>
      let typeObject : Option vtkSlicerTerminologyType :=
        if typeObject.HasModifiers then e.TypeModifierObject else some typeObject
      match typeObject with
      | none => none
      | some typeObject => some (recommendedDisplayColor typeObject)

/-! ## The item delegate -/

/-- Model of `QVariant`, restricted to the values the delegate stores and reads. -/
inductive QVariant where
  | null
  | string (s : QString)
  | color (c : QColor)
deriving DecidableEq, Repr

/-- Model of `QVariant::toString` on the values of the model. -/
def QVariant.toString : QVariant → QString
  | QVariant.string s => s
  | _ => []

/-- Model of `QVariant::value<QColor>()` on the values of the model. -/
def QVariant.toColor : QVariant → QColor
  | QVariant.color c => c
  | _ => QColor.invalid

/-- The item role `Qt::DecorationRole`. -/
def DecorationRole : Nat := 1

/-- The item role `Qt::WhatsThisRole`. -/
def WhatsThisRole : Nat := 5

/-- A model index: row and column. -/
abbrev QModelIndex := Nat × Nat

/-- Model of a `QAbstractItemModel` that stores what `setData` is given: the data of every cell
under every role. -/
abbrev QAbstractItemModel := QModelIndex → Nat → QVariant

/-- Model of `model->data(index, role)`. -/
def QAbstractItemModel.data (model : QAbstractItemModel) (index : QModelIndex) (role : Nat) :
    QVariant :=
  model index role

/-- Model of `model->setData(index, value, role)`. -/
def QAbstractItemModel.setData (model : QAbstractItemModel) (index : QModelIndex)
    (value : QVariant) (role : Nat) : QAbstractItemModel :=
  fun i r => if i = index ∧ r = role then value else model i r

/-- Modelled from the spec: `qSlicerTerminologySelectorButton` (its sources are not part of this
fragment); the editor holds the dynamic property `changeDataOnSet`, a terminology entry and a
colour. -/
structure qSlicerTerminologySelectorButton where
  changeDataOnSet : Bool := false
  TerminologyEntry : Option vtkSlicerTerminologyEntry := none
  Color : QColor := QColor.invalid
deriving DecidableEq, Repr

/-- Modelled from the spec: the methods of `qSlicerTerminologySelectorButton` that the delegate
calls on its editor and whose sources are not part of this fragment. -/
structure SelectorButtonMethods where
  setTerminologyEntry :
    qSlicerTerminologySelectorButton → vtkSlicerTerminologyEntry → Bool →
      qSlicerTerminologySelectorButton
  setColor : qSlicerTerminologySelectorButton → QColor → qSlicerTerminologySelectorButton
  changeTerminology : qSlicerTerminologySelectorButton → qSlicerTerminologySelectorButton

/-- The delegate's `createEditor`: a new button with `changeDataOnSet` set. -/
def createEditor : qSlicerTerminologySelectorButton :=
  { ({} : qSlicerTerminologySelectorButton) with changeDataOnSet := true }

/-- The delegate's `setEditorData(editor, index)`: the editor as the call leaves it. -/
def setEditorData (methods : SelectorButtonMethods)
    (logic : Option vtkSlicerTerminologiesModuleLogic)
    (terminologyButton : qSlicerTerminologySelectorButton)
    (model : QAbstractItemModel) (index : QModelIndex) : qSlicerTerminologySelectorButton :=
  if terminologyButton.changeDataOnSet then
    let terminologyButton := { terminologyButton with changeDataOnSet := false }
    -- Get string list value from model index
    let terminologyString := (model.data index WhatsThisRole).toString
    -- Convert string list to VTK terminology entry. Do not check success
    let terminologyEntry := (deserializeTerminologyEntry logic terminologyString {}).2
    -- Get color
    let color := (model.data index DecorationRole).toColor
    let terminologyButton := methods.setTerminologyEntry terminologyButton terminologyEntry false
    let terminologyButton := methods.setColor terminologyButton color
    methods.changeTerminology terminologyButton
  else terminologyButton

/-- The delegate's `setModelData(editor, model, index)`: the model as the call leaves it, or
`none` when computing the recommended colour dereferences a null pointer. -/
def setModelData (terminologyButton : qSlicerTerminologySelectorButton)
    (model : QAbstractItemModel) (index : QModelIndex) : Option QAbstractItemModel :=
  let terminologyEntry := terminologyButton.TerminologyEntry
  -- Get recommended color from terminology if custom color is invalid
  let color := terminologyButton.Color
  let color : Option QColor :=
    if !color.isValid then recommendedColorFromTerminology terminologyEntry else some color
  match color with
  | none => none
  | some color =>
    -- Set color to model
    let model := model.setData index (QVariant.color color) DecorationRole
    -- Set terminology string to model
    some (model.setData index (QVariant.string (serializeTerminologyEntry terminologyEntry))
      WhatsThisRole)

/-- The signals of the delegate that its slots emit, each with the editor it carries. -/
inductive DelegateSignal where
  | commitData (editor : qSlicerTerminologySelectorButton)
  | closeEditor (editor : qSlicerTerminologySelectorButton)
deriving DecidableEq, Repr

/-- The slot `commitSenderData()`: the signals it emits, in order, for the sending editor. -/
def commitSenderData (sender : qSlicerTerminologySelectorButton) : List DelegateSignal :=
  [DelegateSignal.commitData sender]

/-- The slot `commitAndClose()`: the signals it emits, in order, for the sending editor. -/
def commitAndClose (sender : qSlicerTerminologySelectorButton) : List DelegateSignal :=
  [DelegateSignal.commitData sender, DelegateSignal.closeEditor sender]

/-- The slot `close()`: the signals it emits, in order, for the sending editor. -/
def close (sender : qSlicerTerminologySelectorButton) : List DelegateSignal :=
  [DelegateSignal.closeEditor sender]

/-- The two signals of the editor that `createEditor` connects. -/
inductive SelectorButtonSignal where
  | terminologyChanged
  | canceled
deriving DecidableEq, Repr

/-- The connections that `createEditor` makes: the slot of the delegate that runs when the editor
emits the signal. -/
def connectedSlot : SelectorButtonSignal →
    qSlicerTerminologySelectorButton → List DelegateSignal
  | SelectorButtonSignal.terminologyChanged => commitAndClose
  | SelectorButtonSignal.canceled => close

/-- Model of the view that owns the delegate (`QAbstractItemView`): on `commitData(editor)` it
calls `setModelData(editor, model, index)` of the delegate for the edited cell, on
`closeEditor(editor)` it releases the editor and leaves the model alone. The result is `none` when
`setModelData` dereferences a null pointer. -/
def viewReaction (index : QModelIndex) (model : QAbstractItemModel) :
    DelegateSignal → Option QAbstractItemModel
  | DelegateSignal.commitData editor => setModelData editor model index
  | DelegateSignal.closeEditor _ => some model

/-- The view's reactions to a sequence of signals of the delegate, in order. -/
def viewReactions (index : QModelIndex) :
    List DelegateSignal → QAbstractItemModel → Option QAbstractItemModel
  | [], model => some model
  | signal :: rest, model =>
    match viewReaction index model signal with
    | none => none
    | some model => viewReactions index rest model

/-- A sequence of calls of `setEditorData` on one editor, each for a model and a cell. -/
def setEditorDataSequence (methods : SelectorButtonMethods)
    (logic : Option vtkSlicerTerminologiesModuleLogic) :
    List (QAbstractItemModel × QModelIndex) → qSlicerTerminologySelectorButton →
      qSlicerTerminologySelectorButton
  | [], terminologyButton => terminologyButton
  | call :: rest, terminologyButton =>
    setEditorDataSequence methods logic rest
      (setEditorData methods logic terminologyButton call.1 call.2)

/-! ## Widgets of the navigator

The Qt widgets are modelled by the part of their state that the source reads and writes. A
combobox reports a change of its current index through `currentIndexChanged(int)`, which `init()`
connects to a slot of the navigator; the operations of the model return the emitted index
together with the new combobox, and the navigator functions run the connected slot on it. -/

/-- Model of a `QTableWidgetItem` of the navigator's one-column tables: its text and its data
under `CodingSchemeDesignatorRole` and `CodeValueRole`, read as text. -/
structure QTableWidgetItem where
  text : QString := []
  CodingSchemeDesignator : QString := []
  CodeValue : QString := []
deriving DecidableEq, Repr

/-- Model of a one-column `QTableWidget`: the item of every row (if any), the row of the current
item, and the enabled flag. None of the table signals that `init()` connects (`itemClicked`) is
emitted by the calls the source makes. -/
structure QTableWidget where
  rows : List (Option QTableWidgetItem) := []
  currentRow : Option Nat := none
  enabled : Bool := true
  signalsBlocked : Bool := false
deriving DecidableEq, Repr

/-- Model of `QTableWidget::clearContents`: the items are removed, the rows stay. -/
def QTableWidget.clearContents (t : QTableWidget) : QTableWidget :=
  { t with rows := t.rows.map fun _ => none, currentRow := none }

/-- Model of `QTableWidget::setRowCount`. -/
def QTableWidget.setRowCount (t : QTableWidget) (n : Nat) : QTableWidget :=
  { t with
    rows := t.rows.take n ++ List.replicate (n - t.rows.length) none
    currentRow := t.currentRow.bind fun r => if r < n then some r else none }

/-- Model of `QTableWidget::rowCount`. -/
def QTableWidget.rowCount (t : QTableWidget) : Nat :=
  t.rows.length

/-- Model of `QTableWidget::setItem(row, 0, item)`. -/
def QTableWidget.setItem (t : QTableWidget) (row : Nat) (item : QTableWidgetItem) :
    QTableWidget :=
  { t with rows := t.rows.set row (some item) }

/-- Model of `QTableWidget::setCurrentItem`, the item given by its row (`none` for `NULL`). -/
def QTableWidget.setCurrentItem (t : QTableWidget) (row : Option Nat) : QTableWidget :=
  { t with currentRow := row }

/-- Model of `QTableWidget::setEnabled`. -/
def QTableWidget.setEnabled (t : QTableWidget) (b : Bool) : QTableWidget :=
  { t with enabled := b }

/-- Model of `QTableWidget::blockSignals`. -/
def QTableWidget.blockSignals (t : QTableWidget) (b : Bool) : QTableWidget :=
  { t with signalsBlocked := b }

/-- Model of `QTableWidget::findItems(text, Qt::MatchExactly | Qt::MatchCaseSensitive)`: the
rows, in order, whose item has exactly the given text, each with its item. -/
def QTableWidget.findItems (t : QTableWidget) (text : QString) :
    List (Nat × QTableWidgetItem) :=
  t.rows.enum.filterMap fun p =>
    match p.2 with
    | some item => if item.text = text then some (p.1, item) else none
    | none => none

/-- Model of an item of a `QComboBox` of the navigator: its text and the two entries of the
`QMap` stored as user data (empty text when the item has no user data). -/
structure QComboBoxItem where
  text : QString := []
  CodingSchemeDesignator : QString := []
  CodeValue : QString := []
deriving DecidableEq, Repr

/-- Model of a `QComboBox` (`ctkComboBox`): items, current index (`-1` for none), flags. -/
structure QComboBox where
  items : List QComboBoxItem := []
  currentIndex : Int := -1
  enabled : Bool := true
  visible : Bool := true
  signalsBlocked : Bool := false
deriving DecidableEq, Repr

/-- The index carried by `currentIndexChanged(int)` when the current index changes from `old` to
`new` and the signals of the combobox are not blocked. -/
def QComboBox.emission (b : QComboBox) (old new : Int) : Option Int :=
  if old ≠ new ∧ b.signalsBlocked = false then some new else none

/-- Model of `QComboBox::clear`: all items are removed; a combobox that had a current item is
left without one and reports the index `-1`. -/
def QComboBox.clear (b : QComboBox) : QComboBox × Option Int :=
  ({ b with items := [], currentIndex := -1 }, b.emission b.currentIndex (-1))

/-- Model of `QComboBox::addItem(text, userData)`: the item is appended; the first item put into
an empty combobox becomes the current one, and the combobox reports the index `0`. -/
def QComboBox.addItem (b : QComboBox) (item : QComboBoxItem) : QComboBox × Option Int :=
  if b.items.isEmpty then
    ({ b with items := [item], currentIndex := 0 }, b.emission b.currentIndex 0)
  else
    ({ b with items := b.items ++ [item] }, none)

/-- Model of `QComboBox::count`. -/
def QComboBox.count (b : QComboBox) : Nat :=
  b.items.length

/-- Model of `QComboBox::setCurrentIndex`: an index that is not the index of an item stands
for no current item. -/
def QComboBox.setCurrentIndex (b : QComboBox) (index : Int) : QComboBox × Option Int :=
  let target : Int := if 0 ≤ index ∧ index < b.items.length then index else -1
  ({ b with currentIndex := target }, b.emission b.currentIndex target)

/-- Model of `QComboBox::setEnabled`. -/
def QComboBox.setEnabled (b : QComboBox) (e : Bool) : QComboBox :=
  { b with enabled := e }

/-- Model of `QComboBox::setVisible`. -/
def QComboBox.setVisible (b : QComboBox) (v : Bool) : QComboBox :=
  { b with visible := v }

/-- Model of `QComboBox::blockSignals`. -/
def QComboBox.blockSignals (b : QComboBox) (v : Bool) : QComboBox :=
  { b with signalsBlocked := v }

/-- The item at an index, the default item (empty text, no user data) when there is none. -/
def QComboBox.itemAt (b : QComboBox) (index : Int) : QComboBoxItem :=
  if 0 ≤ index then b.items.getD index.toNat {} else {}

/-- Model of `QComboBox::itemText`. -/
def QComboBox.itemText (b : QComboBox) (index : Int) : QString :=
  (b.itemAt index).text

/-- Model of `QComboBox::findText` with its default exact, case-sensitive match: the index of the
first item with the given text, `-1` when there is none. -/
def QComboBox.findText (b : QComboBox) (text : QString) : Int :=
  match b.items.findIdx? fun item => item.text = text with
  | some i => (i : Int)
  | none => -1

/-- Model of a search box (`ctkSearchBox`): its text and its enabled flag. -/
structure SearchBox where
  text : QString := []
  enabled : Bool := true
deriving DecidableEq, Repr

/-- Model of `ctkColorPickerButton`: its colour and flags. -/
structure ctkColorPickerButton where
  color : QColor := QColor.rgb 0 0 0
  enabled : Bool := true
  signalsBlocked : Bool := false
deriving DecidableEq, Repr

/-- Model of `ctkColorPickerButton::setColor`: a colour different from the current one is stored
and reported through `colorChanged(QColor)` unless the signals are blocked. -/
def ctkColorPickerButton.setColor (b : ctkColorPickerButton) (c : QColor) :
    ctkColorPickerButton × Option QColor :=
  if b.color = c then (b, none)
  else ({ b with color := c }, if b.signalsBlocked then none else some c)

/-! ## State of the navigator -/

/-- The private data of the navigator (`qSlicerTerminologyNavigatorWidgetPrivate`) with the
widgets of its form, the `selectionValidityChanged(bool)` signals emitted so far (latest last)
and the depth of the application's override-cursor stack. -/
structure qSlicerTerminologyNavigatorWidgetPrivate where
  CurrentTerminologyName : QString := []
  CurrentCategoryObject : Option vtkSlicerTerminologyCategory := some {}
  CurrentTypeObject : Option vtkSlicerTerminologyType := some {}
  CurrentTypeModifierObject : Option vtkSlicerTerminologyType := some {}
  CurrentAnatomicContextName : QString := []
  CurrentRegionObject : Option vtkSlicerTerminologyType := some {}
  CurrentRegionModifierObject : Option vtkSlicerTerminologyType := some {}
  CustomColor : QColor := QColor.invalid
  ComboBox_Terminology : QComboBox := {}
  tableWidget_Category : QTableWidget := {}
  SearchBox_Category : SearchBox := {}
  tableWidget_Type : QTableWidget := {}
  SearchBox_Type : SearchBox := {}
  ComboBox_TypeModifier : QComboBox := {}
  ColorPickerButton_RecommendedRGB : ctkColorPickerButton := {}
  ComboBox_AnatomicContext : QComboBox := {}
  tableWidget_AnatomicRegion : QTableWidget := {}
  SearchBox_AnatomicRegion : SearchBox := {}
  ComboBox_AnatomicRegionModifier : QComboBox := {}
  selectionValidityChanged : List Bool := []
  overrideCursor : Nat := 0
deriving DecidableEq, Repr

/-- The private data as its constructor leaves it: five freshly allocated objects, empty names,
no custom colour. -/
def constructedPrivate : qSlicerTerminologyNavigatorWidgetPrivate := {}

/-- The helper `resetCurrentCategory`. -/
def resetCurrentCategory (d : qSlicerTerminologyNavigatorWidgetPrivate) :
    qSlicerTerminologyNavigatorWidgetPrivate :=
  { d with CurrentCategoryObject := some {} }

/-- The helper `resetCurrentType`. -/
def resetCurrentType (d : qSlicerTerminologyNavigatorWidgetPrivate) :
    qSlicerTerminologyNavigatorWidgetPrivate :=
  { d with CurrentTypeObject := some {} }

/-- The helper `resetCurrentTypeModifier`. -/
def resetCurrentTypeModifier (d : qSlicerTerminologyNavigatorWidgetPrivate) :
    qSlicerTerminologyNavigatorWidgetPrivate :=
  { d with CurrentTypeModifierObject := some {} }

/-- The helper `resetCurrentRegion`. -/
def resetCurrentRegion (d : qSlicerTerminologyNavigatorWidgetPrivate) :
    qSlicerTerminologyNavigatorWidgetPrivate :=
  { d with CurrentRegionObject := some {} }

/-- The helper `resetCurrentRegionModifier`. -/
def resetCurrentRegionModifier (d : qSlicerTerminologyNavigatorWidgetPrivate) :
    qSlicerTerminologyNavigatorWidgetPrivate :=
  { d with CurrentRegionModifierObject := some {} }

/-- The slot `onColorChanged(color)`, connected to `colorChanged` of the colour picker. -/
def onColorChanged (d : qSlicerTerminologyNavigatorWidgetPrivate) (color : QColor) :
    qSlicerTerminologyNavigatorWidgetPrivate :=
  { d with CustomColor := color }

/-- The call `d->ColorPickerButton_RecommendedRGB->setColor(color)` followed by the slot that a
`colorChanged` signal runs. -/
def setPickerColor (d : qSlicerTerminologyNavigatorWidgetPrivate) (color : QColor) :
    qSlicerTerminologyNavigatorWidgetPrivate :=
  let r := d.ColorPickerButton_RecommendedRGB.setColor color
  let d := { d with ColorPickerButton_RecommendedRGB := r.1 }
  match r.2 with
  | some c => onColorChanged d c
  | none => d

/-- The helper `setRecommendedColorFromCurrentTerminology`. -/
def setRecommendedColorFromCurrentTerminology (d : qSlicerTerminologyNavigatorWidgetPrivate) :
    qSlicerTerminologyNavigatorWidgetPrivate :=
  let gray : QColor := QColor.rgb 127 127 127
  let noColor : Bool :=
    match d.CurrentTypeObject with
    | none => true
    | some t => t.HasModifiers && d.CurrentTypeModifierObject.isNone
  if noColor then
    let d := { d with ColorPickerButton_RecommendedRGB :=
      { d.ColorPickerButton_RecommendedRGB with signalsBlocked := true } }
    let d := setPickerColor d gray
    { d with ColorPickerButton_RecommendedRGB :=
      { d.ColorPickerButton_RecommendedRGB with enabled := false } }
  else
    -- Valid color is present, enable color picker
    let d := { d with ColorPickerButton_RecommendedRGB :=
      { d.ColorPickerButton_RecommendedRGB with enabled := true } }
    -- Clear custom color
    let d := { d with CustomColor := QColor.invalid }
    let source : Option vtkSlicerTerminologyType :=
      match d.CurrentTypeObject with
      | some t => if !t.HasModifiers then some t else d.CurrentTypeModifierObject
      | none => none
    let color : QColor :=
      match source with
      | some o => recommendedDisplayColor o
      | none => gray
    let d := { d with ColorPickerButton_RecommendedRGB :=
      { d.ColorPickerButton_RecommendedRGB with signalsBlocked := true } }
    let d := setPickerColor d color
    { d with ColorPickerButton_RecommendedRGB :=
      { d.ColorPickerButton_RecommendedRGB with signalsBlocked := false } }

/-! ## Operations of the navigator

Every operation takes the terminology logic that the static `terminologyLogic()` returns (`none`
when it is not available) and the private data, and returns the private data as the call leaves
it. The result is `none` when the call dereferences a null pointer, which in C++ is undefined
behaviour. -/

/-- The helper `findTableWidgetItemForCategory`, on the category table: the row of the item
found, `none` for `NULL`. -/
def findTableWidgetItemForCategory (d : qSlicerTerminologyNavigatorWidgetPrivate)
    (category : Option vtkSlicerTerminologyCategory) : Option Nat :=
  match category with
  | none => none
  | some category =>
    let categoryName := fromCStr category.CodeMeaning
    let items := d.tableWidget_Category.findItems categoryName
    (items.find? fun p =>
      match category.CodingScheme, category.CodeValue with
      | some scheme, some value =>
        decide (p.2.CodingSchemeDesignator = scheme) && decide (p.2.CodeValue = value)
      | _, _ => false).map fun p => p.1

/-- The helper `findTableWidgetItemForType`, on the given (type or region) table: the row of the
item found, `none` for `NULL`. -/
def findTableWidgetItemForType (tableWidget : Option QTableWidget)
    (type : Option vtkSlicerTerminologyType) : Option Nat :=
  match tableWidget, type with
  | some tableWidget, some type =>
    let typeName := fromCStr type.CodeMeaning
    let items := tableWidget.findItems typeName
    (items.find? fun p =>
      match type.CodingScheme, type.CodeValue with
      | some scheme, some value =>
        decide (p.2.CodingSchemeDesignator = scheme) && decide (p.2.CodeValue = value)
      | _, _ => false).map fun p => p.1
  | _, _ => none

/-- The helper `findComboBoxIndexForModifier`: `-1` when not found. -/
def findComboBoxIndexForModifier (comboBox : Option QComboBox)
    (modifier : Option vtkSlicerTerminologyType) : Int :=
  match comboBox, modifier with
  | some comboBox, some modifier => comboBox.findText (fromCStr modifier.CodeMeaning)
  | _, _ => -1

/-- The function `setCurrentTypeModifier(modifier)`. -/
def setCurrentTypeModifier (d : qSlicerTerminologyNavigatorWidgetPrivate)
    (modifier : Option vtkSlicerTerminologyType) :
    Option (Bool × qSlicerTerminologyNavigatorWidgetPrivate) :=
  match modifier with
  | none => some (false, resetCurrentTypeModifier d)
  | some m =>
    -- Set current type modifier: d->CurrentTypeModifierObject->Copy(modifier)
    match d.CurrentTypeModifierObject with
    | none => none
    | some _ =>
      let d := { d with CurrentTypeModifierObject := some m }
      -- Select modifier if found
      let modifierIndex := findComboBoxIndexForModifier (some d.ComboBox_TypeModifier) modifier
      let d :=
        if modifierIndex ≠ -1 then
          let box := d.ComboBox_TypeModifier.blockSignals true
          let box := (box.setCurrentIndex modifierIndex).1
          { d with ComboBox_TypeModifier := box.blockSignals false }
        else d
      some (decide (modifierIndex ≠ -1), d)

/-- The slot `onTypeModifierSelectionChanged(index)`, connected to `currentIndexChanged(int)` of
the type-modifier combobox. -/
def onTypeModifierSelectionChanged (logic : Option vtkSlicerTerminologiesModuleLogic)
    (d : qSlicerTerminologyNavigatorWidgetPrivate) (index : Int) :
    Option qSlicerTerminologyNavigatorWidgetPrivate :=
  let d := { d with overrideCursor := d.overrideCursor + 1 }
  match logic with
  | none => some d
  | some logic =>
    let userData := d.ComboBox_TypeModifier.itemAt index
    let modifierId : CodeIdentifier :=
      { CodingSchemeDesignator := toStdString userData.CodingSchemeDesignator
        CodeValue := toStdString userData.CodeValue
        CodeMeaning := toStdString (d.ComboBox_TypeModifier.itemText index) }
    match logic.GetTypeModifierInTerminologyType (toStdString d.CurrentTerminologyName)
        (CodeIdentifierFromTerminologyCategory d.CurrentCategoryObject)
        (CodeIdentifierFromTerminologyType d.CurrentTypeObject) modifierId with
    | none => some d
    | some modifier =>
      -- Set current type modifier
      match setCurrentTypeModifier d (some modifier) with
      | none => none
      | some r =>
        -- Set recommended color to color picker
        let d := setRecommendedColorFromCurrentTerminology r.2
        some { d with overrideCursor := d.overrideCursor - 1 }

/-- Delivery of a `currentIndexChanged(int)` signal of the type-modifier combobox. -/
def deliverTypeModifierSignal (logic : Option vtkSlicerTerminologiesModuleLogic)
    (d : qSlicerTerminologyNavigatorWidgetPrivate) (signal : Option Int) :
    Option qSlicerTerminologyNavigatorWidgetPrivate :=
  match signal with
  | none => some d
  | some index => onTypeModifierSelectionChanged logic d index

/-- The function `setCurrentRegionModifier(modifier)`. -/
def setCurrentRegionModifier (d : qSlicerTerminologyNavigatorWidgetPrivate)
    (modifier : Option vtkSlicerTerminologyType) :
    Option (Bool × qSlicerTerminologyNavigatorWidgetPrivate) :=
  match modifier with
  | none => some (false, resetCurrentRegionModifier d)
  | some m =>
    -- Set current type modifier: d->CurrentRegionModifierObject->Copy(modifier)
    match d.CurrentRegionModifierObject with
    | none => none
    | some _ =>
      let d := { d with CurrentRegionModifierObject := some m }
      -- Select modifier if found
      let modifierIndex :=
        findComboBoxIndexForModifier (some d.ComboBox_AnatomicRegionModifier) modifier
      let d :=
        if modifierIndex ≠ -1 then
          let box := d.ComboBox_AnatomicRegionModifier.blockSignals true
          let box := (box.setCurrentIndex modifierIndex).1
          { d with ComboBox_AnatomicRegionModifier := box.blockSignals false }
        else d
      some (decide (modifierIndex ≠ -1), d)

/-- The slot `onRegionModifierSelectionChanged(index)`, connected to `currentIndexChanged(int)`
of the region-modifier combobox. -/
def onRegionModifierSelectionChanged (logic : Option vtkSlicerTerminologiesModuleLogic)
    (d : qSlicerTerminologyNavigatorWidgetPrivate) (index : Int) :
    Option qSlicerTerminologyNavigatorWidgetPrivate :=
  let d := { d with overrideCursor := d.overrideCursor + 1 }
  match logic with
  | none => some d
  | some logic =>
    let userData := d.ComboBox_AnatomicRegionModifier.itemAt index
    let modifierId : CodeIdentifier :=
      { CodingSchemeDesignator := toStdString userData.CodingSchemeDesignator
        CodeValue := toStdString userData.CodeValue
        CodeMeaning := toStdString (d.ComboBox_AnatomicRegionModifier.itemText index) }
    match logic.GetRegionModifierInAnatomicRegion (toStdString d.CurrentAnatomicContextName)
        (CodeIdentifierFromTerminologyType d.CurrentRegionObject) modifierId with
    | none => some d
    | some modifier =>
      -- Set current region modifier
      match setCurrentRegionModifier d (some modifier) with
      | none => none
      | some r => some { r.2 with overrideCursor := r.2.overrideCursor - 1 }

/-- Delivery of a `currentIndexChanged(int)` signal of the region-modifier combobox. -/
def deliverRegionModifierSignal (logic : Option vtkSlicerTerminologiesModuleLogic)
    (d : qSlicerTerminologyNavigatorWidgetPrivate) (signal : Option Int) :
    Option qSlicerTerminologyNavigatorWidgetPrivate :=
  match signal with
  | none => some d
  | some index => onRegionModifierSelectionChanged logic d index

/-- The item that a populate function makes for a code identifier: the code meaning as text, the
scheme designator and the code value as data. -/
def tableItemOfId (id : CodeIdentifier) : QTableWidgetItem :=
  { text := id.CodeMeaning
    CodingSchemeDesignator := id.CodingSchemeDesignator
    CodeValue := id.CodeValue }

/-- The combobox item that a populate function makes for a code identifier. -/
def comboItemOfId (id : CodeIdentifier) : QComboBoxItem :=
  { text := id.CodeMeaning
    CodingSchemeDesignator := id.CodingSchemeDesignator
    CodeValue := id.CodeValue }

/-- The test `obj->GetCodingScheme() && !id.CodingSchemeDesignator.compare(obj->GetCodingScheme())
&& obj->GetCodeValue() && !id.CodeValue.compare(obj->GetCodeValue())` of the populate loops. -/
def sameSchemeAndValue (id : CodeIdentifier) (scheme value : Option QString) : Bool :=
  match scheme, value with
  | some scheme, some value =>
    decide (id.CodingSchemeDesignator = scheme) && decide (id.CodeValue = value)
  | _, _ => false

/-- The loop of `populateCategoryTable` from row `index` on: the table and the selected row. -/
def populateCategoryLoop (current : vtkSlicerTerminologyCategory) :
    List CodeIdentifier → Nat → QTableWidget → Option Nat → QTableWidget × Option Nat
  | [], _, table, selectedItem => (table, selectedItem)
  | addedCategoryId :: rest, index, table, selectedItem =>
    let table := table.setItem index (tableItemOfId addedCategoryId)
    let selectedItem :=
      if sameSchemeAndValue addedCategoryId current.CodingScheme current.CodeValue then some index
      else selectedItem
    populateCategoryLoop current rest (index + 1) table selectedItem

/-- The function `populateCategoryTable()`. -/
def populateCategoryTable (logic : Option vtkSlicerTerminologiesModuleLogic)
    (d : qSlicerTerminologyNavigatorWidgetPrivate) :
    Option qSlicerTerminologyNavigatorWidgetPrivate :=
  let d := { d with tableWidget_Category := d.tableWidget_Category.clearContents }
  if d.CurrentTerminologyName.isEmpty then
    some { d with tableWidget_Category := d.tableWidget_Category.setRowCount 0 }
  else
  match logic with
  | none => some d
  | some logic =>
    -- Get category names containing the search string
    let categories := logic.FindCategoriesInTerminology (toStdString d.CurrentTerminologyName)
      (toStdString d.SearchBox_Category.text)
    let d := { d with
      tableWidget_Category := d.tableWidget_Category.setRowCount categories.length }
    match categories, d.CurrentCategoryObject with
    | _ :: _, none => none
    | [], none => some d
    | _, some current =>
      let r := populateCategoryLoop current categories 0 d.tableWidget_Category none
      -- Select category if selection was valid and item shows up in search
      match r.2 with
      | some row => some { d with tableWidget_Category := r.1.setCurrentItem (some row) }
      | none => some { d with tableWidget_Category := r.1 }

/-- The loop of `populateTypeTable` and of `populateRegionTable` from row `index` on: the table
and the selected row. -/
def populateTypeLoop (current : vtkSlicerTerminologyType) :
    List CodeIdentifier → Nat → QTableWidget → Option Nat → QTableWidget × Option Nat
  | [], _, table, selectedItem => (table, selectedItem)
  | addedTypeId :: rest, index, table, selectedItem =>
    let table := table.setItem index (tableItemOfId addedTypeId)
    let selectedItem :=
      if sameSchemeAndValue addedTypeId current.CodingScheme current.CodeValue then some index
      else selectedItem
    populateTypeLoop current rest (index + 1) table selectedItem

/-- The function `populateTypeTable()`. -/
def populateTypeTable (logic : Option vtkSlicerTerminologiesModuleLogic)
    (d : qSlicerTerminologyNavigatorWidgetPrivate) :
    Option qSlicerTerminologyNavigatorWidgetPrivate :=
  let d := { d with tableWidget_Type := d.tableWidget_Type.clearContents }
  if d.CurrentTerminologyName.isEmpty || d.CurrentCategoryObject.isNone
      || (d.CurrentCategoryObject.bind fun c => c.CodeValue).isNone then
    some { d with tableWidget_Type := d.tableWidget_Type.setRowCount 0 }
  else
  match logic with
  | none => some d
  | some logic =>
    -- Get type names containing the search string
    let types := logic.FindTypesInTerminologyCategory (toStdString d.CurrentTerminologyName)
      (CodeIdentifierFromTerminologyCategory d.CurrentCategoryObject)
      (toStdString d.SearchBox_Type.text)
    let d := { d with tableWidget_Type := d.tableWidget_Type.setRowCount types.length }
    match types, d.CurrentTypeObject with
    | _ :: _, none => none
    | [], none => some d
    | _, some current =>
      let r := populateTypeLoop current types 0 d.tableWidget_Type none
      -- Select type if selection was valid and item shows up in search
      match r.2 with
      | some row => some { d with tableWidget_Type := r.1.setCurrentItem (some row) }
      | none => some { d with tableWidget_Type := r.1 }

/-- The loop of `populateTypeModifierComboBox` from position `index` on: the private data
and the selected index. Adding an item may emit `currentIndexChanged`, whose slot runs before the
comparison with the current type modifier. -/
def populateTypeModifierLoop (logic : Option vtkSlicerTerminologiesModuleLogic) :
    List CodeIdentifier → Int → qSlicerTerminologyNavigatorWidgetPrivate → Int →
      Option (qSlicerTerminologyNavigatorWidgetPrivate × Int)
  | [], _, d, selectedIndex => some (d, selectedIndex)
  | addedTypeModifierId :: rest, index, d, selectedIndex =>
    let r := d.ComboBox_TypeModifier.addItem (comboItemOfId addedTypeModifierId)
    match deliverTypeModifierSignal logic { d with ComboBox_TypeModifier := r.1 } r.2 with
    | none => none
    | some d =>
      match d.CurrentTypeModifierObject with
      | none => none
      | some current =>
        let selectedIndex :=
          if addedTypeModifierId.CodeMeaning = fromCStr current.CodeMeaning then index
          else selectedIndex
        populateTypeModifierLoop logic rest (index + 1) d selectedIndex

/-- The function `populateTypeModifierComboBox()`. -/
def populateTypeModifierComboBox (logic : Option vtkSlicerTerminologiesModuleLogic)
    (d : qSlicerTerminologyNavigatorWidgetPrivate) :
    Option qSlicerTerminologyNavigatorWidgetPrivate :=
  let r := d.ComboBox_TypeModifier.clear
  match deliverTypeModifierSignal logic { d with ComboBox_TypeModifier := r.1 } r.2 with
  | none => none
  | some d =>
    match d.CurrentCategoryObject, d.CurrentTypeObject with
    | some _, some type =>
      if d.CurrentTerminologyName.isEmpty || type.CodeValue.isNone then
        some { d with ComboBox_TypeModifier := d.ComboBox_TypeModifier.setEnabled false }
      -- If current type has no modifiers then leave it empty and disable
      else if !type.HasModifiers then
        some { d with ComboBox_TypeModifier := d.ComboBox_TypeModifier.setEnabled false }
      else
        match logic with
        | none => some d
        | some terminologyLogic =>
          -- Get type modifier names
          let typeModifiers := terminologyLogic.GetTypeModifiersInTerminologyType
            (toStdString d.CurrentTerminologyName)
            (CodeIdentifierFromTerminologyCategory d.CurrentCategoryObject)
            (CodeIdentifierFromTerminologyType d.CurrentTypeObject)
          match populateTypeModifierLoop logic typeModifiers 0 d (-1) with
          | none => none
          | some (d, selectedIndex) =>
            -- Select modifier if selection was valid
            if selectedIndex ≠ -1 then
              let r := d.ComboBox_TypeModifier.setCurrentIndex selectedIndex
              deliverTypeModifierSignal logic { d with ComboBox_TypeModifier := r.1 } r.2
            else some d
    | _, _ => some { d with ComboBox_TypeModifier := d.ComboBox_TypeModifier.setEnabled false }

/-- The function `populateRegionTable()`; the search text is read from `SearchBox_Type`. -/
def populateRegionTable (logic : Option vtkSlicerTerminologiesModuleLogic)
    (d : qSlicerTerminologyNavigatorWidgetPrivate) :
    Option qSlicerTerminologyNavigatorWidgetPrivate :=
  let d := { d with tableWidget_AnatomicRegion := d.tableWidget_AnatomicRegion.clearContents }
  if d.CurrentAnatomicContextName.isEmpty then
    some { d with tableWidget_AnatomicRegion := d.tableWidget_AnatomicRegion.setRowCount 0 }
  else
  match logic with
  | none => some d
  | some logic =>
    -- Get region names containing the search string
    let regions := logic.FindRegionsInAnatomicContext (toStdString d.CurrentAnatomicContextName)
      (toStdString d.SearchBox_Type.text)
    let d := { d with
      tableWidget_AnatomicRegion := d.tableWidget_AnatomicRegion.setRowCount regions.length }
    match regions, d.CurrentRegionObject with
    | _ :: _, none => none
    | [], none => some d
    | _, some current =>
      let r := populateTypeLoop current regions 0 d.tableWidget_AnatomicRegion none
      -- Select region if selection was valid and item shows up in search
      match r.2 with
      | some row =>
        some { d with tableWidget_AnatomicRegion := r.1.setCurrentItem (some row) }
      | none => some { d with tableWidget_AnatomicRegion := r.1 }

/-- The loop of `populateRegionModifierComboBox` from position `index` on: the private data and
the selected index. -/
def populateRegionModifierLoop (logic : Option vtkSlicerTerminologiesModuleLogic) :
    List CodeIdentifier → Int → qSlicerTerminologyNavigatorWidgetPrivate → Int →
      Option (qSlicerTerminologyNavigatorWidgetPrivate × Int)
  | [], _, d, selectedIndex => some (d, selectedIndex)
  | addedRegionModifierId :: rest, index, d, selectedIndex =>
    let r := d.ComboBox_AnatomicRegionModifier.addItem (comboItemOfId addedRegionModifierId)
    match deliverRegionModifierSignal logic
        { d with ComboBox_AnatomicRegionModifier := r.1 } r.2 with
    | none => none
    | some d =>
      match d.CurrentRegionModifierObject with
      | none => none
      | some current =>
        let selectedIndex :=
          if addedRegionModifierId.CodeMeaning = fromCStr current.CodeMeaning then index
          else selectedIndex
        populateRegionModifierLoop logic rest (index + 1) d selectedIndex

/-- The function `populateRegionModifierComboBox()`. -/
def populateRegionModifierComboBox (logic : Option vtkSlicerTerminologiesModuleLogic)
    (d : qSlicerTerminologyNavigatorWidgetPrivate) :
    Option qSlicerTerminologyNavigatorWidgetPrivate :=
  let r := d.ComboBox_AnatomicRegionModifier.clear
  match deliverRegionModifierSignal logic
      { d with ComboBox_AnatomicRegionModifier := r.1 } r.2 with
  | none => none
  | some d =>
    match d.CurrentRegionObject with
    | some region =>
      if d.CurrentAnatomicContextName.isEmpty || region.CodeValue.isNone then
        some { d with
          ComboBox_AnatomicRegionModifier := d.ComboBox_AnatomicRegionModifier.setEnabled false }
      -- If current region has no modifiers then leave it empty and disable
      else if !region.HasModifiers then
        some { d with
          ComboBox_AnatomicRegionModifier := d.ComboBox_AnatomicRegionModifier.setEnabled false }
      else
        match logic with
        | none => some d
        | some terminologyLogic =>
          -- Get region modifier names
          let regionModifiers := terminologyLogic.GetRegionModifiersInAnatomicRegion
            (toStdString d.CurrentAnatomicContextName)
            (CodeIdentifierFromTerminologyType d.CurrentRegionObject)
          match populateRegionModifierLoop logic regionModifiers 0 d (-1) with
          | none => none
          | some (d, selectedIndex) =>
            -- Select modifier if selection was valid
            if selectedIndex ≠ -1 then
              let r := d.ComboBox_AnatomicRegionModifier.setCurrentIndex selectedIndex
              deliverRegionModifierSignal logic
                { d with ComboBox_AnatomicRegionModifier := r.1 } r.2
            else some d
    | none =>
      some { d with
        ComboBox_AnatomicRegionModifier := d.ComboBox_AnatomicRegionModifier.setEnabled false }

/-- The function `setCurrentTerminology(terminologyName)`. -/
def setCurrentTerminology (logic : Option vtkSlicerTerminologiesModuleLogic)
    (d : qSlicerTerminologyNavigatorWidgetPrivate) (terminologyName : QString) :
    Option qSlicerTerminologyNavigatorWidgetPrivate :=
  -- If no change then nothing to do
  if d.CurrentTerminologyName = terminologyName then some d else
  -- Reset current category, type, and type modifier
  let d := resetCurrentCategory d
  let d := resetCurrentType d
  let d := resetCurrentTypeModifier d
  -- Set current terminology
  let d := { d with CurrentTerminologyName := terminologyName }
  if terminologyName.isEmpty then some d else
  -- Populate category table, and reset type table and type modifier combobox
  match populateCategoryTable logic d with
  | none => none
  | some d =>
  match populateTypeTable logic d with
  | none => none
  | some d =>
  match populateTypeModifierComboBox logic d with
  | none => none
  | some d =>
  -- Only enable category table if there are items in it
  let d :=
    if d.tableWidget_Category.rowCount = 0 then
      let d := { d with tableWidget_Category := d.tableWidget_Category.setEnabled false }
      let d :=
        if d.SearchBox_Category.text.isEmpty then
          { d with SearchBox_Category := { d.SearchBox_Category with enabled := false } }
        else d
      let d := { d with tableWidget_Type := d.tableWidget_Type.setEnabled false }
      let d := { d with SearchBox_Type := { d.SearchBox_Type with enabled := false } }
      { d with ComboBox_TypeModifier := d.ComboBox_TypeModifier.setEnabled false }
    else
      let d := { d with tableWidget_Category := d.tableWidget_Category.setEnabled true }
      { d with SearchBox_Category := { d.SearchBox_Category with enabled := true } }
  -- Selection is invalid until category then type is selected
  some { d with selectionValidityChanged := d.selectionValidityChanged ++ [false] }

/-- The function `setCurrentCategory(category)`. -/
def setCurrentCategory (logic : Option vtkSlicerTerminologiesModuleLogic)
    (d : qSlicerTerminologyNavigatorWidgetPrivate)
    (category : Option vtkSlicerTerminologyCategory) :
    Option (Bool × qSlicerTerminologyNavigatorWidgetPrivate) :=
  -- Reset current type and type modifier
  let d := resetCurrentType d
  let d := resetCurrentTypeModifier d
  -- Reset anatomic region information as well
  let d := resetCurrentRegion d
  let d := resetCurrentRegionModifier d
  match category with
  | none => some (false, resetCurrentCategory d)
  | some c =>
  -- Set current category: d->CurrentCategoryObject->Copy(category)
  match d.CurrentCategoryObject with
  | none => none
  | some _ =>
  let d := { d with CurrentCategoryObject := some c }
  -- Populate type table, and reset type modifier combobox and region widgets
  match populateTypeTable logic d with
  | none => none
  | some d =>
  match populateTypeModifierComboBox logic d with
  | none => none
  | some d =>
  let d := { d with tableWidget_AnatomicRegion := d.tableWidget_AnatomicRegion.setCurrentItem none }
  match populateRegionModifierComboBox logic d with
  | none => none
  | some d =>
  -- Only enable type table if there are items in it
  let d :=
    if d.tableWidget_Type.rowCount = 0 then
      let d := { d with tableWidget_Type := d.tableWidget_Type.setEnabled false }
      let d :=
        if d.SearchBox_Type.text.isEmpty then
          { d with SearchBox_Type := { d.SearchBox_Type with enabled := false } }
        else d
      { d with ComboBox_TypeModifier := d.ComboBox_TypeModifier.setEnabled false }
    else
      let d := { d with tableWidget_Type := d.tableWidget_Type.setEnabled true }
      { d with SearchBox_Type := { d.SearchBox_Type with enabled := true } }
  -- Enable anatomic region controls if related flag is on
  match d.CurrentCategoryObject with
  | none => none
  | some current =>
  let d := { d with
    ComboBox_AnatomicContext := d.ComboBox_AnatomicContext.setEnabled current.ShowAnatomy }
  let d := { d with
    tableWidget_AnatomicRegion := d.tableWidget_AnatomicRegion.setEnabled current.ShowAnatomy }
  let d := { d with
    SearchBox_AnatomicRegion := { d.SearchBox_AnatomicRegion with enabled := current.ShowAnatomy } }
  let d := { d with
    ComboBox_AnatomicRegionModifier := d.ComboBox_AnatomicRegionModifier.setEnabled false }
  -- Selection is invalid until type is selected
  let d := { d with selectionValidityChanged := d.selectionValidityChanged ++ [false] }
  -- Select category if found
  let categoryItem := findTableWidgetItemForCategory d category
  let d :=
    match categoryItem with
    | some row =>
      let table := d.tableWidget_Category.blockSignals true
      let table := table.setCurrentItem (some row)
      { d with tableWidget_Category := table.blockSignals false }
    | none => d
  some (categoryItem.isSome, d)

/-- The function `setCurrentType(type)`. -/
def setCurrentType (logic : Option vtkSlicerTerminologiesModuleLogic)
    (d : qSlicerTerminologyNavigatorWidgetPrivate) (type : Option vtkSlicerTerminologyType) :
    Option (Bool × qSlicerTerminologyNavigatorWidgetPrivate) :=
  -- Reset current type modifier
  let d := resetCurrentTypeModifier d
  match type with
  | none => some (false, resetCurrentType d)
  | some t =>
  -- Set current type: d->CurrentTypeObject->Copy(type)
  match d.CurrentTypeObject with
  | none => none
  | some _ =>
  let d := { d with CurrentTypeObject := some t }
  -- Populate type modifier combobox
  match populateTypeModifierComboBox logic d with
  | none => none
  | some d =>
  -- Only enable type modifier combobox if there are items in it
  let d := { d with
    ComboBox_TypeModifier :=
      d.ComboBox_TypeModifier.setEnabled (decide (d.ComboBox_TypeModifier.count ≠ 0)) }
  -- With valid type selected, terminology selection becomes also valid
  let d := { d with selectionValidityChanged := d.selectionValidityChanged ++ [true] }
  -- Select type if found
  let typeItem := findTableWidgetItemForType (some d.tableWidget_Type) type
  let d :=
    match typeItem with
    | some row =>
      let table := d.tableWidget_Type.blockSignals true
      let table := table.setCurrentItem (some row)
      { d with tableWidget_Type := table.blockSignals false }
    | none => d
  some (typeItem.isSome, d)

/-- The function `setCurrentAnatomicContext(contextName)`. -/
def setCurrentAnatomicContext (logic : Option vtkSlicerTerminologiesModuleLogic)
    (d : qSlicerTerminologyNavigatorWidgetPrivate) (contextName : QString) :
    Option qSlicerTerminologyNavigatorWidgetPrivate :=
  -- Reset current region and region modifier
  let d := resetCurrentRegion d
  let d := resetCurrentRegionModifier d
  -- Set current anatomic context
  let d := { d with CurrentAnatomicContextName := contextName }
  if contextName.isEmpty then some d else
  -- Populate region table and reset region modifier combobox
  match populateRegionTable logic d with
  | none => none
  | some d =>
  match populateRegionModifierComboBox logic d with
  | none => none
  | some d =>
  -- Only enable region table if there are items in it
  if d.tableWidget_AnatomicRegion.rowCount = 0 then
    let d := { d with
      tableWidget_AnatomicRegion := d.tableWidget_AnatomicRegion.setEnabled false }
    let d :=
      if d.SearchBox_AnatomicRegion.text.isEmpty then
        { d with SearchBox_AnatomicRegion := { d.SearchBox_AnatomicRegion with enabled := false } }
      else d
    some { d with
      ComboBox_AnatomicRegionModifier := d.ComboBox_AnatomicRegionModifier.setEnabled false }
  else
    match d.CurrentCategoryObject with
    | none => none
    | some current =>
      if current.ShowAnatomy then
        let d := { d with
          tableWidget_AnatomicRegion := d.tableWidget_AnatomicRegion.setEnabled true }
        some { d with
          SearchBox_AnatomicRegion := { d.SearchBox_AnatomicRegion with enabled := true } }
      else some d

/-- The function `setCurrentRegion(region)`. -/
def setCurrentRegion (logic : Option vtkSlicerTerminologiesModuleLogic)
    (d : qSlicerTerminologyNavigatorWidgetPrivate) (region : Option vtkSlicerTerminologyType) :
    Option (Bool × qSlicerTerminologyNavigatorWidgetPrivate) :=
  -- Reset current region modifier
  let d := resetCurrentRegionModifier d
  match region with
  | none => some (false, resetCurrentRegion d)
  | some r =>
  -- Set current region: d->CurrentRegionObject->Copy(region)
  match d.CurrentRegionObject with
  | none => none
  | some _ =>
  let d := { d with CurrentRegionObject := some r }
  -- Populate region modifier combobox
  match populateRegionModifierComboBox logic d with
  | none => none
  | some d =>
  -- Only enable region modifier combobox if there are items in it
  let d := { d with
    ComboBox_AnatomicRegionModifier :=
      d.ComboBox_AnatomicRegionModifier.setEnabled
        (decide (d.ComboBox_AnatomicRegionModifier.count ≠ 0)) }
  -- Select region if found
  let regionItem := findTableWidgetItemForType (some d.tableWidget_AnatomicRegion) region
  let d :=
    match regionItem with
    | some row =>
      let table := d.tableWidget_AnatomicRegion.blockSignals true
      let table := table.setCurrentItem (some row)
      { d with tableWidget_AnatomicRegion := table.blockSignals false }
    | none => d
  some (regionItem.isSome, d)

/-- The slot `onTerminologySelectionChanged(index)`, connected to `currentIndexChanged(int)` of
the terminology combobox. -/
def onTerminologySelectionChanged (logic : Option vtkSlicerTerminologiesModuleLogic)
    (d : qSlicerTerminologyNavigatorWidgetPrivate) (index : Int) :
    Option qSlicerTerminologyNavigatorWidgetPrivate :=
  let d := { d with overrideCursor := d.overrideCursor + 1 }
  -- Set current terminology
  match setCurrentTerminology logic d (d.ComboBox_Terminology.itemText index) with
  | none => none
  | some d => some { d with overrideCursor := d.overrideCursor - 1 }

/-- Delivery of a `currentIndexChanged(int)` signal of the terminology combobox. -/
def deliverTerminologySignal (logic : Option vtkSlicerTerminologiesModuleLogic)
    (d : qSlicerTerminologyNavigatorWidgetPrivate) (signal : Option Int) :
    Option qSlicerTerminologyNavigatorWidgetPrivate :=
  match signal with
  | none => some d
  | some index => onTerminologySelectionChanged logic d index

/-- The loop of `populateTerminologyComboBox` over the loaded terminology names. -/
def populateTerminologyLoop (logic : Option vtkSlicerTerminologiesModuleLogic) :
    List QString → qSlicerTerminologyNavigatorWidgetPrivate →
      Option qSlicerTerminologyNavigatorWidgetPrivate
  | [], d => some d
  | name :: rest, d =>
    let r := d.ComboBox_Terminology.addItem { text := name }
    match deliverTerminologySignal logic { d with ComboBox_Terminology := r.1 } r.2 with
    | none => none
    | some d => populateTerminologyLoop logic rest d

/-- The function `populateTerminologyComboBox()`. -/
def populateTerminologyComboBox (logic : Option vtkSlicerTerminologiesModuleLogic)
    (d : qSlicerTerminologyNavigatorWidgetPrivate) :
    Option qSlicerTerminologyNavigatorWidgetPrivate :=
  let r := d.ComboBox_Terminology.clear
  match deliverTerminologySignal logic { d with ComboBox_Terminology := r.1 } r.2 with
  | none => none
  | some d =>
    match logic with
    | none => some d
    | some terminologyLogic =>
      populateTerminologyLoop logic terminologyLogic.GetLoadedTerminologyNames d

/-- The slot `onAnatomicContextSelectionChanged(index)`, connected to `currentIndexChanged(int)`
of the anatomic-context combobox. -/
def onAnatomicContextSelectionChanged (logic : Option vtkSlicerTerminologiesModuleLogic)
    (d : qSlicerTerminologyNavigatorWidgetPrivate) (index : Int) :
    Option qSlicerTerminologyNavigatorWidgetPrivate :=
  let d := { d with overrideCursor := d.overrideCursor + 1 }
  -- Set current anatomic context
  match setCurrentAnatomicContext logic d (d.ComboBox_AnatomicContext.itemText index) with
  | none => none
  | some d => some { d with overrideCursor := d.overrideCursor - 1 }

/-- Delivery of a `currentIndexChanged(int)` signal of the anatomic-context combobox. -/
def deliverAnatomicContextSignal (logic : Option vtkSlicerTerminologiesModuleLogic)
    (d : qSlicerTerminologyNavigatorWidgetPrivate) (signal : Option Int) :
    Option qSlicerTerminologyNavigatorWidgetPrivate :=
  match signal with
  | none => some d
  | some index => onAnatomicContextSelectionChanged logic d index

/-- The loop of `populateAnatomicContextComboBox` over the loaded anatomic-context names. -/
def populateAnatomicContextLoop (logic : Option vtkSlicerTerminologiesModuleLogic) :
    List QString → qSlicerTerminologyNavigatorWidgetPrivate →
      Option qSlicerTerminologyNavigatorWidgetPrivate
  | [], d => some d
  | name :: rest, d =>
    let r := d.ComboBox_AnatomicContext.addItem { text := name }
    match deliverAnatomicContextSignal logic { d with ComboBox_AnatomicContext := r.1 } r.2 with
    | none => none
    | some d => populateAnatomicContextLoop logic rest d

/-- The function `populateAnatomicContextComboBox()`. -/
def populateAnatomicContextComboBox (logic : Option vtkSlicerTerminologiesModuleLogic)
    (d : qSlicerTerminologyNavigatorWidgetPrivate) :
    Option qSlicerTerminologyNavigatorWidgetPrivate :=
  let r := d.ComboBox_AnatomicContext.clear
  match deliverAnatomicContextSignal logic { d with ComboBox_AnatomicContext := r.1 } r.2 with
  | none => none
  | some d =>
    match logic with
    | none => some d
    | some terminologyLogic =>
      match populateAnatomicContextLoop logic terminologyLogic.GetLoadedAnatomicContextNames d with
      | none => none
      | some d =>
        -- Hide anatomic context combobox if there is only one option
        if d.ComboBox_AnatomicContext.count = 1 then
          match onAnatomicContextSelectionChanged logic d 0 with
          | none => none
          | some d =>
            some { d with ComboBox_AnatomicContext := d.ComboBox_AnatomicContext.setVisible false }
        else if d.ComboBox_AnatomicContext.count > 1 then
          some { d with ComboBox_AnatomicContext := d.ComboBox_AnatomicContext.setVisible true }
        else some d

/-- The function `qSlicerTerminologyNavigatorWidgetPrivate::init()`, after `setupUi` and the
connections: the default settings of the widgets, then the two comboboxes are populated. -/
def init (logic : Option vtkSlicerTerminologiesModuleLogic)
    (d : qSlicerTerminologyNavigatorWidgetPrivate) :
    Option qSlicerTerminologyNavigatorWidgetPrivate :=
  -- Set default settings for widgets
  let d := { d with tableWidget_Category := d.tableWidget_Category.setEnabled false }
  let d := { d with SearchBox_Category := { d.SearchBox_Category with enabled := false } }
  let d := { d with tableWidget_Type := d.tableWidget_Type.setEnabled false }
  let d := { d with SearchBox_Type := { d.SearchBox_Type with enabled := false } }
  let d := { d with ComboBox_TypeModifier := d.ComboBox_TypeModifier.setEnabled false }
  let d := { d with ColorPickerButton_RecommendedRGB :=
    { d.ColorPickerButton_RecommendedRGB with enabled := false } }
  let d := { d with
    SearchBox_AnatomicRegion := { d.SearchBox_AnatomicRegion with enabled := false } }
  let d := { d with tableWidget_AnatomicRegion := d.tableWidget_AnatomicRegion.setEnabled false }
  let d := { d with
    ComboBox_AnatomicRegionModifier := d.ComboBox_AnatomicRegionModifier.setEnabled false }
  -- Populate terminology combobox with the loaded terminologies
  match populateTerminologyComboBox logic d with
  | none => none
  | some d =>
    -- Populate anatomic context combobox with the loaded anatomic contexts
    populateAnatomicContextComboBox logic d

/-- The navigator as its constructor leaves it: the constructed private data after `init()`. -/
def constructedNavigator (logic : Option vtkSlicerTerminologiesModuleLogic) :
    Option qSlicerTerminologyNavigatorWidgetPrivate :=
  init logic constructedPrivate

/-- The slot `onLogicModified()`, connected to the `ModifiedEvent` of the terminology logic. -/
def onLogicModified (logic : Option vtkSlicerTerminologiesModuleLogic)
    (d : qSlicerTerminologyNavigatorWidgetPrivate) :
    Option qSlicerTerminologyNavigatorWidgetPrivate :=
  match populateTerminologyComboBox logic d with
  | none => none
  | some d =>
    let d := resetCurrentCategory d
    match populateAnatomicContextComboBox logic d with
    | none => none
    | some d => some (resetCurrentRegion d)

/-- The slot `onCategorySearchTextChanged(search)`, connected to `textChanged` of the category
search box. -/
def onCategorySearchTextChanged (logic : Option vtkSlicerTerminologiesModuleLogic)
    (d : qSlicerTerminologyNavigatorWidgetPrivate) (_search : QString) :
    Option qSlicerTerminologyNavigatorWidgetPrivate :=
  populateCategoryTable logic d

/-- The slot `onTypeSearchTextChanged(search)`, connected to `textChanged` of the type search
box. -/
def onTypeSearchTextChanged (logic : Option vtkSlicerTerminologiesModuleLogic)
    (d : qSlicerTerminologyNavigatorWidgetPrivate) (_search : QString) :
    Option qSlicerTerminologyNavigatorWidgetPrivate :=
  populateTypeTable logic d

/-- The slot `onRegionSearchTextChanged(search)`, connected to `textChanged` of the region search
box. -/
def onRegionSearchTextChanged (logic : Option vtkSlicerTerminologiesModuleLogic)
    (d : qSlicerTerminologyNavigatorWidgetPrivate) (_search : QString) :
    Option qSlicerTerminologyNavigatorWidgetPrivate :=
  populateRegionTable logic d

/-- The user edits the type search box: the box holds the new text and reports it through
`textChanged`, which runs the connected slot. -/
def editTypeSearchText (logic : Option vtkSlicerTerminologiesModuleLogic)
    (d : qSlicerTerminologyNavigatorWidgetPrivate) (search : QString) :
    Option qSlicerTerminologyNavigatorWidgetPrivate :=
  if d.SearchBox_Type.text = search then some d
  else
    onTypeSearchTextChanged logic
      { d with SearchBox_Type := { d.SearchBox_Type with text := search } } search

/-- The user edits the region search box: the box holds the new text and reports it through
`textChanged`, which runs the connected slot. -/
def editRegionSearchText (logic : Option vtkSlicerTerminologiesModuleLogic)
    (d : qSlicerTerminologyNavigatorWidgetPrivate) (search : QString) :
    Option qSlicerTerminologyNavigatorWidgetPrivate :=
  if d.SearchBox_AnatomicRegion.text = search then some d
  else
    onRegionSearchTextChanged logic
      { d with SearchBox_AnatomicRegion := { d.SearchBox_AnatomicRegion with text := search } }
      search

/-- The function `terminologyEntry(entry)`: the returned flag and the entry as the call leaves
it. -/
def terminologyEntry (d : qSlicerTerminologyNavigatorWidgetPrivate)
    (entry : Option vtkSlicerTerminologyEntry) : Bool × Option vtkSlicerTerminologyEntry :=
  match entry with
  | none => (false, none)
  | some entry =>
  -- Terminology name
  if d.CurrentTerminologyName.isEmpty then (false, some entry) else
  let entry := { entry with
    TerminologyContextName := some (toStdString d.CurrentTerminologyName) }
  -- Terminology category
  match d.CurrentCategoryObject with
  | none => (false, some entry)
  | some category =>
  let entry := { entry with CategoryObject := some category }
  -- Terminology type
  match d.CurrentTypeObject with
  | none => (false, some entry)
  | some type =>
  let entry := { entry with TypeObject := some type }
  -- Terminology type modifier
  let entry :=
    match d.CurrentTypeModifierObject with
    | some modifier => { entry with TypeModifierObject := some modifier }
    | none => entry
  -- Anatomic context name
  let entry :=
    if !d.CurrentAnatomicContextName.isEmpty then
      { entry with AnatomicContextName := some (toStdString d.CurrentAnatomicContextName) }
    else entry
  -- Anatomic region
  let entry :=
    match d.CurrentRegionObject with
    | some region => { entry with AnatomicRegionObject := some region }
    | none => entry
  -- Anatomic region modifier
  let entry :=
    match d.CurrentRegionModifierObject with
    | some modifier => { entry with AnatomicRegionModifierObject := some modifier }
    | none => entry
  (true, some entry)

/-- The function `recommendedColorFromCurrentTerminology()`. The result is `none` when the call
dereferences a null pointer. -/
def recommendedColorFromCurrentTerminology (d : qSlicerTerminologyNavigatorWidgetPrivate) :
    Option QColor :=
  let color := QColor.invalid
  match d.CurrentCategoryObject, d.CurrentTypeObject with
  | some _, some type =>
    if d.CurrentAnatomicContextName.isEmpty then some color
    else
      let typeObject : Option vtkSlicerTerminologyType :=
        if type.HasModifiers then d.CurrentTypeModifierObject else some type
      match typeObject with
      | none => none
      | some typeObject => some (recommendedDisplayColor typeObject)
  | _, _ => some color

/-- The function `customColor()`. -/
def customColor (d : qSlicerTerminologyNavigatorWidgetPrivate) : Option QColor :=
  let color := d.ColorPickerButton_RecommendedRGB.color
  match recommendedColorFromCurrentTerminology d with
  | none => none
  | some recommendedColor =>
    let isCustomColor : Bool := recommendedColor.isValid && decide (color ≠ recommendedColor)
    if isCustomColor then some color
    -- Return invalid color if terminology is invalid or color is not custom
    else some QColor.invalid

/-- The function `setColor(color)`. -/
def setColor (d : qSlicerTerminologyNavigatorWidgetPrivate) (color : QColor) :
    Option qSlicerTerminologyNavigatorWidgetPrivate :=
  if d.CurrentAnatomicContextName.isEmpty || d.CurrentCategoryObject.isNone
      || d.CurrentTypeObject.isNone then
    some d
  else
    -- Only set custom color if different from recommended color in current terminology
    match recommendedColorFromCurrentTerminology d with
    | none => none
    | some recommendedColor =>
      if color ≠ recommendedColor then
        let d := { d with CustomColor := color }
        some (setPickerColor d d.CustomColor)
      else
        -- Invalidate custom color if set color is the same as recommended
        let d := { d with CustomColor := QColor.invalid }
        some (setPickerColor d color)

/-- The part `// Select terminology` of `setTerminologyEntry`, once the index of the entry's
terminology name in the terminology combobox is known. -/
def selectTerminologyOfEntry (logic : Option vtkSlicerTerminologiesModuleLogic)
    (d : qSlicerTerminologyNavigatorWidgetPrivate) (terminologyIndex : Int) :
    Option qSlicerTerminologyNavigatorWidgetPrivate :=
  let changed : Option qSlicerTerminologyNavigatorWidgetPrivate :=
    if terminologyIndex ≠ d.ComboBox_Terminology.currentIndex then
      setCurrentTerminology logic d (d.ComboBox_Terminology.itemText terminologyIndex)
    else some d
  match changed with
  | none => none
  | some d =>
    let box := d.ComboBox_Terminology.blockSignals true
    let box := (box.setCurrentIndex terminologyIndex).1
    some { d with ComboBox_Terminology := box.blockSignals false }

/-- The parts `// Select type` and `// Select type modifier` of `setTerminologyEntry`: the updated
return value and the private data. -/
def selectTypeOfEntry (logic : Option vtkSlicerTerminologiesModuleLogic)
    (d : qSlicerTerminologyNavigatorWidgetPrivate) (entry : vtkSlicerTerminologyEntry)
    (returnValue : Bool) : Option (Bool × qSlicerTerminologyNavigatorWidgetPrivate) :=
  -- Select type
  let typeObject := entry.TypeObject
  let selected : Option (Bool × qSlicerTerminologyNavigatorWidgetPrivate) :=
    match typeObject with
    | none => some (false, d)
    | some t =>
      match setCurrentType logic d (some t) with
      | none => none
      | some r => some (if !r.1 then false else returnValue, r.2)
  match selected with
  | none => none
  | some (returnValue, d) =>
    -- Select type modifier
    match typeObject, entry.TypeModifierObject with
    | some t, some typeModifierObject =>
      if t.HasModifiers then
        match setCurrentTypeModifier d (some typeModifierObject) with
        | none => none
        | some r => some (if !r.1 then false else returnValue, r.2)
      else some (returnValue, d)
    | _, _ => some (returnValue, d)

/-- The part `// Select anatomic context` of `setTerminologyEntry`: the updated return value and
the private data. -/
def selectAnatomicContextOfEntry (logic : Option vtkSlicerTerminologiesModuleLogic)
    (d : qSlicerTerminologyNavigatorWidgetPrivate) (entry : vtkSlicerTerminologyEntry)
    (returnValue : Bool) : Option (Bool × qSlicerTerminologyNavigatorWidgetPrivate) :=
  match entry.AnatomicContextName with
  | none => some (returnValue, d)
  | some anatomicContextName =>
    let anatomicContextIndex := d.ComboBox_AnatomicContext.findText anatomicContextName
    let returnValue := if anatomicContextIndex = -1 then false else returnValue
    let changed : Option qSlicerTerminologyNavigatorWidgetPrivate :=
      if anatomicContextIndex ≠ d.ComboBox_AnatomicContext.currentIndex then
        setCurrentAnatomicContext logic d (d.ComboBox_AnatomicContext.itemText anatomicContextIndex)
      else some d
    match changed with
    | none => none
    | some d =>
      let box := d.ComboBox_AnatomicContext.blockSignals true
      let box := (box.setCurrentIndex anatomicContextIndex).1
      some (returnValue, { d with ComboBox_AnatomicContext := box.blockSignals false })

/-- The parts `// Select region` and `// Select region modifier` of `setTerminologyEntry`: the
updated return value and the private data. -/
def selectRegionOfEntry (logic : Option vtkSlicerTerminologiesModuleLogic)
    (d : qSlicerTerminologyNavigatorWidgetPrivate) (entry : vtkSlicerTerminologyEntry)
    (returnValue : Bool) : Option (Bool × qSlicerTerminologyNavigatorWidgetPrivate) :=
  match entry.AnatomicRegionObject with
  | none => some (returnValue, d)
  | some regionObject =>
    match setCurrentRegion logic d (some regionObject) with
    | none => none
    | some r =>
      let returnValue := if !r.1 then false else returnValue
      let d := r.2
      -- Select region modifier
      match entry.AnatomicRegionModifierObject with
      | some regionModifierObject =>
        if regionObject.HasModifiers then
          match setCurrentRegionModifier d (some regionModifierObject) with
          | none => none
          | some r => some (if !r.1 then false else returnValue, r.2)
        else some (returnValue, d)
      | none => some (returnValue, d)

/-- The function `setTerminologyEntry(entry)`. -/
def setTerminologyEntry (logic : Option vtkSlicerTerminologiesModuleLogic)
    (d : qSlicerTerminologyNavigatorWidgetPrivate) (entry : Option vtkSlicerTerminologyEntry) :
    Option (Bool × qSlicerTerminologyNavigatorWidgetPrivate) :=
  match entry with
  | none => some (false, d)
  | some entry =>
  -- Select terminology
  match entry.TerminologyContextName with
  | none => some (false, d)
  | some terminologyContextName =>
  let terminologyIndex := d.ComboBox_Terminology.findText terminologyContextName
  if terminologyIndex = -1 then some (false, d) else
  match selectTerminologyOfEntry logic d terminologyIndex with
  | none => none
  | some d =>
  -- Select category
  match entry.CategoryObject with
  | none => some (false, d)
  | some categoryObject =>
  let returnValue := true
  match setCurrentCategory logic d (some categoryObject) with
  | none => none
  | some r =>
  let returnValue := if !r.1 then false else returnValue
  -- Select type and type modifier
  match selectTypeOfEntry logic r.2 entry returnValue with
  | none => none
  | some (returnValue, d) =>
  -- Set anatomic context selection if category allows
  let anatomy : Option (Bool × qSlicerTerminologyNavigatorWidgetPrivate) :=
    if categoryObject.ShowAnatomy then
      match selectAnatomicContextOfEntry logic d entry returnValue with
      | none => none
      | some (returnValue, d) => selectRegionOfEntry logic d entry returnValue
    else some (returnValue, d)
  match anatomy with
  | none => none
  | some (returnValue, d) =>
  -- Set color to color picker if no custom color is used
  let d := if !d.CustomColor.isValid then setRecommendedColorFromCurrentTerminology d else d
  some (returnValue, d)

/-- The slot `onCategoryClicked(item)`, connected to `itemClicked` of the category table. -/
def onCategoryClicked (logic : Option vtkSlicerTerminologiesModuleLogic)
    (d : qSlicerTerminologyNavigatorWidgetPrivate) (item : QTableWidgetItem) :
    Option qSlicerTerminologyNavigatorWidgetPrivate :=
  let d := { d with overrideCursor := d.overrideCursor + 1 }
  match logic with
  | none => some d
  | some terminologyLogic =>
    let categoryId : CodeIdentifier :=
      { CodingSchemeDesignator := toStdString item.CodingSchemeDesignator
        CodeValue := toStdString item.CodeValue
        CodeMeaning := toStdString item.text }
    match terminologyLogic.GetCategoryInTerminology (toStdString d.CurrentTerminologyName)
        categoryId with
    | none => some d
    | some category =>
      -- Set category from item
      match setCurrentCategory logic d (some category) with
      | none => none
      | some r => some { r.2 with overrideCursor := r.2.overrideCursor - 1 }

/-- The slot `onTypeClicked(item)`, connected to `itemClicked` of the type table. -/
def onTypeClicked (logic : Option vtkSlicerTerminologiesModuleLogic)
    (d : qSlicerTerminologyNavigatorWidgetPrivate) (item : QTableWidgetItem) :
    Option qSlicerTerminologyNavigatorWidgetPrivate :=
  let d := { d with overrideCursor := d.overrideCursor + 1 }
  match logic with
  | none => some d
  | some terminologyLogic =>
    let typeId : CodeIdentifier :=
      { CodingSchemeDesignator := toStdString item.CodingSchemeDesignator
        CodeValue := toStdString item.CodeValue
        CodeMeaning := toStdString item.text }
    match terminologyLogic.GetTypeInTerminologyCategory (toStdString d.CurrentTerminologyName)
        (CodeIdentifierFromTerminologyCategory d.CurrentCategoryObject) typeId with
    | none => some d
    | some type =>
      -- Set type from item
      match setCurrentType logic d (some type) with
      | none => none
      | some r =>
        -- Set recommended color to color picker
        let d := setRecommendedColorFromCurrentTerminology r.2
        some { d with overrideCursor := d.overrideCursor - 1 }

/-- The slot `onRegionClicked(item)`, connected to `itemClicked` of the region table. -/
def onRegionClicked (logic : Option vtkSlicerTerminologiesModuleLogic)
    (d : qSlicerTerminologyNavigatorWidgetPrivate) (item : QTableWidgetItem) :
    Option qSlicerTerminologyNavigatorWidgetPrivate :=
  let d := { d with overrideCursor := d.overrideCursor + 1 }
  match logic with
  | none => some d
  | some terminologyLogic =>
    let regionId : CodeIdentifier :=
      { CodingSchemeDesignator := toStdString item.CodingSchemeDesignator
        CodeValue := toStdString item.CodeValue
        CodeMeaning := toStdString item.text }
    match terminologyLogic.GetRegionInAnatomicContext
        (toStdString d.CurrentAnatomicContextName) regionId with
    | none => some d
    | some region =>
      -- Set current region
      match setCurrentRegion logic d (some region) with
      | none => none
      | some r => some { r.2 with overrideCursor := r.2.overrideCursor - 1 }

/-! ## Vocabulary of the statements -/

/-- The seventeen texts of an entry in the order of the serialized form: terminology name,
category triple, type triple, type-modifier triple, anatomic-context name, region triple,
region-modifier triple; a null name or object contributes empty texts. -/
def entryTexts (e : vtkSlicerTerminologyEntry) : List QString :=
  [ fromCStr e.TerminologyContextName,
    categoryScheme e.CategoryObject, categoryValue e.CategoryObject,
    categoryMeaning e.CategoryObject,
    typeScheme e.TypeObject, typeValue e.TypeObject, typeMeaning e.TypeObject,
    typeScheme e.TypeModifierObject, typeValue e.TypeModifierObject,
    typeMeaning e.TypeModifierObject,
    fromCStr e.AnatomicContextName,
    typeScheme e.AnatomicRegionObject, typeValue e.AnatomicRegionObject,
    typeMeaning e.AnatomicRegionObject,
    typeScheme e.AnatomicRegionModifierObject, typeValue e.AnatomicRegionModifierObject,
    typeMeaning e.AnatomicRegionModifierObject ]

/-- The five code values of an entry (category, type, type modifier, region, region modifier). -/
def entryCodeValues (e : vtkSlicerTerminologyEntry) : List QString :=
  [ categoryValue e.CategoryObject, typeValue e.TypeObject, typeValue e.TypeModifierObject,
    typeValue e.AnatomicRegionObject, typeValue e.AnatomicRegionModifierObject ]

/-- An ASCII character of a C string (so not NUL) that is neither of the two delimiters. -/
def isPlainChar (c : Char) : Bool :=
  decide (0 < c.toNat) && decide (c.toNat < 128) && (c != tilde) && (c != caret)

/-- An ASCII character of a C string (so not NUL). -/
def isAsciiChar (c : Char) : Bool :=
  decide (0 < c.toNat) && decide (c.toNat < 128)

/-- A text of ASCII characters without a delimiter. -/
def PlainText (s : QString) : Prop :=
  ∀ c ∈ s, isPlainChar c = true

/-- A text of ASCII characters. -/
def AsciiText (s : QString) : Prop :=
  ∀ c ∈ s, isAsciiChar c = true

/-- The terminology logic answers every lookup with an object that carries exactly the requested
code identifier. -/
def Answering (L : vtkSlicerTerminologiesModuleLogic) : Prop :=
  (∀ n c, ∃ o, L.GetCategoryInTerminology n c = some o
      ∧ CodeIdentifierFromTerminologyCategory (some o) = c)
  ∧ (∀ n c t, ∃ o, L.GetTypeInTerminologyCategory n c t = some o
      ∧ CodeIdentifierFromTerminologyType (some o) = t)
  ∧ (∀ n c t m, ∃ o, L.GetTypeModifierInTerminologyType n c t m = some o
      ∧ CodeIdentifierFromTerminologyType (some o) = m)
  ∧ (∀ n r, ∃ o, L.GetRegionInAnatomicContext n r = some o
      ∧ CodeIdentifierFromTerminologyType (some o) = r)
  ∧ (∀ n r m, ∃ o, L.GetRegionModifierInAnatomicRegion n r m = some o
      ∧ CodeIdentifierFromTerminologyType (some o) = m)

/-- A category object carrying a given code identifier. -/
def categoryOfId (c : CodeIdentifier) : vtkSlicerTerminologyCategory :=
  { CodingScheme := some c.CodingSchemeDesignator
    CodeValue := some c.CodeValue
    CodeMeaning := some c.CodeMeaning }

/-- A type object carrying a given code identifier. -/
def typeOfId (c : CodeIdentifier) : vtkSlicerTerminologyType :=
  { CodingScheme := some c.CodingSchemeDesignator
    CodeValue := some c.CodeValue
    CodeMeaning := some c.CodeMeaning }

/-- A terminology logic that knows every code: each lookup returns an object carrying the
requested identifier, each search returns nothing. -/
def echoLogic : vtkSlicerTerminologiesModuleLogic :=
  { GetLoadedTerminologyNames := []
    GetLoadedAnatomicContextNames := []
    FindCategoriesInTerminology := fun _ _ => []
    FindTypesInTerminologyCategory := fun _ _ _ => []
    GetTypeModifiersInTerminologyType := fun _ _ _ => []
    FindRegionsInAnatomicContext := fun _ _ => []
    GetRegionModifiersInAnatomicRegion := fun _ _ => []
    GetCategoryInTerminology := fun _ c => some (categoryOfId c)
    GetTypeInTerminologyCategory := fun _ _ t => some (typeOfId t)
    GetTypeModifierInTerminologyType := fun _ _ _ m => some (typeOfId m)
    GetRegionInAnatomicContext := fun _ r => some (typeOfId r)
    GetRegionModifierInAnatomicRegion := fun _ _ m => some (typeOfId m) }

/-- The seventeen arguments of the string overload of `serializeTerminologyEntry`, in the order
of its parameter list. -/
structure SerializedFields where
  terminologyContextName : QString
  categoryValue : QString
  categorySchemeDesignator : QString
  categoryMeaning : QString
  typeValue : QString
  typeSchemeDesignator : QString
  typeMeaning : QString
  modifierValue : QString
  modifierSchemeDesignator : QString
  modifierMeaning : QString
  anatomicContextName : QString
  regionValue : QString
  regionSchemeDesignator : QString
  regionMeaning : QString
  regionModifierValue : QString
  regionModifierSchemeDesignator : QString
  regionModifierMeaning : QString
deriving DecidableEq, Repr

/-- The string overload of `serializeTerminologyEntry` applied to a tuple of seventeen texts. -/
def serializeFields (f : SerializedFields) : QString :=
  serializeTerminologyEntryStrings f.terminologyContextName
    f.categoryValue f.categorySchemeDesignator f.categoryMeaning
    f.typeValue f.typeSchemeDesignator f.typeMeaning
    f.modifierValue f.modifierSchemeDesignator f.modifierMeaning
    f.anatomicContextName
    f.regionValue f.regionSchemeDesignator f.regionMeaning
    f.regionModifierValue f.regionModifierSchemeDesignator f.regionModifierMeaning

/-- The category of the sample terminology. -/
def tissueCategory : vtkSlicerTerminologyCategory :=
  categoryOfId ⟨"SRT".toList, "T-D0050".toList, "Tissue".toList⟩

/-- A type with modifiers of the sample terminology. -/
def kidneyType : vtkSlicerTerminologyType :=
  { typeOfId ⟨"SRT".toList, "T-71000".toList, "Kidney".toList⟩ with HasModifiers := true }

/-- The first modifier of the kidney type. -/
def rightId : CodeIdentifier := ⟨"SRT".toList, "G-A100".toList, "Right".toList⟩

/-- The second modifier of the kidney type. -/
def leftId : CodeIdentifier := ⟨"SRT".toList, "G-A101".toList, "Left".toList⟩

/-- A region with modifiers of the sample anatomic context. -/
def lungRegion : vtkSlicerTerminologyType :=
  { typeOfId ⟨"SRT".toList, "T-28000".toList, "Lung".toList⟩ with HasModifiers := true }

/-- A terminology logic with one terminology `T` (one category, one type with the two modifiers
right and left) and one anatomic context `A` (one region with the same two modifiers). A lookup
finds a modifier only under one of these two identifiers. -/
def sampleLogic : vtkSlicerTerminologiesModuleLogic :=
  { GetLoadedTerminologyNames := ["T".toList]
    GetLoadedAnatomicContextNames := ["A".toList]
    FindCategoriesInTerminology := fun _ _ => [CodeIdentifierFromTerminologyCategory tissueCategory]
    FindTypesInTerminologyCategory := fun _ _ _ => [CodeIdentifierFromTerminologyType kidneyType]
    GetTypeModifiersInTerminologyType := fun _ _ _ => [rightId, leftId]
    FindRegionsInAnatomicContext := fun _ _ => [CodeIdentifierFromTerminologyType lungRegion]
    GetRegionModifiersInAnatomicRegion := fun _ _ => [rightId, leftId]
    GetCategoryInTerminology := fun _ _ => some tissueCategory
    GetTypeInTerminologyCategory := fun _ _ _ => some kidneyType
    GetTypeModifierInTerminologyType := fun _ _ _ m =>
      if m = rightId ∨ m = leftId then some (typeOfId m) else none
    GetRegionInAnatomicContext := fun _ _ => some lungRegion
    GetRegionModifierInAnatomicRegion := fun _ _ m =>
      if m = rightId ∨ m = leftId then some (typeOfId m) else none }

/-- The current selection of the navigator: terminology name, category, type, type modifier,
anatomic-context name, region and region modifier. -/
def selection (d : qSlicerTerminologyNavigatorWidgetPrivate) :
    QString × Option vtkSlicerTerminologyCategory × Option vtkSlicerTerminologyType
      × Option vtkSlicerTerminologyType × QString × Option vtkSlicerTerminologyType
      × Option vtkSlicerTerminologyType :=
  (d.CurrentTerminologyName, d.CurrentCategoryObject, d.CurrentTypeObject,
    d.CurrentTypeModifierObject, d.CurrentAnatomicContextName, d.CurrentRegionObject,
    d.CurrentRegionModifierObject)

/-- The five current-selection objects are allocated (no pointer is null). -/
def Present (d : qSlicerTerminologyNavigatorWidgetPrivate) : Prop :=
  d.CurrentCategoryObject.isSome = true ∧ d.CurrentTypeObject.isSome = true
  ∧ d.CurrentTypeModifierObject.isSome = true ∧ d.CurrentRegionObject.isSome = true
  ∧ d.CurrentRegionModifierObject.isSome = true

/-- The code identifier with three empty texts, which the modifier slots look up when a combobox
reports that it has no current item. -/
def emptyId : CodeIdentifier := ⟨[], [], []⟩

/-- The terminology logic (when available) finds no type modifier and no region modifier under
the empty code identifier. -/
def FindsNoEmptyModifier (logic : Option vtkSlicerTerminologiesModuleLogic) : Prop :=
  ∀ L, logic = some L →
    (∀ n c t, L.GetTypeModifierInTerminologyType n c t emptyId = none)
    ∧ (∀ n r, L.GetRegionModifierInAnatomicRegion n r emptyId = none)

/-- Everything of the selection but the type modifier is the same, and the type modifier is
allocated. -/
def TypeModifierFrame (d e : qSlicerTerminologyNavigatorWidgetPrivate) : Prop :=
  e.CurrentTerminologyName = d.CurrentTerminologyName
  ∧ e.CurrentCategoryObject = d.CurrentCategoryObject
  ∧ e.CurrentTypeObject = d.CurrentTypeObject
  ∧ e.CurrentAnatomicContextName = d.CurrentAnatomicContextName
  ∧ e.CurrentRegionObject = d.CurrentRegionObject
  ∧ e.CurrentRegionModifierObject = d.CurrentRegionModifierObject
  ∧ e.CurrentTypeModifierObject.isSome = true

/-- Everything of the selection but the region modifier is the same, and the region modifier is
allocated. -/
def RegionModifierFrame (d e : qSlicerTerminologyNavigatorWidgetPrivate) : Prop :=
  e.CurrentTerminologyName = d.CurrentTerminologyName
  ∧ e.CurrentCategoryObject = d.CurrentCategoryObject
  ∧ e.CurrentTypeObject = d.CurrentTypeObject
  ∧ e.CurrentTypeModifierObject = d.CurrentTypeModifierObject
  ∧ e.CurrentAnatomicContextName = d.CurrentAnatomicContextName
  ∧ e.CurrentRegionObject = d.CurrentRegionObject
  ∧ e.CurrentRegionModifierObject.isSome = true

/-- The sample logic made lenient: a modifier lookup returns the first modifier whatever
identifier is asked for, also the empty one. -/
def lenientLogic : vtkSlicerTerminologiesModuleLogic :=
  { sampleLogic with
    GetTypeModifierInTerminologyType := fun _ _ _ _ => some (typeOfId rightId)
    GetRegionModifierInAnatomicRegion := fun _ _ _ => some (typeOfId rightId) }

/-- The navigator constructed with the lenient logic after the category, the kidney type and the
lung region have been selected: both modifier comboboxes hold items. -/
def afterModifierSelection : Option qSlicerTerminologyNavigatorWidgetPrivate :=
  (constructedNavigator (some lenientLogic)).bind fun d =>
    (setCurrentCategory (some lenientLogic) d (some tissueCategory)).bind fun r =>
      (setCurrentType (some lenientLogic) r.2 (some kidneyType)).bind fun r =>
        (setCurrentRegion (some lenientLogic) r.2 (some lungRegion)).map fun r => r.2

/-- A type without modifiers of the sample terminology. -/
def heartType : vtkSlicerTerminologyType :=
  typeOfId ⟨"SRT".toList, "T-32000".toList, "Heart".toList⟩

/-- The navigator constructed with the sample logic (its only terminology `T` and its only
anatomic context `A` become current while the comboboxes are populated), after the category of
the terminology has been selected. -/
def afterCategorySelection : Option qSlicerTerminologyNavigatorWidgetPrivate :=
  (constructedNavigator (some sampleLogic)).bind fun d =>
    (setCurrentCategory (some sampleLogic) d (some tissueCategory)).map fun r => r.2

/-- An entry used to instantiate the round-trip statements: a tissue category with a type, a
type modifier and a region, without region modifier. -/
def sampleEntry : vtkSlicerTerminologyEntry :=
  { TerminologyContextName := some "Segmentation category and type".toList
    CategoryObject := some (categoryOfId ⟨"SRT".toList, "T-D0050".toList, "Tissue".toList⟩)
    TypeObject := some (typeOfId ⟨"SRT".toList, "T-32000".toList, "Heart".toList⟩)
    TypeModifierObject := some (typeOfId ⟨"SRT".toList, "G-A101".toList, "Left".toList⟩)
    AnatomicContextName := some "Anatomic codes".toList
    AnatomicRegionObject := some (typeOfId ⟨"SRT".toList, "T-D3000".toList, "Chest".toList⟩)
    AnatomicRegionModifierObject := none }

/-- The conditions under which `deserializeTerminologyEntry` returns true. -/
def DeserializeSucceeds (logic : Option vtkSlicerTerminologiesModuleLogic) (s : QString) : Prop :=
  ∃ L, logic = some L
    ∧ (split tilde s).length = 7
    ∧ ((split tilde s).getD 0 []) ≠ []
    ∧ (split caret ((split tilde s).getD 1 [])).length = 3
    ∧ (L.GetCategoryInTerminology (toStdString ((split tilde s).getD 0 []))
        (codeIdentifierOfParts (split caret ((split tilde s).getD 1 [])))).isSome = true
    ∧ (split caret ((split tilde s).getD 2 [])).length = 3
    ∧ (L.GetTypeInTerminologyCategory (toStdString ((split tilde s).getD 0 []))
        (codeIdentifierOfParts (split caret ((split tilde s).getD 1 [])))
        (codeIdentifierOfParts (split caret ((split tilde s).getD 2 [])))).isSome = true

/-- The entry that a successful `deserializeTerminologyEntry` leaves, written field by field
from the seven components of the text, the category object and the type object found. -/
def deserializedEntry (L : vtkSlicerTerminologiesModuleLogic) (c0 c1 c2 c3 c4 c5 c6 : QString)
    (oc : vtkSlicerTerminologyCategory) (ot : vtkSlicerTerminologyType) :
    vtkSlicerTerminologyEntry :=
  { TerminologyContextName := cstrOrNull (toStdString c0)
    CategoryObject := some oc
    TypeObject := some ot
    TypeModifierObject :=
      if (split caret c3).length = 3 then
        L.GetTypeModifierInTerminologyType (toStdString c0) (codeIdentifierOfParts (split caret c1))
          (codeIdentifierOfParts (split caret c2)) (codeIdentifierOfParts (split caret c3))
      else none
    AnatomicContextName := cstrOrNull (toStdString c4)
    AnatomicRegionObject :=
      if (split caret c5).length = 3 then
        L.GetRegionInAnatomicContext (toStdString c4) (codeIdentifierOfParts (split caret c5))
      else none
    AnatomicRegionModifierObject :=
      if (split caret c5).length = 3 ∧ (split caret c6).length = 3 then
        L.GetRegionModifierInAnatomicRegion (toStdString c4)
          (codeIdentifierOfParts (split caret c5)) (codeIdentifierOfParts (split caret c6))
      else none }

/-- A text that deserializes although its type-modifier component is not a triple. -/
def looseText : QString := "T~a^b^c~d^e^f~x~~^^~^^".toList

/-- A text that deserializes although its terminology name is not Latin-1. -/
def greekText : QString := "Tπ~a^b^c~d^e^f~^^~~^^~^^".toList

/-- A well-formed serialized text. -/
def sampleText : QString := "T~a^b^c~d^e^f~g^h^i~A~j^k^l~^^".toList

/-- An entry whose type-modifier code value holds a caret. -/
def caretEntry : vtkSlicerTerminologyEntry :=
  { sampleEntry with
    TypeModifierObject := some (typeOfId ⟨"SRT".toList, "G^A".toList, "Left".toList⟩) }

/-- Button methods that store what they are given and leave the terminology unchanged when the
selector is opened. -/
def storingMethods : SelectorButtonMethods :=
  { setTerminologyEntry := fun b entry _ => { b with TerminologyEntry := some entry }
    setColor := fun b c => { b with Color := c }
    changeTerminology := fun b => b }

/-- A model whose cells hold nothing. -/
def emptyModel : QAbstractItemModel :=
  fun _ _ => QVariant.null

/-- An editor that holds the sample entry and no custom colour. -/
def sampleButton : qSlicerTerminologySelectorButton :=
  { changeDataOnSet := false, TerminologyEntry := some sampleEntry, Color := QColor.invalid }

/-- An entry whose type has modifiers and whose type modifier recommends another colour than the
type. -/
def modifiedEntry : vtkSlicerTerminologyEntry :=
  { sampleEntry with
    TypeObject := some { typeOfId ⟨"SRT".toList, "T-32000".toList, "Heart".toList⟩ with
      HasModifiers := true, RecommendedDisplayRGBValue := (10, 20, 30) }
    TypeModifierObject := some { typeOfId ⟨"SRT".toList, "G-A101".toList, "Left".toList⟩ with
      RecommendedDisplayRGBValue := (200, 100, 50) } }

/-- The text contains the search text. -/
def containsText (search text : QString) : Bool :=
  text.tails.any fun t => search.isPrefixOf t

/-- The sample logic with searches that filter: a search for types or regions finds the
identifiers whose code meaning contains the search text. -/
def searchingLogic : vtkSlicerTerminologiesModuleLogic :=
  { sampleLogic with
    FindTypesInTerminologyCategory := fun _ _ search =>
      [CodeIdentifierFromTerminologyType kidneyType].filter fun id =>
        containsText search id.CodeMeaning
    FindRegionsInAnatomicContext := fun _ search =>
      [CodeIdentifierFromTerminologyType lungRegion].filter fun id =>
        containsText search id.CodeMeaning }

/-- The navigator constructed with the searching logic after the category has been selected, the
text `Kid` typed into the type search box and then the text `Lu` into the region search box. -/
def afterRegionSearch : Option qSlicerTerminologyNavigatorWidgetPrivate :=
  (constructedNavigator (some searchingLogic)).bind fun d =>
    (setCurrentCategory (some searchingLogic) d (some tissueCategory)).bind fun r =>
      (editTypeSearchText (some searchingLogic) r.2 "Kid".toList).bind fun d =>
        editRegionSearchText (some searchingLogic) d "Lu".toList

/-- The navigator constructed with the sample logic after the category has been selected and the
kidney type clicked in the type table: the colour picker shows the recommended colour. -/
def afterTypeClick : Option qSlicerTerminologyNavigatorWidgetPrivate :=
  afterCategorySelection.bind fun d =>
    onTypeClicked (some sampleLogic) d (tableItemOfId (CodeIdentifierFromTerminologyType kidneyType))

/-- The navigator constructed with the sample logic after the category and the kidney type have
been selected: the type-modifier combobox holds the modifiers right and left. -/
def afterTypeSelection : Option qSlicerTerminologyNavigatorWidgetPrivate :=
  afterCategorySelection.bind fun d =>
    (setCurrentType (some sampleLogic) d (some kidneyType)).map fun r => r.2

/-- A modifier with the code meaning of the left modifier under another coding scheme and code
value. -/
def otherLeftModifier : vtkSlicerTerminologyType :=
  typeOfId ⟨"DCM".toList, "0".toList, "Left".toList⟩

/-- The navigator constructed with the sample logic after the lung region has been selected. -/
def afterRegionSelection : Option qSlicerTerminologyNavigatorWidgetPrivate :=
  (constructedNavigator (some sampleLogic)).bind fun d =>
    (setCurrentRegion (some sampleLogic) d (some lungRegion)).map fun r => r.2

/-- The sample category with the show-anatomy flag off. -/
def plainCategory : vtkSlicerTerminologyCategory :=
  { tissueCategory with ShowAnatomy := false }

/-- The part of the navigator that the selection functions read and write: the seven parts of
the current selection and what the seven widgets of the cascade hold (items of the comboboxes,
rows of the tables). -/
structure NavigatorView where
  terminologyName : QString
  category : Option vtkSlicerTerminologyCategory
  type : Option vtkSlicerTerminologyType
  typeModifier : Option vtkSlicerTerminologyType
  contextName : QString
  region : Option vtkSlicerTerminologyType
  regionModifier : Option vtkSlicerTerminologyType
  terminologyItems : List QComboBoxItem
  categoryRows : List (Option QTableWidgetItem)
  typeRows : List (Option QTableWidgetItem)
  typeModifierItems : List QComboBoxItem
  contextItems : List QComboBoxItem
  regionRows : List (Option QTableWidgetItem)
  regionModifierItems : List QComboBoxItem

/-- The view of the private data. -/
def view (d : qSlicerTerminologyNavigatorWidgetPrivate) : NavigatorView :=
  { terminologyName := d.CurrentTerminologyName
    category := d.CurrentCategoryObject
    type := d.CurrentTypeObject
    typeModifier := d.CurrentTypeModifierObject
    contextName := d.CurrentAnatomicContextName
    region := d.CurrentRegionObject
    regionModifier := d.CurrentRegionModifierObject
    terminologyItems := d.ComboBox_Terminology.items
    categoryRows := d.tableWidget_Category.rows
    typeRows := d.tableWidget_Type.rows
    typeModifierItems := d.ComboBox_TypeModifier.items
    contextItems := d.ComboBox_AnatomicContext.items
    regionRows := d.tableWidget_AnatomicRegion.rows
    regionModifierItems := d.ComboBox_AnatomicRegionModifier.items }

/-- The table item matches a whole code identifier given by its three C strings: its text is
the code meaning, its stored coding-scheme designator the coding scheme, and its stored code
value the code value. -/
def ItemMatches (item : QTableWidgetItem) (meaning scheme value : Option QString) : Prop :=
  item.text = fromCStr meaning ∧ scheme = some item.CodingSchemeDesignator
    ∧ value = some item.CodeValue

/-- A navigator without logic whose type table holds one row, the item of the heart type. -/
def heartTableState : qSlicerTerminologyNavigatorWidgetPrivate :=
  { constructedPrivate with
    tableWidget_Type :=
      { rows := [some (tableItemOfId (CodeIdentifierFromTerminologyType heartType))] } }

/-- The combobox holds an item with the given text. -/
def comboHoldsText (box : QComboBox) (text : QString) : Bool :=
  box.items.any fun item => decide (item.text = text)

/-- The table holds an item for the code identifier given by its three C strings: some row has
an item whose text is the code meaning, whose stored coding-scheme designator is the coding
scheme and whose stored code value is the code value. -/
def tableHoldsIdentifier (table : QTableWidget) (meaning scheme value : Option QString) : Bool :=
  table.rows.any fun row =>
    match row with
    | some item =>
      decide (item.text = fromCStr meaning) && decide (scheme = some item.CodingSchemeDesignator)
        && decide (value = some item.CodeValue)
    | none => false

/-- The condition that the specification gives for `setTerminologyEntry(entry)` to return true,
in terms of what the widgets of `d` hold: the entry is not null; its terminology name is an item
of the terminology combobox; its category is present and the category table holds its
identifier; its type is present and the type table holds its identifier; its type modifier,
when the type has modifiers and a modifier is given, is by its code meaning an item of the
type-modifier combobox; and, when the category shows anatomy, its anatomic-context name, if
given, is an item of the anatomic-context combobox, the region table holds the identifier of its
region, if given, and its region modifier, when the region has modifiers and a modifier is
given, is by its code meaning an item of the region-modifier combobox. -/
def entryComponentsPresent (d : qSlicerTerminologyNavigatorWidgetPrivate)
    (entry : Option vtkSlicerTerminologyEntry) : Bool :=
  match entry with
  | none => false
  | some entry =>
    match entry.TerminologyContextName, entry.CategoryObject with
    | some name, some category =>
      comboHoldsText d.ComboBox_Terminology name
      && tableHoldsIdentifier d.tableWidget_Category category.CodeMeaning category.CodingScheme
          category.CodeValue
      && (match entry.TypeObject with
          | none => false
          | some type =>
            tableHoldsIdentifier d.tableWidget_Type type.CodeMeaning type.CodingScheme
              type.CodeValue
            && (match entry.TypeModifierObject with
                | some modifier =>
                  !type.HasModifiers
                  || comboHoldsText d.ComboBox_TypeModifier (fromCStr modifier.CodeMeaning)
                | none => true))
      && (!category.ShowAnatomy
          || ((match entry.AnatomicContextName with
                | some contextName => comboHoldsText d.ComboBox_AnatomicContext contextName
                | none => true)
              && (match entry.AnatomicRegionObject with
                  | some region =>
                    tableHoldsIdentifier d.tableWidget_AnatomicRegion region.CodeMeaning
                      region.CodingScheme region.CodeValue
                    && (match entry.AnatomicRegionModifierObject with
                        | some modifier =>
                          !region.HasModifiers
                          || comboHoldsText d.ComboBox_AnatomicRegionModifier
                              (fromCStr modifier.CodeMeaning)
                        | none => true)
                  | none => true)))
    | _, _ => false

/-- The type part of what `setTerminologyEntry` combines into its return value, evaluated on the
widgets of `d` with the finders of the source: the entry has a type that is found in the type
table, and its type modifier, when the type has modifiers and a modifier is given, is found in
the type-modifier combobox. -/
def typeComponentsFound (d : qSlicerTerminologyNavigatorWidgetPrivate)
    (entry : vtkSlicerTerminologyEntry) : Bool :=
  match entry.TypeObject with
  | none => false
  | some type =>
    (findTableWidgetItemForType (some d.tableWidget_Type) (some type)).isSome
    && (match entry.TypeModifierObject with
        | some modifier =>
          !type.HasModifiers
          || decide (findComboBoxIndexForModifier (some d.ComboBox_TypeModifier) (some modifier)
              ≠ -1)
        | none => true)

/-- The anatomic-context part of the condition: the anatomic-context name of the entry, if
given, is found in the anatomic-context combobox. -/
def contextComponentFound (d : qSlicerTerminologyNavigatorWidgetPrivate)
    (entry : vtkSlicerTerminologyEntry) : Bool :=
  match entry.AnatomicContextName with
  | some contextName => decide (d.ComboBox_AnatomicContext.findText contextName ≠ -1)
  | none => true

/-- The region part of the condition: the region of the entry, if given, is found in the region
table, and its region modifier, when the region has modifiers and a modifier is given, is found
in the region-modifier combobox. -/
def regionComponentsFound (d : qSlicerTerminologyNavigatorWidgetPrivate)
    (entry : vtkSlicerTerminologyEntry) : Bool :=
  match entry.AnatomicRegionObject with
  | some region =>
    (findTableWidgetItemForType (some d.tableWidget_AnatomicRegion) (some region)).isSome
    && (match entry.AnatomicRegionModifierObject with
        | some modifier =>
          !region.HasModifiers
          || decide (findComboBoxIndexForModifier (some d.ComboBox_AnatomicRegionModifier)
              (some modifier) ≠ -1)
        | none => true)
  | none => true

/-- What `setTerminologyEntry(entry)` combines into its return value, evaluated on the widgets
of `d` with the finders of the source: the entry is not null, its terminology name is in the
terminology combobox, its category is present and found in the category table, the type part
holds and, when the category shows anatomy, the anatomic-context part and the region part
hold. -/
def entryComponentsFound (d : qSlicerTerminologyNavigatorWidgetPrivate)
    (entry : Option vtkSlicerTerminologyEntry) : Bool :=
  match entry with
  | none => false
  | some entry =>
    match entry.TerminologyContextName, entry.CategoryObject with
    | some name, some category =>
      decide (d.ComboBox_Terminology.findText name ≠ -1)
      && (findTableWidgetItemForCategory d (some category)).isSome
      && typeComponentsFound d entry
      && (!category.ShowAnatomy
          || (contextComponentFound d entry && regionComponentsFound d entry))
    | _, _ => false

/-- An entry of the sample terminology with the kidney type and its left modifier, in the sample
anatomic context with the lung region and its right modifier. -/
def kidneyEntry : vtkSlicerTerminologyEntry :=
  { TerminologyContextName := some "T".toList
    CategoryObject := some tissueCategory
    TypeObject := some kidneyType
    TypeModifierObject := some (typeOfId leftId)
    AnatomicContextName := some "A".toList
    AnatomicRegionObject := some lungRegion
    AnatomicRegionModifierObject := some (typeOfId rightId) }

/-- A navigator whose terminology combobox holds the terminology `T` of the sample logic as its
current item, nothing else being selected. -/
def namedState : qSlicerTerminologyNavigatorWidgetPrivate :=
  { constructedPrivate with
    CurrentTerminologyName := "T".toList
    ComboBox_Terminology := { items := [{ text := "T".toList }], currentIndex := 0 } }

/-- The parts of the view. -/
inductive Part where
  | terminologyName | category | type | typeModifier | contextName | region | regionModifier
  | terminologyItems | categoryRows | typeRows | typeModifierItems | contextItems | regionRows
  | regionModifierItems
deriving DecidableEq, Repr

/-- The view with the listed parts blanked. -/
def NavigatorView.erase (parts : List Part) (v : NavigatorView) : NavigatorView :=
  { terminologyName := if Part.terminologyName ∈ parts then [] else v.terminologyName
    category := if Part.category ∈ parts then none else v.category
    type := if Part.type ∈ parts then none else v.type
    typeModifier := if Part.typeModifier ∈ parts then none else v.typeModifier
    contextName := if Part.contextName ∈ parts then [] else v.contextName
    region := if Part.region ∈ parts then none else v.region
    regionModifier := if Part.regionModifier ∈ parts then none else v.regionModifier
    terminologyItems := if Part.terminologyItems ∈ parts then [] else v.terminologyItems
    categoryRows := if Part.categoryRows ∈ parts then [] else v.categoryRows
    typeRows := if Part.typeRows ∈ parts then [] else v.typeRows
    typeModifierItems := if Part.typeModifierItems ∈ parts then [] else v.typeModifierItems
    contextItems := if Part.contextItems ∈ parts then [] else v.contextItems
    regionRows := if Part.regionRows ∈ parts then [] else v.regionRows
    regionModifierItems :=
      if Part.regionModifierItems ∈ parts then [] else v.regionModifierItems }

/-- From `d` to `e` the view changes in the listed parts at most. -/
def ChangesOnly (parts : List Part) (d e : qSlicerTerminologyNavigatorWidgetPrivate) : Prop :=
  (view e).erase parts = (view d).erase parts

/-- The parts of the view on the anatomic branch below the anatomic-context combobox. -/
def anatomicParts : List Part :=
  [Part.contextName, Part.region, Part.regionModifier, Part.regionRows,
    Part.regionModifierItems]

/-- The parts of the view below the category table on both branches. -/
def belowCategoryParts : List Part :=
  [Part.type, Part.typeModifier, Part.typeModifierItems, Part.contextName, Part.region,
    Part.regionModifier, Part.regionRows, Part.regionModifierItems]

/-- All parts of the view but the items of the terminology combobox and of the anatomic-context
combobox. -/
def selectionParts : List Part :=
  [Part.terminologyName, Part.category, Part.type, Part.typeModifier, Part.contextName,
    Part.region, Part.regionModifier, Part.categoryRows, Part.typeRows, Part.typeModifierItems,
    Part.regionRows, Part.regionModifierItems]

/-- The parts of the view on the terminology branch. -/
def terminologyParts : List Part :=
  [Part.terminologyName, Part.category, Part.type, Part.typeModifier, Part.region,
    Part.regionModifier, Part.categoryRows, Part.typeRows, Part.typeModifierItems,
    Part.regionModifierItems]

/-- The seventeen texts that stand for an entry when it is handed to the string overload of
`serializeTerminologyEntry`: a missing name, object or code member is the empty text. -/
def fieldsOfEntry (e : vtkSlicerTerminologyEntry) : SerializedFields :=
  { terminologyContextName := fromCStr e.TerminologyContextName
    categoryValue := categoryValue e.CategoryObject
    categorySchemeDesignator := categoryScheme e.CategoryObject
    categoryMeaning := categoryMeaning e.CategoryObject
    typeValue := typeValue e.TypeObject
    typeSchemeDesignator := typeScheme e.TypeObject
    typeMeaning := typeMeaning e.TypeObject
    modifierValue := typeValue e.TypeModifierObject
    modifierSchemeDesignator := typeScheme e.TypeModifierObject
    modifierMeaning := typeMeaning e.TypeModifierObject
    anatomicContextName := fromCStr e.AnatomicContextName
    regionValue := typeValue e.AnatomicRegionObject
    regionSchemeDesignator := typeScheme e.AnatomicRegionObject
    regionMeaning := typeMeaning e.AnatomicRegionObject
    regionModifierValue := typeValue e.AnatomicRegionModifierObject
    regionModifierSchemeDesignator := typeScheme e.AnatomicRegionModifierObject
    regionModifierMeaning := typeMeaning e.AnatomicRegionModifierObject }

/-- The seventeen texts of a tuple. -/
def fieldTexts (f : SerializedFields) : List QString :=
  [ f.terminologyContextName, f.categoryValue, f.categorySchemeDesignator, f.categoryMeaning,
    f.typeValue, f.typeSchemeDesignator, f.typeMeaning,
    f.modifierValue, f.modifierSchemeDesignator, f.modifierMeaning,
    f.anatomicContextName, f.regionValue, f.regionSchemeDesignator, f.regionMeaning,
    f.regionModifierValue, f.regionModifierSchemeDesignator, f.regionModifierMeaning ]

/-- No text of the tuple contains a tilde or a caret. -/
def DelimiterFree (f : SerializedFields) : Prop :=
  ∀ s ∈ fieldTexts f, tilde ∉ s ∧ caret ∉ s

/-- A tuple without delimiter characters. -/
def sampleFields : SerializedFields :=
  { terminologyContextName := "T".toList
    categoryValue := "T-D0050".toList
    categorySchemeDesignator := "SRT".toList
    categoryMeaning := "Tissue".toList
    typeValue := "T-32000".toList
    typeSchemeDesignator := "SRT".toList
    typeMeaning := "Heart".toList
    modifierValue := []
    modifierSchemeDesignator := []
    modifierMeaning := []
    anatomicContextName := "A".toList
    regionValue := []
    regionSchemeDesignator := []
    regionMeaning := []
    regionModifierValue := []
    regionModifierSchemeDesignator := []
    regionModifierMeaning := [] }

/-- A text whose first component begins with the NUL character. -/
def nulText : QString := nul :: "T~a^b^c~d^e^f~^^~~^^~^^".toList

/-- The methods of the editor leave its dynamic property `changeDataOnSet` as it is. -/
def KeepsChangeDataOnSet (methods : SelectorButtonMethods) : Prop :=
  (∀ b entry flag,
      (methods.setTerminologyEntry b entry flag).changeDataOnSet = b.changeDataOnSet)
  ∧ (∀ b c, (methods.setColor b c).changeDataOnSet = b.changeDataOnSet)
  ∧ (∀ b, (methods.changeTerminology b).changeDataOnSet = b.changeDataOnSet)

/-- A cell model that holds the sample text and a red colour in every cell. -/
def sampleModel : QAbstractItemModel :=
  fun _ role =>
    if role = WhatsThisRole then QVariant.string sampleText
    else if role = DecorationRole then QVariant.color (QColor.rgb 255 0 0)
    else QVariant.null

/-- The serialized form of an entry of the sample terminology with the kidney type, which has
modifiers, and without type modifier. -/
def kidneyText : QString := "T~SRT^T-D0050^Tissue~SRT^T-71000^Kidney~^^~~^^~^^".toList

/-- An editor without custom colour that holds the entry deserialized from the kidney text with
the sample logic. -/
def kidneyButton : qSlicerTerminologySelectorButton :=
  { changeDataOnSet := false
    TerminologyEntry := some (deserializeTerminologyEntry (some sampleLogic) kidneyText {}).2
    Color := QColor.invalid }

/-- The sample logic without anatomic contexts. -/
def noContextLogic : vtkSlicerTerminologiesModuleLogic :=
  { sampleLogic with GetLoadedAnatomicContextNames := [] }

/-- The sample logic without terminologies. -/
def noTerminologyLogic : vtkSlicerTerminologiesModuleLogic :=
  { sampleLogic with GetLoadedTerminologyNames := [] }

/-- The sample logic with a kidney type that is flagged as having modifiers but lists none. -/
def noModifierLogic : vtkSlicerTerminologiesModuleLogic :=
  { sampleLogic with GetTypeModifiersInTerminologyType := fun _ _ _ => [] }

/-- The navigator constructed with the logic without anatomic contexts, after the category has
been selected and the kidney type clicked: terminology, category, type and type modifier are
selected, the anatomic-context name is empty. -/
def afterTypeWithoutContext : Option qSlicerTerminologyNavigatorWidgetPrivate :=
  (constructedNavigator (some noContextLogic)).bind fun d =>
    (setCurrentCategory (some noContextLogic) d (some tissueCategory)).bind fun r =>
      onTypeClicked (some noContextLogic) r.2
        (tableItemOfId (CodeIdentifierFromTerminologyType kidneyType))

/-- The navigator constructed with the logic whose kidney type lists no modifiers, after the
category and the kidney type have been selected: no type modifier is selected. -/
def afterTypeWithoutModifier : Option qSlicerTerminologyNavigatorWidgetPrivate :=
  (constructedNavigator (some noModifierLogic)).bind fun d =>
    (setCurrentCategory (some noModifierLogic) d (some tissueCategory)).bind fun r =>
      (setCurrentType (some noModifierLogic) r.2 (some kidneyType)).map fun r => r.2

/-- A call of a member function of the navigator that can change the private data, with its
arguments: the functions of the public interface, the populate and setCurrent functions, and the
slots. -/
inductive NavigatorCall
  | setTerminologyEntry (entry : Option vtkSlicerTerminologyEntry)
  | setColor (color : QColor)
  | populateTerminologyComboBox
  | populateCategoryTable
  | populateTypeTable
  | populateTypeModifierComboBox
  | populateAnatomicContextComboBox
  | populateRegionTable
  | populateRegionModifierComboBox
  | setCurrentTerminology (terminologyName : QString)
  | setCurrentCategory (category : Option vtkSlicerTerminologyCategory)
  | setCurrentType (type : Option vtkSlicerTerminologyType)
  | setCurrentTypeModifier (modifier : Option vtkSlicerTerminologyType)
  | setCurrentAnatomicContext (contextName : QString)
  | setCurrentRegion (region : Option vtkSlicerTerminologyType)
  | setCurrentRegionModifier (modifier : Option vtkSlicerTerminologyType)
  | onTerminologySelectionChanged (index : Int)
  | onCategoryClicked (item : QTableWidgetItem)
  | onTypeClicked (item : QTableWidgetItem)
  | onTypeModifierSelectionChanged (index : Int)
  | onCategorySearchTextChanged (search : QString)
  | onTypeSearchTextChanged (search : QString)
  | onColorChanged (color : QColor)
  | onAnatomicContextSelectionChanged (index : Int)
  | onRegionClicked (item : QTableWidgetItem)
  | onRegionModifierSelectionChanged (index : Int)
  | onRegionSearchTextChanged (search : QString)
  | onLogicModified

/-- The private data as the call leaves it; `none` when the call dereferences a null pointer. -/
def runCall (logic : Option vtkSlicerTerminologiesModuleLogic)
    (d : qSlicerTerminologyNavigatorWidgetPrivate) :
    NavigatorCall → Option qSlicerTerminologyNavigatorWidgetPrivate
  | .setTerminologyEntry entry => (setTerminologyEntry logic d entry).map Prod.snd
  | .setColor color => setColor d color
  | .populateTerminologyComboBox => populateTerminologyComboBox logic d
  | .populateCategoryTable => populateCategoryTable logic d
  | .populateTypeTable => populateTypeTable logic d
  | .populateTypeModifierComboBox => populateTypeModifierComboBox logic d
  | .populateAnatomicContextComboBox => populateAnatomicContextComboBox logic d
  | .populateRegionTable => populateRegionTable logic d
  | .populateRegionModifierComboBox => populateRegionModifierComboBox logic d
  | .setCurrentTerminology terminologyName => setCurrentTerminology logic d terminologyName
  | .setCurrentCategory category => (setCurrentCategory logic d category).map Prod.snd
  | .setCurrentType type => (setCurrentType logic d type).map Prod.snd
  | .setCurrentTypeModifier modifier => (setCurrentTypeModifier d modifier).map Prod.snd
  | .setCurrentAnatomicContext contextName => setCurrentAnatomicContext logic d contextName
  | .setCurrentRegion region => (setCurrentRegion logic d region).map Prod.snd
  | .setCurrentRegionModifier modifier => (setCurrentRegionModifier d modifier).map Prod.snd
  | .onTerminologySelectionChanged index => onTerminologySelectionChanged logic d index
  | .onCategoryClicked item => onCategoryClicked logic d item
  | .onTypeClicked item => onTypeClicked logic d item
  | .onTypeModifierSelectionChanged index => onTypeModifierSelectionChanged logic d index
  | .onCategorySearchTextChanged search => onCategorySearchTextChanged logic d search
  | .onTypeSearchTextChanged search => onTypeSearchTextChanged logic d search
  | .onColorChanged color => some (onColorChanged d color)
  | .onAnatomicContextSelectionChanged index => onAnatomicContextSelectionChanged logic d index
  | .onRegionClicked item => onRegionClicked logic d item
  | .onRegionModifierSelectionChanged index => onRegionModifierSelectionChanged logic d index
  | .onRegionSearchTextChanged search => onRegionSearchTextChanged logic d search
  | .onLogicModified => onLogicModified logic d

/-- The states of the private data that the navigator can be in: the state that the constructor
leaves, the state that a call leaves when made in a reachable state (with whatever logic is
available at the time of the call), and a reachable state with its widgets changed in any way
from outside (the user selects, types or picks a colour) while the seven members of the current
selection stay as they are. -/
inductive Reachable : qSlicerTerminologyNavigatorWidgetPrivate → Prop
  | constructed (logic : Option vtkSlicerTerminologiesModuleLogic)
      (d : qSlicerTerminologyNavigatorWidgetPrivate) :
      constructedNavigator logic = some d → Reachable d
  | call (logic : Option vtkSlicerTerminologiesModuleLogic) (c : NavigatorCall)
      (d e : qSlicerTerminologyNavigatorWidgetPrivate) :
      Reachable d → runCall logic d c = some e → Reachable e
  | widgets (d e : qSlicerTerminologyNavigatorWidgetPrivate) :
      Reachable d → selection e = selection d → Reachable e

/-- The private data that the constructor leaves with the sample logic. -/
def constructedSample : qSlicerTerminologyNavigatorWidgetPrivate :=
  (constructedNavigator (some sampleLogic)).getD constructedPrivate

theorem split_ne_nil (sep : Char) (s : QString) : split sep s ≠ [] := by
  cases s with
  | nil => simp [split]
  | cons c cs => by_cases h : c = sep <;> simp [split, h]

theorem split_append_sep (sep : Char) (a b : QString) (h : sep ∉ a) :
    split sep (a ++ sep :: b) = a :: split sep b := by
  induction a with
  | nil => simp [split]
  | cons c a ih =>
    have hc : c ≠ sep := fun e => h (by simp [e])
    have ha : sep ∉ a := fun e => h (by simp [e])
    simp [split, hc, ih ha]

theorem split_of_not_mem (sep : Char) (a : QString) (h : sep ∉ a) : split sep a = [a] := by
  induction a with
  | nil => simp [split]
  | cons c a ih =>
    have hc : c ≠ sep := fun e => h (by simp [e])
    have ha : sep ∉ a := fun e => h (by simp [e])
    simp [split, hc, ih ha]

theorem length_split (sep : Char) (s : QString) : (split sep s).length = s.count sep + 1 := by
  induction s with
  | nil => simp [split]
  | cons c cs ih =>
    by_cases h : c = sep
    · subst h
      simp [split, ih]
    · have hl : (split sep cs).tail.length = cs.count sep := by simp [ih]
      have hne : (c == sep) = false := by simpa using h
      simp [split, h, hl, List.count_cons, hne]

theorem intercalate_split (sep : Char) (s : QString) :
    [sep].intercalate (split sep s) = s := by
  induction s with
  | nil => simp [split, List.intercalate]
  | cons c cs ih =>
    by_cases h : c = sep
    · subst h
      have hne := split_ne_nil c cs
      cases hs : split c cs with
      | nil => exact absurd hs hne
      | cons p ps =>
        rw [hs] at ih
        simp only [split, if_true]
        rw [hs]
        simp [List.intercalate, List.intersperse] at ih ⊢
        exact ih
    · have hne := split_ne_nil sep cs
      cases hs : split sep cs with
      | nil => exact absurd hs hne
      | cons p ps =>
        rw [hs] at ih
        simp only [split, if_neg h]
        rw [hs]
        cases ps with
        | nil => simpa [List.intercalate, List.intersperse] using ih
        | cons q qs => simpa [List.intercalate, List.intersperse] using ih

theorem split_three (a b c : QString) (ha : caret ∉ a) (hb : caret ∉ b) (hc : caret ∉ c) :
    split caret (a ++ caret :: (b ++ caret :: c)) = [a, b, c] := by
  rw [split_append_sep _ _ _ ha, split_append_sep _ _ _ hb, split_of_not_mem _ _ hc]

theorem split_seven (a0 a1 a2 a3 a4 a5 a6 : QString) (h0 : tilde ∉ a0) (h1 : tilde ∉ a1)
    (h2 : tilde ∉ a2) (h3 : tilde ∉ a3) (h4 : tilde ∉ a4) (h5 : tilde ∉ a5) (h6 : tilde ∉ a6) :
    split tilde (a0 ++ tilde :: (a1 ++ tilde :: (a2 ++ tilde :: (a3 ++ tilde :: (a4 ++ tilde ::
      (a5 ++ tilde :: a6)))))) = [a0, a1, a2, a3, a4, a5, a6] := by
  rw [split_append_sep _ _ _ h0, split_append_sep _ _ _ h1, split_append_sep _ _ _ h2,
    split_append_sep _ _ _ h3, split_append_sep _ _ _ h4, split_append_sep _ _ _ h5,
    split_of_not_mem _ _ h6]

theorem toLatin1_of_ascii (s : QString) (h : AsciiText s) : toLatin1 s = s := by
  induction s with
  | nil => rfl
  | cons c cs ih =>
    have hc : c.toNat < 256 := by
      have := h c (by simp)
      simp [isAsciiChar] at this
      omega
    have hcs : AsciiText cs := fun d hd => h d (by simp [hd])
    have ih2 := ih hcs
    simp only [toLatin1] at ih2 ⊢
    simp [List.flatMap_cons, hc, ih2]

theorem constData_of_ascii (s : QString) (h : AsciiText s) : constData s = s := by
  induction s with
  | nil => rfl
  | cons c cs ih =>
    have hc : c ≠ nul := by
      intro e
      have := h c (by simp)
      rw [e] at this
      simp [isAsciiChar, nul] at this
    have hcs : AsciiText cs := fun d hd => h d (by simp [hd])
    have ih2 := ih hcs
    simp only [constData] at ih2 ⊢
    simp [List.takeWhile_cons, hc, ih2]

theorem toStdString_of_ascii (s : QString) (h : AsciiText s) : toStdString s = s := by
  rw [toStdString, toLatin1_of_ascii s h, constData_of_ascii s h]

theorem PlainText.ascii {s : QString} (h : PlainText s) : AsciiText s := by
  intro c hc
  have := h c hc
  simp [isPlainChar] at this
  simp [isAsciiChar, this.1.1.1, this.1.1.2]

theorem PlainText.no_tilde {s : QString} (h : PlainText s) : tilde ∉ s := by
  intro hc
  have := h tilde hc
  simp [isPlainChar] at this

theorem PlainText.no_caret {s : QString} (h : PlainText s) : caret ∉ s := by
  intro hc
  have := h caret hc
  simp [isPlainChar] at this

theorem fromCStr_cstrOrNull (s : QString) : fromCStr (cstrOrNull s) = s := by
  cases s with
  | nil => rfl
  | cons c cs => rfl

/-- A triple of plain texts joined by carets holds no tilde. -/
theorem tilde_not_mem_triple (a b c : QString) (ha : PlainText a) (hb : PlainText b)
    (hc : PlainText c) : tilde ∉ a ++ caret :: (b ++ caret :: c) := by
  have h1 := ha.no_tilde
  have h2 := hb.no_tilde
  have h3 := hc.no_tilde
  have h4 : tilde ≠ caret := by decide
  simp [h1, h2, h3, h4]

theorem echoLogic_answering : Answering echoLogic := by
  refine ⟨?_, ?_, ?_, ?_, ?_⟩
  · intro n c; exact ⟨_, rfl, rfl⟩
  · intro n c t; exact ⟨_, rfl, rfl⟩
  · intro n c t m; exact ⟨_, rfl, rfl⟩
  · intro n r; exact ⟨_, rfl, rfl⟩
  · intro n r m; exact ⟨_, rfl, rfl⟩

/-! ## The serialized form -/

/-- C1: the serialized form of an entry is its seven fields joined by six tildes, in the order
terminology name, category triple, type triple, type-modifier triple, anatomic-context name,
region triple, region-modifier triple; each triple is scheme, value and meaning joined by two
carets; a missing name or object contributes empty texts, so that the empty entry serializes to
the text of six tildes and ten carets shown. -/
theorem serializeTerminologyEntry_format :
    (∀ e : vtkSlicerTerminologyEntry,
      serializeTerminologyEntry (some e) = [tilde].intercalate
        [ fromCStr e.TerminologyContextName,
          [caret].intercalate [categoryScheme e.CategoryObject, categoryValue e.CategoryObject,
            categoryMeaning e.CategoryObject],
          [caret].intercalate [typeScheme e.TypeObject, typeValue e.TypeObject,
            typeMeaning e.TypeObject],
          [caret].intercalate [typeScheme e.TypeModifierObject, typeValue e.TypeModifierObject,
            typeMeaning e.TypeModifierObject],
          fromCStr e.AnatomicContextName,
          [caret].intercalate [typeScheme e.AnatomicRegionObject,
            typeValue e.AnatomicRegionObject, typeMeaning e.AnatomicRegionObject],
          [caret].intercalate [typeScheme e.AnatomicRegionModifierObject,
            typeValue e.AnatomicRegionModifierObject,
            typeMeaning e.AnatomicRegionModifierObject] ])
    ∧ fromCStr none = []
    ∧ (categoryScheme none = [] ∧ categoryValue none = [] ∧ categoryMeaning none = [])
    ∧ (typeScheme none = [] ∧ typeValue none = [] ∧ typeMeaning none = [])
    ∧ serializeTerminologyEntry (some {}) = "~^^~^^~^^~~^^~^^".toList := by
  refine ⟨?_, rfl, ⟨rfl, rfl, rfl⟩, ⟨rfl, rfl, rfl⟩, by decide⟩
  intro e
  simp [serializeTerminologyEntry, List.intercalate, List.intersperse]

/-- The serialized form written as nested appends of its seven components. -/
theorem serializeTerminologyEntry_nested (e : vtkSlicerTerminologyEntry) :
    serializeTerminologyEntry (some e) =
      fromCStr e.TerminologyContextName ++ tilde ::
      ((categoryScheme e.CategoryObject ++ caret :: (categoryValue e.CategoryObject ++ caret ::
          categoryMeaning e.CategoryObject)) ++ tilde ::
      ((typeScheme e.TypeObject ++ caret :: (typeValue e.TypeObject ++ caret ::
          typeMeaning e.TypeObject)) ++ tilde ::
      ((typeScheme e.TypeModifierObject ++ caret :: (typeValue e.TypeModifierObject ++ caret ::
          typeMeaning e.TypeModifierObject)) ++ tilde ::
      (fromCStr e.AnatomicContextName ++ tilde ::
      ((typeScheme e.AnatomicRegionObject ++ caret :: (typeValue e.AnatomicRegionObject ++
          caret :: typeMeaning e.AnatomicRegionObject)) ++ tilde ::
      (typeScheme e.AnatomicRegionModifierObject ++ caret ::
        (typeValue e.AnatomicRegionModifierObject ++ caret ::
          typeMeaning e.AnatomicRegionModifierObject))))))) := by
  simp [serializeTerminologyEntry]

/-- C2: round trip entry, text, entry. For an entry with a non-empty terminology name whose
seventeen texts are ASCII without tilde or caret, and a terminology logic that answers every lookup
with an object carrying the requested code identifier, deserializing the serialized entry into any
entry object returns true and yields the same seventeen texts (terminology name, the triples of
category, type, type modifier, region and region modifier, and the anatomic-context name, a
missing object counting as the empty triple). The presence of a category and of a type is not
needed. -/
theorem deserialize_serialize_roundtrip (L : vtkSlicerTerminologiesModuleLogic)
    (e e2 : vtkSlicerTerminologyEntry) (hL : Answering L)
    (hname : fromCStr e.TerminologyContextName ≠ [])
    (hplain : ∀ s ∈ entryTexts e, PlainText s) :
    (deserializeTerminologyEntry (some L) (serializeTerminologyEntry (some e)) e2).1 = true
    ∧ entryTexts (deserializeTerminologyEntry (some L) (serializeTerminologyEntry (some e)) e2).2
        = entryTexts e := by
  simp only [entryTexts, List.forall_mem_cons, List.not_mem_nil, false_implies, implies_true,
    and_true] at hplain
  obtain ⟨p0, p1, p2, p3, p4, p5, p6, p7, p8, p9, p10, p11, p12, p13, p14, p15, p16⟩ := hplain
  obtain ⟨hcat, htype, hmod, hreg, hrmod⟩ := hL
  rw [serializeTerminologyEntry_nested]
  have hsplit := split_seven (fromCStr e.TerminologyContextName)
    (categoryScheme e.CategoryObject ++ caret :: (categoryValue e.CategoryObject ++ caret ::
      categoryMeaning e.CategoryObject))
    (typeScheme e.TypeObject ++ caret :: (typeValue e.TypeObject ++ caret ::
      typeMeaning e.TypeObject))
    (typeScheme e.TypeModifierObject ++ caret :: (typeValue e.TypeModifierObject ++ caret ::
      typeMeaning e.TypeModifierObject))
    (fromCStr e.AnatomicContextName)
    (typeScheme e.AnatomicRegionObject ++ caret :: (typeValue e.AnatomicRegionObject ++
      caret :: typeMeaning e.AnatomicRegionObject))
    (typeScheme e.AnatomicRegionModifierObject ++ caret ::
      (typeValue e.AnatomicRegionModifierObject ++ caret ::
        typeMeaning e.AnatomicRegionModifierObject))
    p0.no_tilde (tilde_not_mem_triple _ _ _ p1 p2 p3) (tilde_not_mem_triple _ _ _ p4 p5 p6)
    (tilde_not_mem_triple _ _ _ p7 p8 p9) p10.no_tilde (tilde_not_mem_triple _ _ _ p11 p12 p13)
    (tilde_not_mem_triple _ _ _ p14 p15 p16)
  have s1 := split_three _ _ _ p1.no_caret p2.no_caret p3.no_caret
  have s2 := split_three _ _ _ p4.no_caret p5.no_caret p6.no_caret
  have s3 := split_three _ _ _ p7.no_caret p8.no_caret p9.no_caret
  have s5 := split_three _ _ _ p11.no_caret p12.no_caret p13.no_caret
  have s6 := split_three _ _ _ p14.no_caret p15.no_caret p16.no_caret
  have hne : (fromCStr e.TerminologyContextName).isEmpty = false := by
    cases h : fromCStr e.TerminologyContextName with
    | nil => exact absurd h hname
    | cons c cs => rfl
  obtain ⟨oc, hoc, hocid⟩ := hcat (fromCStr e.TerminologyContextName)
    ⟨categoryScheme e.CategoryObject, categoryValue e.CategoryObject,
      categoryMeaning e.CategoryObject⟩
  obtain ⟨ot, hot, hotid⟩ := htype (fromCStr e.TerminologyContextName)
    ⟨categoryScheme e.CategoryObject, categoryValue e.CategoryObject,
      categoryMeaning e.CategoryObject⟩
    ⟨typeScheme e.TypeObject, typeValue e.TypeObject, typeMeaning e.TypeObject⟩
  obtain ⟨om, hom, homid⟩ := hmod (fromCStr e.TerminologyContextName)
    ⟨categoryScheme e.CategoryObject, categoryValue e.CategoryObject,
      categoryMeaning e.CategoryObject⟩
    ⟨typeScheme e.TypeObject, typeValue e.TypeObject, typeMeaning e.TypeObject⟩
    ⟨typeScheme e.TypeModifierObject, typeValue e.TypeModifierObject,
      typeMeaning e.TypeModifierObject⟩
  obtain ⟨oreg, horeg, horegid⟩ := hreg (fromCStr e.AnatomicContextName)
    ⟨typeScheme e.AnatomicRegionObject, typeValue e.AnatomicRegionObject,
      typeMeaning e.AnatomicRegionObject⟩
  obtain ⟨orm, horm, hormid⟩ := hrmod (fromCStr e.AnatomicContextName)
    ⟨typeScheme e.AnatomicRegionObject, typeValue e.AnatomicRegionObject,
      typeMeaning e.AnatomicRegionObject⟩
    ⟨typeScheme e.AnatomicRegionModifierObject, typeValue e.AnatomicRegionModifierObject,
      typeMeaning e.AnatomicRegionModifierObject⟩
  simp only [CodeIdentifierFromTerminologyCategory, CodeIdentifierFromTerminologyType,
    CodeIdentifier.mk.injEq] at hocid hotid homid horegid hormid
  simp only [deserializeTerminologyEntry, hsplit, s1, s2, s3, s5, s6, codeIdentifierOfParts,
    List.getD_cons_zero, List.getD_cons_succ, List.length_cons, List.length_nil,
    toStdString_of_ascii _ p0.ascii, toStdString_of_ascii _ p1.ascii,
    toStdString_of_ascii _ p2.ascii, toStdString_of_ascii _ p3.ascii,
    toStdString_of_ascii _ p4.ascii, toStdString_of_ascii _ p5.ascii,
    toStdString_of_ascii _ p6.ascii, toStdString_of_ascii _ p7.ascii,
    toStdString_of_ascii _ p8.ascii, toStdString_of_ascii _ p9.ascii,
    toStdString_of_ascii _ p10.ascii, toStdString_of_ascii _ p11.ascii,
    toStdString_of_ascii _ p12.ascii, toStdString_of_ascii _ p13.ascii,
    toStdString_of_ascii _ p14.ascii, toStdString_of_ascii _ p15.ascii,
    toStdString_of_ascii _ p16.ascii, hne, hoc, hot, hom, horeg, horm]
  simp [entryTexts, fromCStr_cstrOrNull, hocid, hotid, homid, horegid, hormid]

theorem sampleEntry_plain : ∀ s ∈ entryTexts sampleEntry, PlainText s := by
  simp only [PlainText]
  decide

/-- Witness of C2: the sample entry survives the round trip through the logic that knows every
code. -/
theorem deserialize_serialize_roundtrip_witness :
    (deserializeTerminologyEntry (some echoLogic)
        (serializeTerminologyEntry (some sampleEntry)) {}).1 = true
    ∧ entryTexts (deserializeTerminologyEntry (some echoLogic)
        (serializeTerminologyEntry (some sampleEntry)) {}).2 = entryTexts sampleEntry :=
  deserialize_serialize_roundtrip echoLogic sampleEntry {} echoLogic_answering (by decide)
    sampleEntry_plain

theorem length_seven {α : Type} (l : List α) (h : l.length = 7) :
    ∃ a0 a1 a2 a3 a4 a5 a6, l = [a0, a1, a2, a3, a4, a5, a6] := by
  match l, h with
  | [a0, a1, a2, a3, a4, a5, a6], _ => exact ⟨a0, a1, a2, a3, a4, a5, a6, rfl⟩

theorem length_three {α : Type} (l : List α) (h : l.length = 3) :
    ∃ a0 a1 a2, l = [a0, a1, a2] := by
  match l, h with
  | [a0, a1, a2], _ => exact ⟨a0, a1, a2, rfl⟩

theorem isEmpty_eq_false_of_ne_nil {α : Type} (l : List α) (h : l ≠ []) : l.isEmpty = false := by
  cases l with
  | nil => exact absurd rfl h
  | cons c cs => rfl

theorem deserialize_true_iff (logic : Option vtkSlicerTerminologiesModuleLogic) (s : QString)
    (e : vtkSlicerTerminologyEntry) :
    (deserializeTerminologyEntry logic s e).1 = true ↔ DeserializeSucceeds logic s := by
  unfold DeserializeSucceeds
  cases logic with
  | none => simp [deserializeTerminologyEntry]
  | some L =>
    simp only [deserializeTerminologyEntry, Option.some.injEq, exists_eq_left']
    by_cases h7 : (split tilde s).length = 7
    swap
    · simp [h7]
    obtain ⟨c0, c1, c2, c3, c4, c5, c6, hc⟩ := length_seven _ h7
    simp only [hc, List.getD_cons_zero, List.getD_cons_succ, List.length_cons, List.length_nil]
    by_cases h0 : c0 = []
    · simp [h0]
    have h0e := isEmpty_eq_false_of_ne_nil c0 h0
    by_cases h1 : (split caret c1).length = 3
    swap
    · simp [h0, h0e, h1]
    cases hcat : L.GetCategoryInTerminology (toStdString c0)
        (codeIdentifierOfParts (split caret c1)) with
    | none => simp [h0, h0e, h1, hcat]
    | some oc =>
      by_cases h2 : (split caret c2).length = 3
      swap
      · simp [h0, h0e, h1, hcat, h2]
      cases ht : L.GetTypeInTerminologyCategory (toStdString c0)
          (codeIdentifierOfParts (split caret c1))
          (codeIdentifierOfParts (split caret c2)) with
      | none => simp [h0, h0e, h1, hcat, h2, ht]
      | some ot => simp [h0, h0e, h1, hcat, h2, ht]

theorem AsciiText.of_subset {s t : QString} (h : AsciiText s) (hsub : ∀ c ∈ t, c ∈ s) :
    AsciiText t :=
  fun c hc => h c (hsub c hc)

theorem triple_of_split (c a b m : QString) (h : split caret c = [a, b, m]) :
    c = a ++ caret :: (b ++ caret :: m) := by
  have := intercalate_split caret c
  rw [h] at this
  simpa [List.intercalate, List.intersperse] using this.symm

/-- C3 (amended): round trip text, entry, text. For every ASCII text on which
`deserializeTerminologyEntry` returns true and whose three optional triple components (type
modifier, region, region modifier) each split on the caret into exactly three parts, with a
terminology logic that answers every lookup with an object carrying the requested code
identifier, serializing the entry obtained gives the text back. -/
theorem serialize_deserialize_of_wellformed (L : vtkSlicerTerminologiesModuleLogic) (s : QString)
    (e : vtkSlicerTerminologyEntry) (hL : Answering L) (hascii : AsciiText s)
    (h3 : (split caret ((split tilde s).getD 3 [])).length = 3)
    (h5 : (split caret ((split tilde s).getD 5 [])).length = 3)
    (h6 : (split caret ((split tilde s).getD 6 [])).length = 3)
    (htrue : (deserializeTerminologyEntry (some L) s e).1 = true) :
    serializeTerminologyEntry (some (deserializeTerminologyEntry (some L) s e).2) = s := by
  obtain ⟨L2, hL2, h7, h0, h1, -, h2, -⟩ := (deserialize_true_iff (some L) s e).1 htrue
  obtain ⟨c0, c1, c2, c3, c4, c5, c6, hc⟩ := length_seven _ h7
  simp only [hc, List.getD_cons_zero, List.getD_cons_succ] at h0 h1 h2 h3 h5 h6
  obtain ⟨a1, b1, m1, hs1⟩ := length_three _ h1
  obtain ⟨a2, b2, m2, hs2⟩ := length_three _ h2
  obtain ⟨a3, b3, m3, hs3⟩ := length_three _ h3
  obtain ⟨a5, b5, m5, hs5⟩ := length_three _ h5
  obtain ⟨a6, b6, m6, hs6⟩ := length_three _ h6
  have hs : s = c0 ++ tilde :: (c1 ++ tilde :: (c2 ++ tilde :: (c3 ++ tilde :: (c4 ++ tilde ::
      (c5 ++ tilde :: c6))))) := by
    have := intercalate_split tilde s
    rw [hc] at this
    simpa [List.intercalate, List.intersperse] using this.symm
  have e1 := triple_of_split _ _ _ _ hs1
  have e2 := triple_of_split _ _ _ _ hs2
  have e3 := triple_of_split _ _ _ _ hs3
  have e5 := triple_of_split _ _ _ _ hs5
  have e6 := triple_of_split _ _ _ _ hs6
  have k0 : AsciiText c0 := hascii.of_subset (by intro c h; simp [hs, h])
  have k4 : AsciiText c4 := hascii.of_subset (by intro c h; simp [hs, h])
  have ka1 : AsciiText a1 := hascii.of_subset (by intro c h; simp [hs, e1, h])
  have kb1 : AsciiText b1 := hascii.of_subset (by intro c h; simp [hs, e1, h])
  have km1 : AsciiText m1 := hascii.of_subset (by intro c h; simp [hs, e1, h])
  have ka2 : AsciiText a2 := hascii.of_subset (by intro c h; simp [hs, e2, h])
  have kb2 : AsciiText b2 := hascii.of_subset (by intro c h; simp [hs, e2, h])
  have km2 : AsciiText m2 := hascii.of_subset (by intro c h; simp [hs, e2, h])
  have ka3 : AsciiText a3 := hascii.of_subset (by intro c h; simp [hs, e3, h])
  have kb3 : AsciiText b3 := hascii.of_subset (by intro c h; simp [hs, e3, h])
  have km3 : AsciiText m3 := hascii.of_subset (by intro c h; simp [hs, e3, h])
  have ka5 : AsciiText a5 := hascii.of_subset (by intro c h; simp [hs, e5, h])
  have kb5 : AsciiText b5 := hascii.of_subset (by intro c h; simp [hs, e5, h])
  have km5 : AsciiText m5 := hascii.of_subset (by intro c h; simp [hs, e5, h])
  have ka6 : AsciiText a6 := hascii.of_subset (by intro c h; simp [hs, e6, h])
  have kb6 : AsciiText b6 := hascii.of_subset (by intro c h; simp [hs, e6, h])
  have km6 : AsciiText m6 := hascii.of_subset (by intro c h; simp [hs, e6, h])
  obtain ⟨hcat, htype, hmod, hreg, hrmod⟩ := hL
  obtain ⟨oc, hoc, hocid⟩ := hcat c0 ⟨a1, b1, m1⟩
  obtain ⟨ot, hot, hotid⟩ := htype c0 ⟨a1, b1, m1⟩ ⟨a2, b2, m2⟩
  obtain ⟨om, hom, homid⟩ := hmod c0 ⟨a1, b1, m1⟩ ⟨a2, b2, m2⟩ ⟨a3, b3, m3⟩
  obtain ⟨oreg, horeg, horegid⟩ := hreg c4 ⟨a5, b5, m5⟩
  obtain ⟨orm, horm, hormid⟩ := hrmod c4 ⟨a5, b5, m5⟩ ⟨a6, b6, m6⟩
  simp only [CodeIdentifierFromTerminologyCategory, CodeIdentifierFromTerminologyType,
    CodeIdentifier.mk.injEq] at hocid hotid homid horegid hormid
  have h0e := isEmpty_eq_false_of_ne_nil c0 h0
  have hd : deserializeTerminologyEntry (some L) s e = (true,
      { TerminologyContextName := cstrOrNull c0
        CategoryObject := some oc
        TypeObject := some ot
        TypeModifierObject := some om
        AnatomicContextName := cstrOrNull c4
        AnatomicRegionObject := some oreg
        AnatomicRegionModifierObject := some orm }) := by
    simp only [deserializeTerminologyEntry, hc, hs1, hs2, hs3, hs5, hs6, codeIdentifierOfParts,
      List.getD_cons_zero, List.getD_cons_succ, List.length_cons, List.length_nil,
      toStdString_of_ascii _ k0, toStdString_of_ascii _ k4,
      toStdString_of_ascii _ ka1, toStdString_of_ascii _ kb1, toStdString_of_ascii _ km1,
      toStdString_of_ascii _ ka2, toStdString_of_ascii _ kb2, toStdString_of_ascii _ km2,
      toStdString_of_ascii _ ka3, toStdString_of_ascii _ kb3, toStdString_of_ascii _ km3,
      toStdString_of_ascii _ ka5, toStdString_of_ascii _ kb5, toStdString_of_ascii _ km5,
      toStdString_of_ascii _ ka6, toStdString_of_ascii _ kb6, toStdString_of_ascii _ km6,
      h0e, hoc, hot, hom, horeg, horm]
    simp
  rw [hd, serializeTerminologyEntry_nested]
  simp only [fromCStr_cstrOrNull, hocid, hotid, homid, horegid, hormid]
  rw [← e1, ← e2, ← e3, ← e5, ← e6, ← hs]

theorem deserialize_success_eq (L : vtkSlicerTerminologiesModuleLogic) (s : QString)
    (e : vtkSlicerTerminologyEntry) (c0 c1 c2 c3 c4 c5 c6 : QString)
    (oc : vtkSlicerTerminologyCategory) (ot : vtkSlicerTerminologyType)
    (hc : split tilde s = [c0, c1, c2, c3, c4, c5, c6]) (h0 : c0 ≠ [])
    (h1 : (split caret c1).length = 3)
    (hcat : L.GetCategoryInTerminology (toStdString c0)
      (codeIdentifierOfParts (split caret c1)) = some oc)
    (h2 : (split caret c2).length = 3)
    (htype : L.GetTypeInTerminologyCategory (toStdString c0)
      (codeIdentifierOfParts (split caret c1)) (codeIdentifierOfParts (split caret c2)) = some ot) :
    deserializeTerminologyEntry (some L) s e
      = (true, deserializedEntry L c0 c1 c2 c3 c4 c5 c6 oc ot) := by
  have h0e := isEmpty_eq_false_of_ne_nil c0 h0
  simp only [deserializeTerminologyEntry, deserializedEntry, hc, List.getD_cons_zero,
    List.getD_cons_succ, List.length_cons, List.length_nil, h0e, h1, hcat, h2, htype]
  by_cases h3 : (split caret c3).length = 3 <;>
  by_cases h5 : (split caret c5).length = 3 <;>
  by_cases h6 : (split caret c6).length = 3 <;>
  cases L.GetTypeModifierInTerminologyType (toStdString c0) (codeIdentifierOfParts (split caret c1))
      (codeIdentifierOfParts (split caret c2)) (codeIdentifierOfParts (split caret c3)) <;>
  cases L.GetRegionInAnatomicContext (toStdString c4) (codeIdentifierOfParts (split caret c5)) <;>
  cases L.GetRegionModifierInAnatomicRegion (toStdString c4)
      (codeIdentifierOfParts (split caret c5)) (codeIdentifierOfParts (split caret c6)) <;>
  simp [h3, h5, h6]

theorem count_tilde_triple (a b c : QString) :
    (a ++ caret :: (b ++ caret :: c)).count tilde = a.count tilde + b.count tilde + c.count tilde := by
  have h : (caret == tilde) = false := by decide
  simp [List.count_append, List.count_cons, h]
  omega

theorem count_caret_triple (a b c : QString) :
    (a ++ caret :: (b ++ caret :: c)).count caret
      = a.count caret + b.count caret + c.count caret + 2 := by
  simp [List.count_append, List.count_cons]
  omega

theorem length_split_triple (a b c : QString)
    (h : (split caret (a ++ caret :: (b ++ caret :: c))).length = 3) :
    caret ∉ a ∧ caret ∉ b ∧ caret ∉ c := by
  rw [length_split, count_caret_triple] at h
  refine ⟨List.count_eq_zero.mp (by omega), List.count_eq_zero.mp (by omega),
    List.count_eq_zero.mp (by omega)⟩

theorem length_split_triple_ne (a b c : QString) (h : caret ∈ a ∨ caret ∈ b ∨ caret ∈ c) :
    (split caret (a ++ caret :: (b ++ caret :: c))).length ≠ 3 := by
  intro h3
  obtain ⟨ha, hb, hc⟩ := length_split_triple a b c h3
  rcases h with h | h | h
  · exact ha h
  · exact hb h
  · exact hc h

/-- When the serialized form of an entry has seven components, no text of the entry holds a
tilde and the components are the seven fields. -/
theorem split_serialize_of_length (e : vtkSlicerTerminologyEntry)
    (h7 : (split tilde (serializeTerminologyEntry (some e))).length = 7) :
    (∀ s ∈ entryTexts e, tilde ∉ s)
    ∧ split tilde (serializeTerminologyEntry (some e)) =
      [ fromCStr e.TerminologyContextName,
        categoryScheme e.CategoryObject ++ caret :: (categoryValue e.CategoryObject ++ caret ::
          categoryMeaning e.CategoryObject),
        typeScheme e.TypeObject ++ caret :: (typeValue e.TypeObject ++ caret ::
          typeMeaning e.TypeObject),
        typeScheme e.TypeModifierObject ++ caret :: (typeValue e.TypeModifierObject ++ caret ::
          typeMeaning e.TypeModifierObject),
        fromCStr e.AnatomicContextName,
        typeScheme e.AnatomicRegionObject ++ caret :: (typeValue e.AnatomicRegionObject ++
          caret :: typeMeaning e.AnatomicRegionObject),
        typeScheme e.AnatomicRegionModifierObject ++ caret ::
          (typeValue e.AnatomicRegionModifierObject ++ caret ::
            typeMeaning e.AnatomicRegionModifierObject) ] := by
  have hcount : (serializeTerminologyEntry (some e)).count tilde = 6 := by
    have := length_split tilde (serializeTerminologyEntry (some e))
    omega
  rw [serializeTerminologyEntry_nested] at hcount
  simp only [List.count_append, List.count_cons, count_tilde_triple, beq_self_eq_true,
    if_true] at hcount
  have hall : ∀ s ∈ entryTexts e, tilde ∉ s := by
    simp only [entryTexts, List.forall_mem_cons, List.not_mem_nil, false_implies, implies_true,
      and_true]
    refine ⟨?_, ?_, ?_, ?_, ?_, ?_, ?_, ?_, ?_, ?_, ?_, ?_, ?_, ?_, ?_, ?_, ?_⟩ <;>
      exact List.count_eq_zero.mp (by omega)
  refine ⟨hall, ?_⟩
  simp only [entryTexts, List.forall_mem_cons, List.not_mem_nil, false_implies, implies_true,
    and_true] at hall
  obtain ⟨p0, p1, p2, p3, p4, p5, p6, p7, p8, p9, p10, p11, p12, p13, p14, p15, p16⟩ := hall
  have ht : tilde ≠ caret := by decide
  rw [serializeTerminologyEntry_nested]
  exact split_seven _ _ _ _ _ _ _ p0 (by simp [p1, p2, p3, ht]) (by simp [p4, p5, p6, ht])
    (by simp [p7, p8, p9, ht]) p10 (by simp [p11, p12, p13, ht]) (by simp [p14, p15, p16, ht])

/-- Counterexample to C3 as stated: with the logic that answers every lookup with an object
carrying the requested identifier, a text whose type-modifier component is `x` deserializes
successfully but is written back with the component `^^`; and a text whose terminology name holds
a character outside Latin-1 deserializes successfully but is written back with `?` in its
place. -/
theorem serialize_deserialize_counterexample :
    Answering echoLogic
    ∧ (deserializeTerminologyEntry (some echoLogic) looseText {}).1 = true
    ∧ serializeTerminologyEntry (some (deserializeTerminologyEntry (some echoLogic) looseText {}).2)
        = "T~a^b^c~d^e^f~^^~~^^~^^".toList
    ∧ serializeTerminologyEntry (some (deserializeTerminologyEntry (some echoLogic) looseText {}).2)
        ≠ looseText
    ∧ (deserializeTerminologyEntry (some echoLogic) greekText {}).1 = true
    ∧ serializeTerminologyEntry (some (deserializeTerminologyEntry (some echoLogic) greekText {}).2)
        = "T?~a^b^c~d^e^f~^^~~^^~^^".toList
    ∧ serializeTerminologyEntry (some (deserializeTerminologyEntry (some echoLogic) greekText {}).2)
        ≠ greekText :=
  ⟨echoLogic_answering, by decide, by decide, by decide, by decide, by decide, by decide⟩

/-- Witness of C3 (amended): a well-formed text is written back unchanged. -/
theorem serialize_deserialize_of_wellformed_witness :
    serializeTerminologyEntry (some (deserializeTerminologyEntry (some echoLogic) sampleText {}).2)
      = sampleText :=
  serialize_deserialize_of_wellformed echoLogic sampleText {} echoLogic_answering
    (by simp only [AsciiText]; decide) (by decide) (by decide) (by decide) (by decide)

/-- C4: `deserializeTerminologyEntry` returns true exactly when the terminology logic is
available, the text splits on the tilde into seven components, the first component is not empty,
the second splits on the caret into three parts and the logic finds that category in the named
terminology, and the third splits on the caret into three parts and the logic finds that type in
that category. The four optional components (and the entry object passed in) never change the
returned value: two texts with seven components each and the same first three components give
the same result. -/
theorem deserializeTerminologyEntry_returns_true_iff :
    (∀ (logic : Option vtkSlicerTerminologiesModuleLogic) (s : QString)
        (e : vtkSlicerTerminologyEntry),
      (deserializeTerminologyEntry logic s e).1 = true ↔
        ∃ L, logic = some L
          ∧ (split tilde s).length = 7
          ∧ ((split tilde s).getD 0 []) ≠ []
          ∧ (split caret ((split tilde s).getD 1 [])).length = 3
          ∧ (L.GetCategoryInTerminology (toStdString ((split tilde s).getD 0 []))
              (codeIdentifierOfParts (split caret ((split tilde s).getD 1 [])))).isSome = true
          ∧ (split caret ((split tilde s).getD 2 [])).length = 3
          ∧ (L.GetTypeInTerminologyCategory (toStdString ((split tilde s).getD 0 []))
              (codeIdentifierOfParts (split caret ((split tilde s).getD 1 [])))
              (codeIdentifierOfParts (split caret ((split tilde s).getD 2 [])))).isSome = true)
    ∧ (∀ (logic : Option vtkSlicerTerminologiesModuleLogic)
        (c0 c1 c2 c3 c4 c5 c6 d3 d4 d5 d6 : QString) (s t : QString)
        (e1 e2 : vtkSlicerTerminologyEntry),
      split tilde s = [c0, c1, c2, c3, c4, c5, c6] →
      split tilde t = [c0, c1, c2, d3, d4, d5, d6] →
      (deserializeTerminologyEntry logic s e1).1 = (deserializeTerminologyEntry logic t e2).1) := by
  refine ⟨fun logic s e => deserialize_true_iff logic s e, ?_⟩
  intro logic c0 c1 c2 c3 c4 c5 c6 d3 d4 d5 d6 s t e1 e2 hs ht
  have h1 := deserialize_true_iff logic s e1
  have h2 := deserialize_true_iff logic t e2
  have h : DeserializeSucceeds logic s ↔ DeserializeSucceeds logic t := by
    simp [DeserializeSucceeds, hs, ht]
  rw [Bool.eq_iff_iff, h1, h2, h]

/-- Witness of C4: the optional components of a text with the logic that knows every code. -/
theorem deserializeTerminologyEntry_returns_true_iff_witness :
    (deserializeTerminologyEntry (some echoLogic) sampleText {}).1
      = (deserializeTerminologyEntry (some echoLogic) looseText sampleEntry).1 :=
  deserializeTerminologyEntry_returns_true_iff.2 (some echoLogic) "T".toList "a^b^c".toList
    "d^e^f".toList "g^h^i".toList "A".toList "j^k^l".toList "^^".toList "x".toList [] "^^".toList
    "^^".toList sampleText looseText {} sampleEntry (by decide) (by decide)

/-- C5: no escaping of delimiters. If some code value of an entry (of its category, type, type
modifier, region or region modifier) holds a tilde or a caret, then deserializing the serialized
entry, with any terminology logic and into any entry object, either returns false or yields an
entry whose seventeen texts differ from the original ones. -/
theorem delimiter_in_code_value_not_restored (logic : Option vtkSlicerTerminologiesModuleLogic)
    (e e2 : vtkSlicerTerminologyEntry)
    (h : ∃ v ∈ entryCodeValues e, tilde ∈ v ∨ caret ∈ v) :
    (deserializeTerminologyEntry logic (serializeTerminologyEntry (some e)) e2).1 = false
    ∨ entryTexts (deserializeTerminologyEntry logic (serializeTerminologyEntry (some e)) e2).2
        ≠ entryTexts e := by
  by_contra hcon
  simp only [not_or, Bool.not_eq_false, ne_eq, not_not] at hcon
  obtain ⟨htrue, htexts⟩ := hcon
  obtain ⟨L, rfl, h7, h0, h1, hcat, h2, htype⟩ := (deserialize_true_iff _ _ _).1 htrue
  obtain ⟨hall, hsplit⟩ := split_serialize_of_length e h7
  simp only [hsplit, List.getD_cons_zero, List.getD_cons_succ] at h0 h1 hcat h2 htype
  obtain ⟨oc, hoc⟩ := Option.isSome_iff_exists.1 hcat
  obtain ⟨ot, hot⟩ := Option.isSome_iff_exists.1 htype
  rw [deserialize_success_eq L _ e2 _ _ _ _ _ _ _ oc ot hsplit h0 h1 hoc h2 hot] at htexts
  simp only [entryTexts, deserializedEntry, List.cons.injEq, and_true] at htexts
  obtain ⟨-, -, -, -, -, -, -, -, hm, -, -, -, hr, -, -, hrm, -⟩ := htexts
  have k1 := length_split_triple _ _ _ h1
  have k2 := length_split_triple _ _ _ h2
  obtain ⟨v, hv, hdel⟩ := h
  have hvt : tilde ∉ v := by
    apply hall
    simp only [entryCodeValues, List.mem_cons, List.mem_singleton, List.not_mem_nil,
      or_false] at hv
    rcases hv with rfl | rfl | rfl | rfl | rfl <;> simp [entryTexts]
  have hvc : caret ∈ v := by
    rcases hdel with hd | hd
    · exact absurd hd hvt
    · exact hd
  simp only [entryCodeValues, List.mem_cons, List.mem_singleton, List.not_mem_nil,
    or_false] at hv
  rcases hv with rfl | rfl | rfl | rfl | rfl
  · exact k1.2.1 hvc
  · exact k2.2.1 hvc
  · have hne := length_split_triple_ne (typeScheme e.TypeModifierObject)
      (typeValue e.TypeModifierObject) (typeMeaning e.TypeModifierObject) (Or.inr (Or.inl hvc))
    rw [if_neg hne] at hm
    rw [← hm] at hvc
    simp [typeValue, fromCStr] at hvc
  · have hne := length_split_triple_ne (typeScheme e.AnatomicRegionObject)
      (typeValue e.AnatomicRegionObject) (typeMeaning e.AnatomicRegionObject)
      (Or.inr (Or.inl hvc))
    rw [if_neg hne] at hr
    rw [← hr] at hvc
    simp [typeValue, fromCStr] at hvc
  · have hne := length_split_triple_ne (typeScheme e.AnatomicRegionModifierObject)
      (typeValue e.AnatomicRegionModifierObject) (typeMeaning e.AnatomicRegionModifierObject)
      (Or.inr (Or.inl hvc))
    rw [if_neg (fun hh => hne hh.2)] at hrm
    rw [← hrm] at hvc
    simp [typeValue, fromCStr] at hvc

/-- Witness of C5: the entry with a caret in its type-modifier code value comes back without its
type modifier. -/
theorem delimiter_in_code_value_not_restored_witness :
    (deserializeTerminologyEntry (some echoLogic)
        (serializeTerminologyEntry (some caretEntry)) {}).1 = false
    ∨ entryTexts (deserializeTerminologyEntry (some echoLogic)
        (serializeTerminologyEntry (some caretEntry)) {}).2 ≠ entryTexts caretEntry :=
  delimiter_in_code_value_not_restored (some echoLogic) caretEntry {}
    ⟨"G^A".toList, by decide, Or.inr (by decide)⟩

/-- C6: the encoding is lossy. Two different tuples of the seventeen texts are given the same
serialized text by the string overload: a caret as category meaning and a caret as category scheme
designator both give `^^^` as second component. -/
theorem serializeFields_not_injective :
    ∃ f g : SerializedFields, f ≠ g ∧ serializeFields f = serializeFields g :=
  ⟨⟨[], [], [], [caret], [], [], [], [], [], [], [], [], [], [], [], [], []⟩,
   ⟨[], [], [caret], [], [], [], [], [], [], [], [], [], [], [], [], [], []⟩,
   by decide, by decide⟩

/-! ## The delegate and the recommended colour -/

/-- C7: `setModelData` writes to the cell, under the decoration role, the editor's colour when
that colour is valid and otherwise the recommended colour of the editor's entry, and, under the
what's-this role, the serialized entry of the editor (nothing is written when computing the
recommended colour fails); `setEditorData` loads the editor from the text under the what's-this
role and the colour under the decoration role of the same cell, and from nothing else of the
model. -/
theorem delegate_roles :
    (∀ (button : qSlicerTerminologySelectorButton) (model : QAbstractItemModel)
        (index : QModelIndex) (c : QColor),
      (if button.Color.isValid then some button.Color
        else recommendedColorFromTerminology button.TerminologyEntry) = some c →
      ∃ written, setModelData button model index = some written
        ∧ written.data index DecorationRole = QVariant.color c
        ∧ written.data index WhatsThisRole
            = QVariant.string (serializeTerminologyEntry button.TerminologyEntry))
    ∧ (∀ (methods : SelectorButtonMethods) (logic : Option vtkSlicerTerminologiesModuleLogic)
        (button : qSlicerTerminologySelectorButton) (model : QAbstractItemModel)
        (index : QModelIndex),
      button.changeDataOnSet = true →
      setEditorData methods logic button model index =
        methods.changeTerminology (methods.setColor
          (methods.setTerminologyEntry { button with changeDataOnSet := false }
            (deserializeTerminologyEntry logic (model.data index WhatsThisRole).toString {}).2
            false)
          (model.data index DecorationRole).toColor))
    ∧ (∀ (methods : SelectorButtonMethods) (logic : Option vtkSlicerTerminologiesModuleLogic)
        (button : qSlicerTerminologySelectorButton) (model other : QAbstractItemModel)
        (index : QModelIndex),
      model.data index WhatsThisRole = other.data index WhatsThisRole →
      model.data index DecorationRole = other.data index DecorationRole →
      setEditorData methods logic button model index
        = setEditorData methods logic button other index) := by
  refine ⟨?_, ?_, ?_⟩
  · intro button model index c hc
    cases hv : button.Color.isValid with
    | true =>
      rw [hv] at hc
      simp only [if_true, Option.some.injEq] at hc
      subst hc
      refine ⟨(model.setData index (QVariant.color button.Color) DecorationRole).setData index
        (QVariant.string (serializeTerminologyEntry button.TerminologyEntry)) WhatsThisRole,
        by simp [setModelData, hv], ?_, ?_⟩
      · simp [QAbstractItemModel.data, QAbstractItemModel.setData, DecorationRole,
          WhatsThisRole]
      · simp [QAbstractItemModel.data, QAbstractItemModel.setData]
    | false =>
      rw [hv] at hc
      simp only [Bool.false_eq_true, if_false] at hc
      refine ⟨(model.setData index (QVariant.color c) DecorationRole).setData index
        (QVariant.string (serializeTerminologyEntry button.TerminologyEntry)) WhatsThisRole,
        by simp [setModelData, hv, hc], ?_, ?_⟩
      · simp [QAbstractItemModel.data, QAbstractItemModel.setData, DecorationRole,
          WhatsThisRole]
      · simp [QAbstractItemModel.data, QAbstractItemModel.setData]
  · intro methods logic button model index hflag
    simp [setEditorData, hflag]
  · intro methods logic button model other index h1 h2
    simp [setEditorData, h1, h2]

/-- Witness of C7: the editor holding the sample entry and no custom colour writes the
recommended colour of the entry's type modifier and the serialized entry. -/
theorem delegate_roles_witness :
    ∃ written, setModelData sampleButton emptyModel (0, 0) = some written
      ∧ written.data (0, 0) DecorationRole = QVariant.color (QColor.rgb 127 127 127)
      ∧ written.data (0, 0) WhatsThisRole
          = QVariant.string (serializeTerminologyEntry sampleButton.TerminologyEntry) :=
  delegate_roles.1 sampleButton emptyModel (0, 0) (QColor.rgb 127 127 127) (by decide)

/-- C8: `recommendedColorFromTerminology` returns the invalid colour for a null entry and for an
entry without type object; when the type's has-modifiers flag is off it returns the RGB colour
recommended by the type object; when the flag is on and a type-modifier object is present it
returns the RGB colour recommended by the type-modifier object. -/
theorem recommendedColorFromTerminology_cases :
    recommendedColorFromTerminology none = some QColor.invalid
    ∧ QColor.invalid.isValid = false
    ∧ (∀ e : vtkSlicerTerminologyEntry, e.TypeObject = none →
        recommendedColorFromTerminology (some e) = some QColor.invalid)
    ∧ (∀ (e : vtkSlicerTerminologyEntry) (t : vtkSlicerTerminologyType),
        e.TypeObject = some t → t.HasModifiers = false →
        recommendedColorFromTerminology (some e)
          = some (QColor.rgb t.RecommendedDisplayRGBValue.1 t.RecommendedDisplayRGBValue.2.1
              t.RecommendedDisplayRGBValue.2.2))
    ∧ (∀ (e : vtkSlicerTerminologyEntry) (t m : vtkSlicerTerminologyType),
        e.TypeObject = some t → t.HasModifiers = true → e.TypeModifierObject = some m →
        recommendedColorFromTerminology (some e)
          = some (QColor.rgb m.RecommendedDisplayRGBValue.1 m.RecommendedDisplayRGBValue.2.1
              m.RecommendedDisplayRGBValue.2.2)) := by
  refine ⟨rfl, rfl, ?_, ?_, ?_⟩
  · intro e h
    simp [recommendedColorFromTerminology, h]
  · intro e t ht hm
    simp [recommendedColorFromTerminology, ht, hm, recommendedDisplayColor]
  · intro e t m ht hm hmod
    simp [recommendedColorFromTerminology, ht, hm, hmod, recommendedDisplayColor]

/-- Witness of C8: the colour of an entry whose type has modifiers is the colour of its type
modifier, not the colour of its type. -/
theorem recommendedColorFromTerminology_cases_witness :
    recommendedColorFromTerminology (some modifiedEntry) = some (QColor.rgb 200 100 50) :=
  recommendedColorFromTerminology_cases.2.2.2.2 modifiedEntry _ _ rfl rfl rfl

/-! ## The cascade of selections -/

theorem selection_setRecommendedColor (d : qSlicerTerminologyNavigatorWidgetPrivate) :
    selection (setRecommendedColorFromCurrentTerminology d) = selection d := by
  unfold setRecommendedColorFromCurrentTerminology setPickerColor
  simp only [selection, onColorChanged]
  split_ifs <;> (split <;> rfl)

theorem typeModifierFrame_trans {a b c : qSlicerTerminologyNavigatorWidgetPrivate}
    (h1 : TypeModifierFrame a b) (h2 : TypeModifierFrame b c) : TypeModifierFrame a c := by
  obtain ⟨a1, a2, a3, a4, a5, a6, _⟩ := h1
  obtain ⟨b1, b2, b3, b4, b5, b6, b7⟩ := h2
  exact ⟨b1.trans a1, b2.trans a2, b3.trans a3, b4.trans a4, b5.trans a5, b6.trans a6, b7⟩

theorem regionModifierFrame_trans {a b c : qSlicerTerminologyNavigatorWidgetPrivate}
    (h1 : RegionModifierFrame a b) (h2 : RegionModifierFrame b c) : RegionModifierFrame a c := by
  obtain ⟨a1, a2, a3, a4, a5, a6, _⟩ := h1
  obtain ⟨b1, b2, b3, b4, b5, b6, b7⟩ := h2
  exact ⟨b1.trans a1, b2.trans a2, b3.trans a3, b4.trans a4, b5.trans a5, b6.trans a6, b7⟩

theorem setCurrentTypeModifier_frame (d : qSlicerTerminologyNavigatorWidgetPrivate)
    (m : vtkSlicerTerminologyType) (h : d.CurrentTypeModifierObject.isSome = true) :
    ∃ r, setCurrentTypeModifier d (some m) = some r ∧ TypeModifierFrame d r.2
      ∧ r.2.CurrentTypeModifierObject = some m := by
  obtain ⟨o, ho⟩ := Option.isSome_iff_exists.1 h
  simp only [setCurrentTypeModifier, ho]
  refine ⟨_, rfl, ?_, ?_⟩
  · split_ifs <;> simp [TypeModifierFrame]
  · split_ifs <;> rfl

theorem setCurrentRegionModifier_frame (d : qSlicerTerminologyNavigatorWidgetPrivate)
    (m : vtkSlicerTerminologyType) (h : d.CurrentRegionModifierObject.isSome = true) :
    ∃ r, setCurrentRegionModifier d (some m) = some r ∧ RegionModifierFrame d r.2
      ∧ r.2.CurrentRegionModifierObject = some m := by
  obtain ⟨o, ho⟩ := Option.isSome_iff_exists.1 h
  simp only [setCurrentRegionModifier, ho]
  refine ⟨_, rfl, ?_, ?_⟩
  · split_ifs <;> simp [RegionModifierFrame]
  · split_ifs <;> rfl

theorem toStdString_nil : toStdString [] = [] := rfl

theorem onTypeModifierSelectionChanged_frame (logic : Option vtkSlicerTerminologiesModuleLogic)
    (d : qSlicerTerminologyNavigatorWidgetPrivate) (index : Int)
    (h : d.CurrentTypeModifierObject.isSome = true) :
    ∃ e, onTypeModifierSelectionChanged logic d index = some e ∧ TypeModifierFrame d e := by
  unfold onTypeModifierSelectionChanged
  cases logic with
  | none => exact ⟨_, rfl, rfl, rfl, rfl, rfl, rfl, rfl, h⟩
  | some L =>
    simp only
    split
    · exact ⟨_, rfl, rfl, rfl, rfl, rfl, rfl, rfl, h⟩
    · rename_i modifier _
      obtain ⟨r, hr, hf, hm⟩ := setCurrentTypeModifier_frame
        { d with overrideCursor := d.overrideCursor + 1 } modifier h
      rw [hr]
      refine ⟨_, rfl, ?_⟩
      have hs := selection_setRecommendedColor r.2
      simp only [selection, Prod.mk.injEq] at hs
      obtain ⟨s1, s2, s3, s4, s5, s6, s7⟩ := hs
      obtain ⟨f1, f2, f3, f4, f5, f6, f7⟩ := hf
      exact ⟨s1.trans f1, s2.trans f2, s3.trans f3, s5.trans f4, s6.trans f5, s7.trans f6,
        by simp only [s4, f7]⟩

theorem onRegionModifierSelectionChanged_frame (logic : Option vtkSlicerTerminologiesModuleLogic)
    (d : qSlicerTerminologyNavigatorWidgetPrivate) (index : Int)
    (h : d.CurrentRegionModifierObject.isSome = true) :
    ∃ e, onRegionModifierSelectionChanged logic d index = some e ∧ RegionModifierFrame d e := by
  unfold onRegionModifierSelectionChanged
  cases logic with
  | none => exact ⟨_, rfl, rfl, rfl, rfl, rfl, rfl, rfl, h⟩
  | some L =>
    simp only
    split
    · exact ⟨_, rfl, rfl, rfl, rfl, rfl, rfl, rfl, h⟩
    · rename_i modifier _
      obtain ⟨r, hr, hf, hm⟩ := setCurrentRegionModifier_frame
        { d with overrideCursor := d.overrideCursor + 1 } modifier h
      rw [hr]
      exact ⟨_, rfl, hf⟩

theorem deliverTypeModifierSignal_frame (logic : Option vtkSlicerTerminologiesModuleLogic)
    (d : qSlicerTerminologyNavigatorWidgetPrivate) (signal : Option Int)
    (h : d.CurrentTypeModifierObject.isSome = true) :
    ∃ e, deliverTypeModifierSignal logic d signal = some e ∧ TypeModifierFrame d e := by
  cases signal with
  | none => exact ⟨_, rfl, rfl, rfl, rfl, rfl, rfl, rfl, h⟩
  | some index => exact onTypeModifierSelectionChanged_frame logic d index h

theorem deliverRegionModifierSignal_frame (logic : Option vtkSlicerTerminologiesModuleLogic)
    (d : qSlicerTerminologyNavigatorWidgetPrivate) (signal : Option Int)
    (h : d.CurrentRegionModifierObject.isSome = true) :
    ∃ e, deliverRegionModifierSignal logic d signal = some e ∧ RegionModifierFrame d e := by
  cases signal with
  | none => exact ⟨_, rfl, rfl, rfl, rfl, rfl, rfl, rfl, h⟩
  | some index => exact onRegionModifierSelectionChanged_frame logic d index h

theorem populateTypeModifierLoop_frame (logic : Option vtkSlicerTerminologiesModuleLogic)
    (ids : List CodeIdentifier) :
    ∀ (index : Int) (d : qSlicerTerminologyNavigatorWidgetPrivate) (selectedIndex : Int),
      d.CurrentTypeModifierObject.isSome = true →
      ∃ r, populateTypeModifierLoop logic ids index d selectedIndex = some r
        ∧ TypeModifierFrame d r.1 := by
  induction ids with
  | nil =>
    intro index d selectedIndex h
    exact ⟨_, rfl, rfl, rfl, rfl, rfl, rfl, rfl, h⟩
  | cons id rest ih =>
    intro index d selectedIndex h
    obtain ⟨e, he, hf⟩ := deliverTypeModifierSignal_frame logic
      { d with ComboBox_TypeModifier := (d.ComboBox_TypeModifier.addItem (comboItemOfId id)).1 }
      (d.ComboBox_TypeModifier.addItem (comboItemOfId id)).2 h
    obtain ⟨cur, hcur⟩ := Option.isSome_iff_exists.1 hf.2.2.2.2.2.2
    obtain ⟨r, hr, hfr⟩ := ih (index + 1) e
      (if id.CodeMeaning = fromCStr cur.CodeMeaning then index else selectedIndex)
      hf.2.2.2.2.2.2
    refine ⟨r, ?_, typeModifierFrame_trans hf hfr⟩
    simp only [populateTypeModifierLoop, he, hcur]
    exact hr

theorem populateRegionModifierLoop_frame (logic : Option vtkSlicerTerminologiesModuleLogic)
    (ids : List CodeIdentifier) :
    ∀ (index : Int) (d : qSlicerTerminologyNavigatorWidgetPrivate) (selectedIndex : Int),
      d.CurrentRegionModifierObject.isSome = true →
      ∃ r, populateRegionModifierLoop logic ids index d selectedIndex = some r
        ∧ RegionModifierFrame d r.1 := by
  induction ids with
  | nil =>
    intro index d selectedIndex h
    exact ⟨_, rfl, rfl, rfl, rfl, rfl, rfl, rfl, h⟩
  | cons id rest ih =>
    intro index d selectedIndex h
    obtain ⟨e, he, hf⟩ := deliverRegionModifierSignal_frame logic
      { d with ComboBox_AnatomicRegionModifier :=
          (d.ComboBox_AnatomicRegionModifier.addItem (comboItemOfId id)).1 }
      (d.ComboBox_AnatomicRegionModifier.addItem (comboItemOfId id)).2 h
    obtain ⟨cur, hcur⟩ := Option.isSome_iff_exists.1 hf.2.2.2.2.2.2
    obtain ⟨r, hr, hfr⟩ := ih (index + 1) e
      (if id.CodeMeaning = fromCStr cur.CodeMeaning then index else selectedIndex)
      hf.2.2.2.2.2.2
    refine ⟨r, ?_, regionModifierFrame_trans hf hfr⟩
    simp only [populateRegionModifierLoop, he, hcur]
    exact hr

theorem populateTypeModifierComboBox_frame (logic : Option vtkSlicerTerminologiesModuleLogic)
    (d : qSlicerTerminologyNavigatorWidgetPrivate)
    (h : d.CurrentTypeModifierObject.isSome = true) :
    ∃ e, populateTypeModifierComboBox logic d = some e ∧ TypeModifierFrame d e := by
  obtain ⟨e1, he1, hf1⟩ := deliverTypeModifierSignal_frame logic
    { d with ComboBox_TypeModifier := d.ComboBox_TypeModifier.clear.1 }
    d.ComboBox_TypeModifier.clear.2 h
  unfold populateTypeModifierComboBox
  simp only [he1]
  cases hc : e1.CurrentCategoryObject with
  | none => exact ⟨_, rfl, by simpa [TypeModifierFrame, hc] using hf1⟩
  | some c =>
    cases ht : e1.CurrentTypeObject with
    | none => exact ⟨_, rfl, by simpa [TypeModifierFrame, hc, ht] using hf1⟩
    | some t =>
      simp only
      split_ifs with h1 h2
      · exact ⟨_, rfl, by simpa [TypeModifierFrame, hc, ht] using hf1⟩
      · exact ⟨_, rfl, by simpa [TypeModifierFrame, hc, ht] using hf1⟩
      · cases logic with
        | none => exact ⟨_, rfl, hf1⟩
        | some L =>
          simp only
          obtain ⟨r, hr, hfr⟩ := populateTypeModifierLoop_frame (some L)
            (L.GetTypeModifiersInTerminologyType (toStdString e1.CurrentTerminologyName)
              (CodeIdentifierFromTerminologyCategory (some c))
              (CodeIdentifierFromTerminologyType (some t))) 0 e1 (-1) hf1.2.2.2.2.2.2
          rw [hr]
          simp only
          split_ifs with h3
          · obtain ⟨e3, he3, hf3⟩ := deliverTypeModifierSignal_frame (some L)
              { r.1 with ComboBox_TypeModifier := (r.1.ComboBox_TypeModifier.setCurrentIndex r.2).1 }
              (r.1.ComboBox_TypeModifier.setCurrentIndex r.2).2 hfr.2.2.2.2.2.2
            exact ⟨e3, he3, typeModifierFrame_trans (typeModifierFrame_trans hf1 hfr) hf3⟩
          · exact ⟨_, rfl, typeModifierFrame_trans hf1 hfr⟩

theorem populateRegionModifierComboBox_frame (logic : Option vtkSlicerTerminologiesModuleLogic)
    (d : qSlicerTerminologyNavigatorWidgetPrivate)
    (h : d.CurrentRegionModifierObject.isSome = true) :
    ∃ e, populateRegionModifierComboBox logic d = some e ∧ RegionModifierFrame d e := by
  obtain ⟨e1, he1, hf1⟩ := deliverRegionModifierSignal_frame logic
    { d with ComboBox_AnatomicRegionModifier := d.ComboBox_AnatomicRegionModifier.clear.1 }
    d.ComboBox_AnatomicRegionModifier.clear.2 h
  unfold populateRegionModifierComboBox
  simp only [he1]
  cases ht : e1.CurrentRegionObject with
  | none => exact ⟨_, rfl, by simpa [RegionModifierFrame, ht] using hf1⟩
  | some t =>
    simp only
    split_ifs with h1 h2
    · exact ⟨_, rfl, by simpa [RegionModifierFrame, ht] using hf1⟩
    · exact ⟨_, rfl, by simpa [RegionModifierFrame, ht] using hf1⟩
    · cases logic with
      | none => exact ⟨_, rfl, hf1⟩
      | some L =>
        simp only
        obtain ⟨r, hr, hfr⟩ := populateRegionModifierLoop_frame (some L)
          (L.GetRegionModifiersInAnatomicRegion (toStdString e1.CurrentAnatomicContextName)
            (CodeIdentifierFromTerminologyType (some t))) 0 e1 (-1) hf1.2.2.2.2.2.2
        rw [hr]
        simp only
        split_ifs with h3
        · obtain ⟨e3, he3, hf3⟩ := deliverRegionModifierSignal_frame (some L)
            { r.1 with ComboBox_AnatomicRegionModifier :=
                (r.1.ComboBox_AnatomicRegionModifier.setCurrentIndex r.2).1 }
            (r.1.ComboBox_AnatomicRegionModifier.setCurrentIndex r.2).2 hfr.2.2.2.2.2.2
          exact ⟨e3, he3, regionModifierFrame_trans (regionModifierFrame_trans hf1 hfr) hf3⟩
        · exact ⟨_, rfl, regionModifierFrame_trans hf1 hfr⟩

theorem itemAt_of_items_nil (b : QComboBox) (index : Int) (h : b.items = []) :
    b.itemAt index = {} := by
  unfold QComboBox.itemAt
  rw [h]
  split_ifs <;> rfl

theorem onTypeModifierSelectionChanged_quiet (logic : Option vtkSlicerTerminologiesModuleLogic)
    (d : qSlicerTerminologyNavigatorWidgetPrivate) (index : Int)
    (hq : FindsNoEmptyModifier logic) (hitems : d.ComboBox_TypeModifier.items = []) :
    onTypeModifierSelectionChanged logic d index
      = some { d with overrideCursor := d.overrideCursor + 1 } := by
  unfold onTypeModifierSelectionChanged
  cases logic with
  | none => rfl
  | some L =>
    have h := (hq L rfl).1
    simp only [QComboBox.itemText, itemAt_of_items_nil _ index hitems]
    have hid : (⟨toStdString [], toStdString [], toStdString []⟩ : CodeIdentifier) = emptyId :=
      rfl
    rw [hid, h]

theorem onRegionModifierSelectionChanged_quiet (logic : Option vtkSlicerTerminologiesModuleLogic)
    (d : qSlicerTerminologyNavigatorWidgetPrivate) (index : Int)
    (hq : FindsNoEmptyModifier logic) (hitems : d.ComboBox_AnatomicRegionModifier.items = []) :
    onRegionModifierSelectionChanged logic d index
      = some { d with overrideCursor := d.overrideCursor + 1 } := by
  unfold onRegionModifierSelectionChanged
  cases logic with
  | none => rfl
  | some L =>
    have h := (hq L rfl).2
    simp only [QComboBox.itemText, itemAt_of_items_nil _ index hitems]
    have hid : (⟨toStdString [], toStdString [], toStdString []⟩ : CodeIdentifier) = emptyId :=
      rfl
    rw [hid, h]

/-- When the type modifier combobox is cleared and not refilled, the current type modifier stays
as it is. -/
theorem populateTypeModifierComboBox_quiet (logic : Option vtkSlicerTerminologiesModuleLogic)
    (d e : qSlicerTerminologyNavigatorWidgetPrivate) (hq : FindsNoEmptyModifier logic)
    (hquiet : ∀ t, d.CurrentTypeObject = some t →
      d.CurrentTerminologyName = [] ∨ t.CodeValue = none ∨ t.HasModifiers = false)
    (he : populateTypeModifierComboBox logic d = some e) :
    e.CurrentTypeModifierObject = d.CurrentTypeModifierObject := by
  have hdel : ∃ n, deliverTypeModifierSignal logic
      { d with ComboBox_TypeModifier := d.ComboBox_TypeModifier.clear.1 }
      d.ComboBox_TypeModifier.clear.2
      = some { d with ComboBox_TypeModifier := d.ComboBox_TypeModifier.clear.1,
                      overrideCursor := n } := by
    cases hs : d.ComboBox_TypeModifier.clear.2 with
    | none => exact ⟨d.overrideCursor, rfl⟩
    | some i =>
      exact ⟨d.overrideCursor + 1, onTypeModifierSelectionChanged_quiet logic _ i hq rfl⟩
  obtain ⟨n, hn⟩ := hdel
  unfold populateTypeModifierComboBox at he
  simp only [hn] at he
  cases hc : d.CurrentCategoryObject with
  | none =>
    simp only [hc, Option.some.injEq] at he
    rw [← he]
  | some c =>
    cases ht : d.CurrentTypeObject with
    | none =>
      simp only [hc, ht, Option.some.injEq] at he
      rw [← he]
    | some t =>
      simp only [hc, ht] at he
      rcases hquiet t ht with h1 | h1 | h1
      · simp only [h1, List.isEmpty_nil, Bool.true_or, if_true, Option.some.injEq] at he
        rw [← he]
      · simp only [h1, Option.isNone_none, Bool.or_true, if_true, Option.some.injEq] at he
        rw [← he]
      · simp only [h1, Bool.not_false, if_true, ite_self, Option.some.injEq] at he
        rw [← he]

/-- When the region modifier combobox is cleared and not refilled, the current region modifier
stays as it is. -/
theorem populateRegionModifierComboBox_quiet (logic : Option vtkSlicerTerminologiesModuleLogic)
    (d e : qSlicerTerminologyNavigatorWidgetPrivate) (hq : FindsNoEmptyModifier logic)
    (hquiet : ∀ t, d.CurrentRegionObject = some t →
      d.CurrentAnatomicContextName = [] ∨ t.CodeValue = none ∨ t.HasModifiers = false)
    (he : populateRegionModifierComboBox logic d = some e) :
    e.CurrentRegionModifierObject = d.CurrentRegionModifierObject := by
  have hdel : ∃ n, deliverRegionModifierSignal logic
      { d with ComboBox_AnatomicRegionModifier := d.ComboBox_AnatomicRegionModifier.clear.1 }
      d.ComboBox_AnatomicRegionModifier.clear.2
      = some { d with ComboBox_AnatomicRegionModifier :=
                        d.ComboBox_AnatomicRegionModifier.clear.1,
                      overrideCursor := n } := by
    cases hs : d.ComboBox_AnatomicRegionModifier.clear.2 with
    | none => exact ⟨d.overrideCursor, rfl⟩
    | some i =>
      exact ⟨d.overrideCursor + 1, onRegionModifierSelectionChanged_quiet logic _ i hq rfl⟩
  obtain ⟨n, hn⟩ := hdel
  unfold populateRegionModifierComboBox at he
  simp only [hn] at he
  cases ht : d.CurrentRegionObject with
  | none =>
    simp only [ht, Option.some.injEq] at he
    rw [← he]
  | some t =>
    simp only [ht] at he
    rcases hquiet t ht with h1 | h1 | h1
    · simp only [h1, List.isEmpty_nil, Bool.true_or, if_true, Option.some.injEq] at he
      rw [← he]
    · simp only [h1, Option.isNone_none, Bool.or_true, if_true, Option.some.injEq] at he
      rw [← he]
    · simp only [h1, Bool.not_false, if_true, ite_self, Option.some.injEq] at he
      rw [← he]

theorem populateCategoryTable_selection (logic : Option vtkSlicerTerminologiesModuleLogic)
    (d : qSlicerTerminologyNavigatorWidgetPrivate) (h : d.CurrentCategoryObject.isSome = true) :
    ∃ e, populateCategoryTable logic d = some e ∧ selection e = selection d := by
  obtain ⟨c, hc⟩ := Option.isSome_iff_exists.1 h
  unfold populateCategoryTable
  simp only
  split_ifs with h1
  · exact ⟨_, rfl, rfl⟩
  · cases logic with
    | none => exact ⟨_, rfl, rfl⟩
    | some L =>
      simp only
      split
      · rename_i h2
        rw [hc] at h2
        exact absurd h2 (by simp)
      · rename_i h2
        rw [hc] at h2
        exact absurd h2 (by simp)
      · split
        · exact ⟨_, rfl, rfl⟩
        · exact ⟨_, rfl, rfl⟩

theorem populateTypeTable_selection (logic : Option vtkSlicerTerminologiesModuleLogic)
    (d : qSlicerTerminologyNavigatorWidgetPrivate) (h : d.CurrentTypeObject.isSome = true) :
    ∃ e, populateTypeTable logic d = some e ∧ selection e = selection d := by
  obtain ⟨c, hc⟩ := Option.isSome_iff_exists.1 h
  unfold populateTypeTable
  simp only
  split_ifs with h1
  · exact ⟨_, rfl, rfl⟩
  · cases logic with
    | none => exact ⟨_, rfl, rfl⟩
    | some L =>
      simp only
      split
      · rename_i h2
        rw [hc] at h2
        exact absurd h2 (by simp)
      · rename_i h2
        rw [hc] at h2
        exact absurd h2 (by simp)
      · split
        · exact ⟨_, rfl, rfl⟩
        · exact ⟨_, rfl, rfl⟩

theorem populateRegionTable_selection (logic : Option vtkSlicerTerminologiesModuleLogic)
    (d : qSlicerTerminologyNavigatorWidgetPrivate) (h : d.CurrentRegionObject.isSome = true) :
    ∃ e, populateRegionTable logic d = some e ∧ selection e = selection d := by
  obtain ⟨c, hc⟩ := Option.isSome_iff_exists.1 h
  unfold populateRegionTable
  simp only
  split_ifs with h1
  · exact ⟨_, rfl, rfl⟩
  · cases logic with
    | none => exact ⟨_, rfl, rfl⟩
    | some L =>
      simp only
      split
      · rename_i h2
        rw [hc] at h2
        exact absurd h2 (by simp)
      · rename_i h2
        rw [hc] at h2
        exact absurd h2 (by simp)
      · split
        · exact ⟨_, rfl, rfl⟩
        · exact ⟨_, rfl, rfl⟩

theorem setCurrentTerminology_cascade (logic : Option vtkSlicerTerminologiesModuleLogic)
    (d : qSlicerTerminologyNavigatorWidgetPrivate)
    (n : QString) (hn : n ≠ d.CurrentTerminologyName) :
    ∃ e, setCurrentTerminology logic d n = some e
      ∧ e.CurrentTerminologyName = n
      ∧ e.CurrentCategoryObject = some {}
      ∧ e.CurrentTypeObject = some {}
      ∧ (FindsNoEmptyModifier logic → e.CurrentTypeModifierObject = some {}) := by
  unfold setCurrentTerminology
  rw [if_neg (fun h => hn h.symm)]
  simp only [resetCurrentCategory, resetCurrentType, resetCurrentTypeModifier]
  split_ifs with h1
  · exact ⟨_, rfl, rfl, rfl, rfl, fun _ => rfl⟩
  · obtain ⟨e1, he1, hs1⟩ := populateCategoryTable_selection logic
      { d with CurrentCategoryObject := some {}, CurrentTypeObject := some {},
               CurrentTypeModifierObject := some {}, CurrentTerminologyName := n } rfl
    simp only [selection, Prod.mk.injEq] at hs1
    obtain ⟨a1, a2, a3, a4, -, -, -⟩ := hs1
    obtain ⟨e2, he2, hs2⟩ := populateTypeTable_selection logic e1 (by rw [a3]; rfl)
    simp only [selection, Prod.mk.injEq] at hs2
    obtain ⟨b1, b2, b3, b4, -, -, -⟩ := hs2
    obtain ⟨e3, he3, hf3⟩ := populateTypeModifierComboBox_frame logic e2 (by rw [b4, a4]; rfl)
    have hm3 := fun hq => populateTypeModifierComboBox_quiet logic e2 e3 hq
      (by
        intro t ht
        rw [b3, a3] at ht
        cases ht
        exact Or.inr (Or.inl rfl)) he3
    obtain ⟨c1, c2, c3, -, -, -, -⟩ := hf3
    simp only [he1, he2, he3]
    refine ⟨_, rfl, ?_, ?_, ?_, ?_⟩
    · split_ifs <;> simp [c1, b1, a1]
    · split_ifs <;> simp [c2, b2, a2]
    · split_ifs <;> simp [c3, b3, a3]
    · intro hq
      split_ifs <;> simp [hm3 hq, b4, a4]

theorem setCurrentCategory_cascade (logic : Option vtkSlicerTerminologiesModuleLogic)
    (d : qSlicerTerminologyNavigatorWidgetPrivate)
    (hcat : d.CurrentCategoryObject.isSome = true) (c : vtkSlicerTerminologyCategory) :
    ∃ r, setCurrentCategory logic d (some c) = some r
      ∧ r.2.CurrentCategoryObject = some c
      ∧ r.2.CurrentTypeObject = some {}
      ∧ r.2.CurrentRegionObject = some {}
      ∧ (FindsNoEmptyModifier logic → r.2.CurrentTypeModifierObject = some {}
          ∧ r.2.CurrentRegionModifierObject = some {}) := by
  obtain ⟨c0, hc0⟩ := Option.isSome_iff_exists.1 hcat
  unfold setCurrentCategory
  simp only [resetCurrentType, resetCurrentTypeModifier, resetCurrentRegion,
    resetCurrentRegionModifier, hc0]
  obtain ⟨e1, he1, hs1⟩ := populateTypeTable_selection logic
    { d with CurrentTypeObject := some {}, CurrentTypeModifierObject := some {},
             CurrentRegionObject := some {}, CurrentRegionModifierObject := some {},
             CurrentCategoryObject := some c } rfl
  simp only [selection, Prod.mk.injEq] at hs1
  obtain ⟨a1, a2, a3, a4, a5, a6, a7⟩ := hs1
  obtain ⟨e2, he2, hf2⟩ := populateTypeModifierComboBox_frame logic e1 (by rw [a4]; rfl)
  have hm2 := fun hq => populateTypeModifierComboBox_quiet logic e1 e2 hq
    (by
      intro t ht
      rw [a3] at ht
      cases ht
      exact Or.inr (Or.inl rfl)) he2
  obtain ⟨b1, b2, b3, b5, b6, b7, -⟩ := hf2
  obtain ⟨e3, he3, hf3⟩ := populateRegionModifierComboBox_frame logic
    { e2 with tableWidget_AnatomicRegion := e2.tableWidget_AnatomicRegion.setCurrentItem none }
    (by show e2.CurrentRegionModifierObject.isSome = true; rw [b7, a7]; rfl)
  have hm3 := fun hq => populateRegionModifierComboBox_quiet logic _ e3 hq
    (by
      intro t ht
      have ht2 : e2.CurrentRegionObject = some t := ht
      rw [b6, a6] at ht2
      cases ht2
      exact Or.inr (Or.inl rfl)) he3
  obtain ⟨c1, c2, c3, c4, c5, c6, -⟩ := hf3
  simp only at c1 c2 c3 c4 c5 c6 hm3
  simp only [he1, he2, he3]
  have k2 : e3.CurrentCategoryObject = some c := by rw [c2, b2, a2]
  have k3 : e3.CurrentTypeObject = some {} := by rw [c3, b3, a3]
  have k4 := fun hq => show e3.CurrentTypeModifierObject = some {} by rw [c4, hm2 hq, a4]
  have k6 : e3.CurrentRegionObject = some {} := by rw [c6, b6, a6]
  have k7 := fun hq => show e3.CurrentRegionModifierObject = some {} by rw [hm3 hq, b7, a7]
  split
  · rename_i heq
    split_ifs at heq <;> simp [k2] at heq
  · rename_i cur heq
    refine ⟨_, rfl, ?_, ?_, ?_, ?_⟩
    · (repeat' split) <;> simp [k2]
    · (repeat' split) <;> simp [k3]
    · (repeat' split) <;> simp [k6]
    · intro hq
      constructor
      · (repeat' split) <;> simp [k4 hq]
      · (repeat' split) <;> simp [k7 hq]

theorem setCurrentType_cascade (logic : Option vtkSlicerTerminologiesModuleLogic)
    (d : qSlicerTerminologyNavigatorWidgetPrivate)
    (htype : d.CurrentTypeObject.isSome = true) (t : vtkSlicerTerminologyType) :
    ∃ r, setCurrentType logic d (some t) = some r
      ∧ r.2.CurrentTypeObject = some t
      ∧ (FindsNoEmptyModifier logic → t.HasModifiers = false →
          r.2.CurrentTypeModifierObject = some {}) := by
  obtain ⟨t0, ht0⟩ := Option.isSome_iff_exists.1 htype
  unfold setCurrentType
  simp only [resetCurrentTypeModifier, ht0]
  obtain ⟨e1, he1, hf1⟩ := populateTypeModifierComboBox_frame logic
    { d with CurrentTypeModifierObject := some {}, CurrentTypeObject := some t } rfl
  have hm1 := fun hq (hmod : t.HasModifiers = false) =>
    populateTypeModifierComboBox_quiet logic _ e1 hq
      (by
        intro u hu
        have hu2 : some t = some u := hu
        cases hu2
        exact Or.inr (Or.inr hmod)) he1
  obtain ⟨c1, c2, c3, c4, c5, c6, -⟩ := hf1
  simp only at c1 c2 c3 c4 c5 c6 hm1
  simp only [he1]
  refine ⟨_, rfl, ?_, ?_⟩
  · (repeat' split) <;> simp [c3]
  · intro hq hmod
    (repeat' split) <;> simp [hm1 hq hmod]

theorem setCurrentRegion_cascade (logic : Option vtkSlicerTerminologiesModuleLogic)
    (d : qSlicerTerminologyNavigatorWidgetPrivate)
    (hreg : d.CurrentRegionObject.isSome = true) (r : vtkSlicerTerminologyType) :
    ∃ res, setCurrentRegion logic d (some r) = some res
      ∧ res.2.CurrentRegionObject = some r
      ∧ (FindsNoEmptyModifier logic → r.HasModifiers = false →
          res.2.CurrentRegionModifierObject = some {})
      ∧ res.2.CurrentTerminologyName = d.CurrentTerminologyName
      ∧ res.2.CurrentCategoryObject = d.CurrentCategoryObject
      ∧ res.2.CurrentTypeObject = d.CurrentTypeObject
      ∧ res.2.CurrentTypeModifierObject = d.CurrentTypeModifierObject := by
  obtain ⟨r0, hr0⟩ := Option.isSome_iff_exists.1 hreg
  unfold setCurrentRegion
  simp only [resetCurrentRegionModifier, hr0]
  obtain ⟨e1, he1, hf1⟩ := populateRegionModifierComboBox_frame logic
    { d with CurrentRegionModifierObject := some {}, CurrentRegionObject := some r } rfl
  have hm1 := fun hq (hmod : r.HasModifiers = false) =>
    populateRegionModifierComboBox_quiet logic _ e1 hq
      (by
        intro u hu
        have hu2 : some r = some u := hu
        cases hu2
        exact Or.inr (Or.inr hmod)) he1
  obtain ⟨c1, c2, c3, c4, c5, c6, -⟩ := hf1
  simp only at c1 c2 c3 c4 c5 c6 hm1
  simp only [he1]
  refine ⟨_, rfl, ?_, ?_, ?_, ?_, ?_, ?_⟩
  · (repeat' split) <;> simp [c6]
  · intro hq hmod
    (repeat' split) <;> simp [hm1 hq hmod]
  · (repeat' split) <;> simp [c1]
  · (repeat' split) <;> simp [c2]
  · (repeat' split) <;> simp [c3]
  · (repeat' split) <;> simp [c4]

theorem constructedPrivate_present : Present constructedPrivate :=
  ⟨rfl, rfl, rfl, rfl, rfl⟩

/-- C20: `setCurrentTerminology(n)` with `n` the current terminology name returns at once and
leaves the whole private data as it was (selection, custom colour, widgets, emitted validity
signals); hence a second call with the name of a first call changes nothing more. -/
theorem setCurrentTerminology_same_name (logic : Option vtkSlicerTerminologiesModuleLogic)
    (d : qSlicerTerminologyNavigatorWidgetPrivate) :
    setCurrentTerminology logic d d.CurrentTerminologyName = some d
    ∧ ∀ n e, setCurrentTerminology logic d n = some e →
        setCurrentTerminology logic e n = some e := by
  have key : ∀ x : qSlicerTerminologyNavigatorWidgetPrivate,
      setCurrentTerminology logic x x.CurrentTerminologyName = some x := by
    intro x
    unfold setCurrentTerminology
    simp
  refine ⟨key d, ?_⟩
  intro n e h
  by_cases hn : n = d.CurrentTerminologyName
  · subst hn
    rw [key d] at h
    cases h
    exact key d
  · obtain ⟨e1, he1, hname, _⟩ := setCurrentTerminology_cascade logic d n hn
    rw [he1] at h
    have he : e = e1 := (Option.some.inj h).symm
    rw [he, ← hname]
    exact key e1

/-- The statement C20 at a navigator whose current terminology is `T`. -/
theorem setCurrentTerminology_same_name_witness :
    setCurrentTerminology (some sampleLogic)
      { constructedPrivate with CurrentTerminologyName := "T".toList } "T".toList
    = some { constructedPrivate with CurrentTerminologyName := "T".toList } :=
  (setCurrentTerminology_same_name (some sampleLogic)
    { constructedPrivate with CurrentTerminologyName := "T".toList }).1

theorem customColor_eq (d : qSlicerTerminologyNavigatorWidgetPrivate) (hp : Present d) :
    ∃ t m, d.CurrentTypeObject = some t ∧ d.CurrentTypeModifierObject = some m
      ∧ recommendedColorFromCurrentTerminology d = some
          (if d.CurrentAnatomicContextName = [] then QColor.invalid
            else recommendedDisplayColor (if t.HasModifiers = true then m else t))
      ∧ customColor d = some
          (if d.CurrentAnatomicContextName ≠ []
              ∧ d.ColorPickerButton_RecommendedRGB.color
                ≠ recommendedDisplayColor (if t.HasModifiers = true then m else t)
            then d.ColorPickerButton_RecommendedRGB.color else QColor.invalid) := by
  obtain ⟨hc, ht, hm, _, _⟩ := hp
  obtain ⟨c, hc⟩ := Option.isSome_iff_exists.1 hc
  obtain ⟨t, ht⟩ := Option.isSome_iff_exists.1 ht
  obtain ⟨m, hm⟩ := Option.isSome_iff_exists.1 hm
  have hrc : recommendedColorFromCurrentTerminology d = some
      (if d.CurrentAnatomicContextName = [] then QColor.invalid
        else recommendedDisplayColor (if t.HasModifiers = true then m else t)) := by
    unfold recommendedColorFromCurrentTerminology
    simp only [hc, ht, hm]
    by_cases hctx : d.CurrentAnatomicContextName = []
    · simp [hctx]
    · simp only [isEmpty_eq_false_of_ne_nil _ hctx, hctx, if_false, Bool.false_eq_true]
      cases t.HasModifiers <;> simp
  refine ⟨t, m, ht, hm, hrc, ?_⟩
  unfold customColor
  simp only [hrc]
  by_cases hctx : d.CurrentAnatomicContextName = []
  · simp [hctx, QColor.isValid]
  · simp only [hctx, if_false, ne_eq, not_false_eq_true, true_and]
    split_ifs <;> simp_all [QColor.isValid, recommendedDisplayColor]

/-- C15: in the navigator as its constructor leaves it with the sample logic, no category and no
type is selected (the current objects are the empty ones, and `setCurrentTerminology` has
reported the selection invalid through `selectionValidityChanged(false)`) and no custom colour
has been stored, yet `customColor()` returns the valid colour rgb(0,0,0) that the picker shows.
The same holds for the navigator constructed with a logic that has no terminology loaded, where
the terminology name is empty and `terminologyEntry` returns false. -/
theorem customColor_valid_without_selection :
    ((constructedNavigator (some sampleLogic)).map fun d =>
      (d.CurrentCategoryObject, d.CurrentTypeObject, d.selectionValidityChanged, d.CustomColor,
        d.ColorPickerButton_RecommendedRGB.color, recommendedColorFromCurrentTerminology d,
        customColor d))
      = some (some {}, some {}, [false], QColor.invalid, QColor.rgb 0 0 0,
          some (QColor.rgb 127 127 127), some (QColor.rgb 0 0 0))
    ∧ ((constructedNavigator (some noTerminologyLogic)).map fun d =>
      (d.CurrentTerminologyName, (terminologyEntry d (some {})).1, d.CurrentCategoryObject,
        d.CurrentTypeObject, d.CustomColor, d.ColorPickerButton_RecommendedRGB.color,
        recommendedColorFromCurrentTerminology d, customColor d))
      = some ([], false, some {}, some {}, QColor.invalid, QColor.rgb 0 0 0,
          some (QColor.rgb 127 127 127), some (QColor.rgb 0 0 0))
    ∧ (QColor.rgb 0 0 0).isValid = true :=
  ⟨rfl, rfl, rfl⟩

/-- C13: right after `setCurrentTerminology` with the name of a terminology, the current
category and the current type are the freshly allocated empty objects (nothing is selected at
these levels), and `terminologyEntry(entry)` returns true: its tests for a missing category and
a missing type compare the pointers with null, which the reset helpers never store. -/
theorem terminologyEntry_after_setCurrentTerminology :
    ((setCurrentTerminology (some sampleLogic) constructedPrivate "T".toList).map fun d =>
      (d.CurrentCategoryObject, d.CurrentTypeObject, (terminologyEntry d (some {})).1))
    = some (some {}, some {}, true) := by
  decide

/-- C16: with the kidney type clicked the picker shows the recommended gray; after
`setColor(red)` and then `setColor(gray)`, the recommended colour, the picker shows gray and
`customColor()` is invalid, but the stored custom colour is gray: the picker reports its change
of colour and the connected slot stores the colour again after `setColor` has invalidated it. -/
theorem setColor_recommended_keeps_custom_colour :
    (afterTypeClick.bind fun d =>
      (setColor d (QColor.rgb 255 0 0)).bind fun d =>
        (setColor d (QColor.rgb 127 127 127)).map fun e =>
          (recommendedColorFromCurrentTerminology d, e.ColorPickerButton_RecommendedRGB.color,
            customColor e, e.CustomColor))
    = some (some (QColor.rgb 127 127 127), QColor.rgb 127 127 127, some QColor.invalid,
        QColor.rgb 127 127 127) := by
  decide

/-- C18: with the modifiers right and left in the type-modifier combobox,
`setCurrentTypeModifier(m)` for a modifier `m` with the code meaning `Left` under another coding
scheme and code value returns true and makes the item of the left modifier current, whose
coding-scheme designator and code value are not those of `m`. -/
theorem setCurrentTypeModifier_matches_meaning_only :
    (afterTypeSelection.bind fun d =>
      (setCurrentTypeModifier d (some otherLeftModifier)).map fun r =>
        (r.1, r.2.ComboBox_TypeModifier.itemAt r.2.ComboBox_TypeModifier.currentIndex))
      = some (true, comboItemOfId leftId)
    ∧ otherLeftModifier.CodingScheme ≠ some leftId.CodingSchemeDesignator
    ∧ otherLeftModifier.CodeValue ≠ some leftId.CodeValue := by
  decide

/-- C11: with `Kid` in the type search box and `Lu` typed into the region search box, the region
table is populated with the regions found for the text of the type search box: it has no row,
although the logic finds the lung region in the current anatomic context for the text of the
region search box. -/
theorem region_table_uses_type_search_text :
    (afterRegionSearch.map fun d =>
      (d.CurrentAnatomicContextName, d.SearchBox_Type.text, d.SearchBox_AnatomicRegion.text,
        d.tableWidget_AnatomicRegion.rows,
        searchingLogic.FindRegionsInAnatomicContext (toStdString d.CurrentAnatomicContextName)
          (toStdString d.SearchBox_AnatomicRegion.text)))
    = some ("A".toList, "Kid".toList, "Lu".toList, [],
        [CodeIdentifierFromTerminologyType lungRegion]) := by
  rfl

/-! ## The tables -/

theorem rows_set_splice {α : Type} (rows : List α) (x : α) (middle : List α) (i : Nat)
    (h : i + (middle.length + 1) ≤ rows.length) :
    (rows.set i x).take (i + 1) ++ middle ++ (rows.set i x).drop (i + 1 + middle.length)
      = rows.take i ++ x :: middle ++ rows.drop (i + (middle.length + 1)) := by
  have hi : i < rows.length := by omega
  have hlen : (rows.take i ++ [x]).length = i + 1 := by
    simp [List.length_take, Nat.min_eq_left (Nat.le_of_lt hi)]
  have hset : rows.set i x = (rows.take i ++ [x]) ++ rows.drop (i + 1) := by
    rw [List.set_eq_take_cons_drop x hi]
    simp
  have h1 : (rows.set i x).take (i + 1) = rows.take i ++ [x] := by
    rw [hset]
    exact List.take_left' hlen
  have h2 : (rows.set i x).drop (i + 1 + middle.length)
      = rows.drop (i + (middle.length + 1)) := by
    rw [hset, ← List.drop_drop, List.drop_left' hlen,
      List.drop_drop]
    congr 1
    omega
  rw [h1, h2]
  simp

theorem populateCategoryLoop_rows (current : vtkSlicerTerminologyCategory)
    (ids : List CodeIdentifier) :
    ∀ (index : Nat) (table : QTableWidget) (selectedItem : Option Nat),
      index + ids.length ≤ table.rows.length →
      (populateCategoryLoop current ids index table selectedItem).1.rows
        = table.rows.take index ++ ids.map (fun id => some (tableItemOfId id))
            ++ table.rows.drop (index + ids.length) := by
  induction ids with
  | nil =>
    intro index table selectedItem _
    simp [populateCategoryLoop]
  | cons id rest ih =>
    intro index table selectedItem h
    simp only [populateCategoryLoop, List.length_cons] at h ⊢
    rw [ih]
    · simp only [QTableWidget.setItem]
      have := rows_set_splice table.rows (some (tableItemOfId id))
        (rest.map fun id => some (tableItemOfId id)) index (by simpa using h)
      simpa using this
    · simp only [QTableWidget.setItem, List.length_set]
      omega

theorem populateTypeLoop_rows (current : vtkSlicerTerminologyType)
    (ids : List CodeIdentifier) :
    ∀ (index : Nat) (table : QTableWidget) (selectedItem : Option Nat),
      index + ids.length ≤ table.rows.length →
      (populateTypeLoop current ids index table selectedItem).1.rows
        = table.rows.take index ++ ids.map (fun id => some (tableItemOfId id))
            ++ table.rows.drop (index + ids.length) := by
  induction ids with
  | nil =>
    intro index table selectedItem _
    simp [populateTypeLoop]
  | cons id rest ih =>
    intro index table selectedItem h
    simp only [populateTypeLoop, List.length_cons] at h ⊢
    rw [ih]
    · simp only [QTableWidget.setItem]
      have := rows_set_splice table.rows (some (tableItemOfId id))
        (rest.map fun id => some (tableItemOfId id)) index (by simpa using h)
      simpa using this
    · simp only [QTableWidget.setItem, List.length_set]
      omega

theorem length_rows_setRowCount (t : QTableWidget) (n : Nat) :
    (t.setRowCount n).rows.length = n := by
  simp only [QTableWidget.setRowCount, List.length_append, List.length_take,
    List.length_replicate]
  omega

theorem populateCategoryLoop_fresh (current : vtkSlicerTerminologyCategory)
    (ids : List CodeIdentifier) (table : QTableWidget) (selectedItem : Option Nat) :
    (populateCategoryLoop current ids 0 (table.setRowCount ids.length) selectedItem).1.rows
      = ids.map fun id => some (tableItemOfId id) := by
  rw [populateCategoryLoop_rows current ids 0 _ _ (by rw [length_rows_setRowCount]; omega),
    List.drop_eq_nil_of_le (by rw [length_rows_setRowCount]; omega)]
  simp

theorem populateTypeLoop_fresh (current : vtkSlicerTerminologyType)
    (ids : List CodeIdentifier) (table : QTableWidget) (selectedItem : Option Nat) :
    (populateTypeLoop current ids 0 (table.setRowCount ids.length) selectedItem).1.rows
      = ids.map fun id => some (tableItemOfId id) := by
  rw [populateTypeLoop_rows current ids 0 _ _ (by rw [length_rows_setRowCount]; omega),
    List.drop_eq_nil_of_le (by rw [length_rows_setRowCount]; omega)]
  simp

/-- C12: `populateCategoryTable()` leaves the category table without rows when the current
terminology name is empty; otherwise, with the logic available (and the current category
allocated), the rows of the table are, in the order returned, the code identifiers that the logic
finds in the current terminology for the text of the category search box, each as an item with
the code meaning as text and the coding-scheme designator and the code value as data. -/
theorem populateCategoryTable_rows (logic : Option vtkSlicerTerminologiesModuleLogic)
    (d : qSlicerTerminologyNavigatorWidgetPrivate) :
    (d.CurrentTerminologyName = [] →
      ∃ e, populateCategoryTable logic d = some e ∧ e.tableWidget_Category.rowCount = 0)
    ∧ (∀ L, logic = some L → d.CurrentTerminologyName ≠ [] →
        d.CurrentCategoryObject.isSome = true →
        ∃ e, populateCategoryTable logic d = some e
          ∧ e.tableWidget_Category.rows
            = (L.FindCategoriesInTerminology (toStdString d.CurrentTerminologyName)
                (toStdString d.SearchBox_Category.text)).map fun id =>
                some { text := id.CodeMeaning
                       CodingSchemeDesignator := id.CodingSchemeDesignator
                       CodeValue := id.CodeValue }) := by
  constructor
  · intro h
    unfold populateCategoryTable
    simp only [h, List.isEmpty_nil, if_true]
    exact ⟨_, rfl, length_rows_setRowCount _ 0⟩
  · intro L hL hn hc
    subst hL
    obtain ⟨c, hc⟩ := Option.isSome_iff_exists.1 hc
    unfold populateCategoryTable
    have hne : d.CurrentTerminologyName.isEmpty = false := by
      cases hd : d.CurrentTerminologyName with
      | nil => exact absurd hd hn
      | cons a l => rfl
    simp only [hne, hc, Bool.false_eq_true, if_false]
    have key2 := populateCategoryLoop_fresh c
      (L.FindCategoriesInTerminology (toStdString d.CurrentTerminologyName)
        (toStdString d.SearchBox_Category.text)) d.tableWidget_Category.clearContents none
    split <;> exact ⟨_, rfl, key2⟩

/-- The statement C12 at a navigator with the sample logic and the terminology `T`. -/
theorem populateCategoryTable_rows_witness :
    ∃ e, populateCategoryTable (some sampleLogic)
        { constructedPrivate with CurrentTerminologyName := "T".toList } = some e
      ∧ e.tableWidget_Category.rows
        = [some { text := "Tissue".toList
                  CodingSchemeDesignator := "SRT".toList
                  CodeValue := "T-D0050".toList }] :=
  (populateCategoryTable_rows (some sampleLogic)
    { constructedPrivate with CurrentTerminologyName := "T".toList }).2 sampleLogic rfl
    (by decide) rfl

/-! ## Frames of the navigator operations -/

theorem erase_field {α : Type} (p : Part) (ps qs : List Part) (hsub : ∀ q ∈ ps, q ∈ qs)
    (x a b : α) (h : (if p ∈ ps then x else a) = (if p ∈ ps then x else b)) :
    (if p ∈ qs then x else a) = (if p ∈ qs then x else b) := by
  by_cases hq : p ∈ qs
  · simp [hq]
  · have hp : p ∉ ps := fun hp => hq (hsub p hp)
    simpa [hp, hq] using h

theorem changesOnly_mono {ps qs : List Part} {d e : qSlicerTerminologyNavigatorWidgetPrivate}
    (h : ChangesOnly ps d e) (hsub : ∀ q ∈ ps, q ∈ qs) : ChangesOnly qs d e := by
  simp only [ChangesOnly, NavigatorView.erase, NavigatorView.mk.injEq] at h ⊢
  obtain ⟨h1, h2, h3, h4, h5, h6, h7, h8, h9, h10, h11, h12, h13, h14⟩ := h
  exact ⟨erase_field _ _ _ hsub _ _ _ h1, erase_field _ _ _ hsub _ _ _ h2,
    erase_field _ _ _ hsub _ _ _ h3, erase_field _ _ _ hsub _ _ _ h4,
    erase_field _ _ _ hsub _ _ _ h5, erase_field _ _ _ hsub _ _ _ h6,
    erase_field _ _ _ hsub _ _ _ h7, erase_field _ _ _ hsub _ _ _ h8,
    erase_field _ _ _ hsub _ _ _ h9, erase_field _ _ _ hsub _ _ _ h10,
    erase_field _ _ _ hsub _ _ _ h11, erase_field _ _ _ hsub _ _ _ h12,
    erase_field _ _ _ hsub _ _ _ h13, erase_field _ _ _ hsub _ _ _ h14⟩

theorem changesOnly_of_view {d e : qSlicerTerminologyNavigatorWidgetPrivate}
    (ps : List Part) (h : view e = view d) : ChangesOnly ps d e := by
  unfold ChangesOnly
  rw [h]

theorem changesOnly_trans {ps : List Part} {a b c : qSlicerTerminologyNavigatorWidgetPrivate}
    (h1 : ChangesOnly ps a b) (h2 : ChangesOnly ps b c) : ChangesOnly ps a c :=
  Eq.trans h2 h1

theorem view_setRecommendedColor (d : qSlicerTerminologyNavigatorWidgetPrivate) :
    view (setRecommendedColorFromCurrentTerminology d) = view d := by
  unfold setRecommendedColorFromCurrentTerminology setPickerColor
  simp only [view, onColorChanged]
  split_ifs <;> (split <;> rfl)

theorem changes_setCurrentTypeModifier (d : qSlicerTerminologyNavigatorWidgetPrivate)
    (m : Option vtkSlicerTerminologyType) (r : Bool × qSlicerTerminologyNavigatorWidgetPrivate)
    (h : setCurrentTypeModifier d m = some r) :
    ChangesOnly [Part.typeModifier] d r.2 := by
  unfold setCurrentTypeModifier at h
  split at h
  · cases h
    rfl
  · split at h
    · cases h
    · simp only [Option.some.injEq] at h
      subst h
      simp only [ChangesOnly]
      split_ifs <;> rfl

theorem changes_setCurrentRegionModifier (d : qSlicerTerminologyNavigatorWidgetPrivate)
    (m : Option vtkSlicerTerminologyType) (r : Bool × qSlicerTerminologyNavigatorWidgetPrivate)
    (h : setCurrentRegionModifier d m = some r) :
    ChangesOnly [Part.regionModifier] d r.2 := by
  unfold setCurrentRegionModifier at h
  split at h
  · cases h
    rfl
  · split at h
    · cases h
    · simp only [Option.some.injEq] at h
      subst h
      simp only [ChangesOnly]
      split_ifs <;> rfl

theorem changes_onTypeModifierSelectionChanged
    (logic : Option vtkSlicerTerminologiesModuleLogic)
    (d e : qSlicerTerminologyNavigatorWidgetPrivate) (index : Int)
    (h : onTypeModifierSelectionChanged logic d index = some e) :
    ChangesOnly [Part.typeModifier] d e := by
  unfold onTypeModifierSelectionChanged at h
  simp only at h
  split at h
  · cases h
    rfl
  · split at h
    · cases h
      rfl
    · split at h
      · cases h
      · rename_i r hr
        have h1 := changes_setCurrentTypeModifier _ _ _ hr
        have h2 := changesOnly_of_view [Part.typeModifier] (view_setRecommendedColor r.2)
        cases h
        exact changesOnly_trans h1 h2

theorem changes_onRegionModifierSelectionChanged
    (logic : Option vtkSlicerTerminologiesModuleLogic)
    (d e : qSlicerTerminologyNavigatorWidgetPrivate) (index : Int)
    (h : onRegionModifierSelectionChanged logic d index = some e) :
    ChangesOnly [Part.regionModifier] d e := by
  unfold onRegionModifierSelectionChanged at h
  simp only at h
  split at h
  · cases h
    rfl
  · split at h
    · cases h
      rfl
    · split at h
      · cases h
      · rename_i r hr
        have h1 := changes_setCurrentRegionModifier _ _ _ hr
        cases h
        exact h1

theorem changes_deliverTypeModifierSignal (logic : Option vtkSlicerTerminologiesModuleLogic)
    (d e : qSlicerTerminologyNavigatorWidgetPrivate) (signal : Option Int)
    (h : deliverTypeModifierSignal logic d signal = some e) :
    ChangesOnly [Part.typeModifier] d e := by
  cases signal with
  | none =>
    cases h
    rfl
  | some index => exact changes_onTypeModifierSelectionChanged logic d e index h

theorem changes_deliverRegionModifierSignal (logic : Option vtkSlicerTerminologiesModuleLogic)
    (d e : qSlicerTerminologyNavigatorWidgetPrivate) (signal : Option Int)
    (h : deliverRegionModifierSignal logic d signal = some e) :
    ChangesOnly [Part.regionModifier] d e := by
  cases signal with
  | none =>
    cases h
    rfl
  | some index => exact changes_onRegionModifierSelectionChanged logic d e index h

theorem changes_typeModifierBox (d : qSlicerTerminologyNavigatorWidgetPrivate) (box : QComboBox) :
    ChangesOnly [Part.typeModifier, Part.typeModifierItems] d
      { d with ComboBox_TypeModifier := box } := rfl

theorem changes_regionModifierBox (d : qSlicerTerminologyNavigatorWidgetPrivate)
    (box : QComboBox) :
    ChangesOnly [Part.regionModifier, Part.regionModifierItems] d
      { d with ComboBox_AnatomicRegionModifier := box } := rfl

theorem changes_populateTypeModifierLoop (logic : Option vtkSlicerTerminologiesModuleLogic)
    (ids : List CodeIdentifier) :
    ∀ (index : Int) (d : qSlicerTerminologyNavigatorWidgetPrivate) (selectedIndex : Int)
      (r : qSlicerTerminologyNavigatorWidgetPrivate × Int),
      populateTypeModifierLoop logic ids index d selectedIndex = some r →
      ChangesOnly [Part.typeModifier, Part.typeModifierItems] d r.1 := by
  induction ids with
  | nil =>
    intro index d selectedIndex r h
    cases h
    rfl
  | cons id rest ih =>
    intro index d selectedIndex r h
    simp only [populateTypeModifierLoop] at h
    split at h
    · cases h
    · rename_i e he
      split at h
      · cases h
      · have h1 : ChangesOnly [Part.typeModifier, Part.typeModifierItems] _ e :=
          changesOnly_mono (changes_deliverTypeModifierSignal _ _ _ _ he) (by decide)
        exact changesOnly_trans (changesOnly_trans (changes_typeModifierBox d _) h1)
          (ih _ _ _ _ h)

theorem changes_populateRegionModifierLoop (logic : Option vtkSlicerTerminologiesModuleLogic)
    (ids : List CodeIdentifier) :
    ∀ (index : Int) (d : qSlicerTerminologyNavigatorWidgetPrivate) (selectedIndex : Int)
      (r : qSlicerTerminologyNavigatorWidgetPrivate × Int),
      populateRegionModifierLoop logic ids index d selectedIndex = some r →
      ChangesOnly [Part.regionModifier, Part.regionModifierItems] d r.1 := by
  induction ids with
  | nil =>
    intro index d selectedIndex r h
    cases h
    rfl
  | cons id rest ih =>
    intro index d selectedIndex r h
    simp only [populateRegionModifierLoop] at h
    split at h
    · cases h
    · rename_i e he
      split at h
      · cases h
      · have h1 : ChangesOnly [Part.regionModifier, Part.regionModifierItems] _ e :=
          changesOnly_mono (changes_deliverRegionModifierSignal _ _ _ _ he) (by decide)
        exact changesOnly_trans (changesOnly_trans (changes_regionModifierBox d _) h1)
          (ih _ _ _ _ h)

theorem changes_populateTypeModifierComboBox (logic : Option vtkSlicerTerminologiesModuleLogic)
    (d e : qSlicerTerminologyNavigatorWidgetPrivate)
    (h : populateTypeModifierComboBox logic d = some e) :
    ChangesOnly [Part.typeModifier, Part.typeModifierItems] d e := by
  unfold populateTypeModifierComboBox at h
  simp only at h
  split at h
  · cases h
  · rename_i e1 he1
    have base : ChangesOnly [Part.typeModifier, Part.typeModifierItems] d e1 :=
      changesOnly_trans (changes_typeModifierBox d _)
        (changesOnly_mono (changes_deliverTypeModifierSignal _ _ _ _ he1) (by decide))
    split at h
    · split_ifs at h
      · cases h
        exact changesOnly_trans base (changes_typeModifierBox _ _)
      · cases h
        exact changesOnly_trans base (changes_typeModifierBox _ _)
      · split at h
        · cases h
          exact base
        · split at h
          · cases h
          · rename_i r hr
            have h2 := changes_populateTypeModifierLoop _ _ _ _ _ _ hr
            split_ifs at h
            · have h3 : ChangesOnly [Part.typeModifier, Part.typeModifierItems] _ e :=
                changesOnly_mono (changes_deliverTypeModifierSignal _ _ _ _ h) (by decide)
              exact changesOnly_trans (changesOnly_trans base h2)
                (changesOnly_trans (changes_typeModifierBox _ _) h3)
            · cases h
              exact changesOnly_trans base h2
    · cases h
      exact changesOnly_trans base (changes_typeModifierBox _ _)

theorem changes_populateRegionModifierComboBox
    (logic : Option vtkSlicerTerminologiesModuleLogic)
    (d e : qSlicerTerminologyNavigatorWidgetPrivate)
    (h : populateRegionModifierComboBox logic d = some e) :
    ChangesOnly [Part.regionModifier, Part.regionModifierItems] d e := by
  unfold populateRegionModifierComboBox at h
  simp only at h
  split at h
  · cases h
  · rename_i e1 he1
    have base : ChangesOnly [Part.regionModifier, Part.regionModifierItems] d e1 :=
      changesOnly_trans (changes_regionModifierBox d _)
        (changesOnly_mono (changes_deliverRegionModifierSignal _ _ _ _ he1) (by decide))
    split at h
    · split_ifs at h
      · cases h
        exact changesOnly_trans base (changes_regionModifierBox _ _)
      · cases h
        exact changesOnly_trans base (changes_regionModifierBox _ _)
      · split at h
        · cases h
          exact base
        · split at h
          · cases h
          · rename_i r hr
            have h2 := changes_populateRegionModifierLoop _ _ _ _ _ _ hr
            split_ifs at h
            · have h3 : ChangesOnly [Part.regionModifier, Part.regionModifierItems] _ e :=
                changesOnly_mono (changes_deliverRegionModifierSignal _ _ _ _ h) (by decide)
              exact changesOnly_trans (changesOnly_trans base h2)
                (changesOnly_trans (changes_regionModifierBox _ _) h3)
            · cases h
              exact changesOnly_trans base h2
    · cases h
      exact changesOnly_trans base (changes_regionModifierBox _ _)

theorem changes_populateCategoryTable (logic : Option vtkSlicerTerminologiesModuleLogic)
    (d e : qSlicerTerminologyNavigatorWidgetPrivate)
    (h : populateCategoryTable logic d = some e) : ChangesOnly [Part.categoryRows] d e := by
  unfold populateCategoryTable at h
  simp only at h
  split_ifs at h
  · cases h
    rfl
  · split at h
    · cases h
      rfl
    · split at h
      · cases h
      · cases h
        rfl
      · split at h <;> (cases h; rfl)

theorem changes_populateTypeTable (logic : Option vtkSlicerTerminologiesModuleLogic)
    (d e : qSlicerTerminologyNavigatorWidgetPrivate)
    (h : populateTypeTable logic d = some e) : ChangesOnly [Part.typeRows] d e := by
  unfold populateTypeTable at h
  simp only at h
  split_ifs at h
  · cases h
    rfl
  · split at h
    · cases h
      rfl
    · split at h
      · cases h
      · cases h
        rfl
      · split at h <;> (cases h; rfl)

theorem changes_populateRegionTable (logic : Option vtkSlicerTerminologiesModuleLogic)
    (d e : qSlicerTerminologyNavigatorWidgetPrivate)
    (h : populateRegionTable logic d = some e) : ChangesOnly [Part.regionRows] d e := by
  unfold populateRegionTable at h
  simp only at h
  split_ifs at h
  · cases h
    rfl
  · split at h
    · cases h
      rfl
    · split at h
      · cases h
      · cases h
        rfl
      · split at h <;> (cases h; rfl)

theorem changes_setCurrentType (logic : Option vtkSlicerTerminologiesModuleLogic)
    (d : qSlicerTerminologyNavigatorWidgetPrivate) (t : Option vtkSlicerTerminologyType)
    (r : Bool × qSlicerTerminologyNavigatorWidgetPrivate)
    (h : setCurrentType logic d t = some r) :
    ChangesOnly [Part.type, Part.typeModifier, Part.typeModifierItems] d r.2 := by
  unfold setCurrentType at h
  simp only [resetCurrentTypeModifier, resetCurrentType] at h
  split at h
  · cases h
    rfl
  · split at h
    · cases h
    · split at h
      · cases h
      · rename_i e1 he1
        have h1 : ChangesOnly [Part.type, Part.typeModifier, Part.typeModifierItems] _ e1 :=
          changesOnly_mono (changes_populateTypeModifierComboBox _ _ _ he1) (by decide)
        have h0 : ChangesOnly [Part.type, Part.typeModifier, Part.typeModifierItems] d e1 :=
          changesOnly_trans rfl h1
        split at h <;> (cases h; exact changesOnly_trans h0 rfl)

theorem changes_setCurrentRegion (logic : Option vtkSlicerTerminologiesModuleLogic)
    (d : qSlicerTerminologyNavigatorWidgetPrivate) (t : Option vtkSlicerTerminologyType)
    (r : Bool × qSlicerTerminologyNavigatorWidgetPrivate)
    (h : setCurrentRegion logic d t = some r) :
    ChangesOnly [Part.region, Part.regionModifier, Part.regionModifierItems] d r.2 := by
  unfold setCurrentRegion at h
  simp only [resetCurrentRegionModifier, resetCurrentRegion] at h
  split at h
  · cases h
    rfl
  · split at h
    · cases h
    · split at h
      · cases h
      · rename_i e1 he1
        have h1 : ChangesOnly [Part.region, Part.regionModifier, Part.regionModifierItems] _ e1 :=
          changesOnly_mono (changes_populateRegionModifierComboBox _ _ _ he1) (by decide)
        have h0 : ChangesOnly [Part.region, Part.regionModifier, Part.regionModifierItems] d e1 :=
          changesOnly_trans rfl h1
        split at h <;> (cases h; exact changesOnly_trans h0 rfl)

theorem changes_setCurrentAnatomicContext (logic : Option vtkSlicerTerminologiesModuleLogic)
    (d e : qSlicerTerminologyNavigatorWidgetPrivate) (n : QString)
    (h : setCurrentAnatomicContext logic d n = some e) :
    ChangesOnly [Part.contextName, Part.region, Part.regionModifier, Part.regionRows,
      Part.regionModifierItems] d e := by
  unfold setCurrentAnatomicContext at h
  simp only [resetCurrentRegionModifier, resetCurrentRegion] at h
  split_ifs at h
  · cases h
    rfl
  · split at h
    · cases h
    · rename_i e1 he1
      split at h
      · cases h
      · rename_i e2 he2
        have h1 : ChangesOnly [Part.contextName, Part.region, Part.regionModifier,
            Part.regionRows, Part.regionModifierItems] _ e1 :=
          changesOnly_mono (changes_populateRegionTable _ _ _ he1) (by decide)
        have h2 : ChangesOnly [Part.contextName, Part.region, Part.regionModifier,
            Part.regionRows, Part.regionModifierItems] e1 e2 :=
          changesOnly_mono (changes_populateRegionModifierComboBox _ _ _ he2) (by decide)
        have h0 : ChangesOnly [Part.contextName, Part.region, Part.regionModifier,
            Part.regionRows, Part.regionModifierItems] d e2 :=
          changesOnly_trans (changesOnly_trans rfl h1) h2
        split_ifs at h
        · cases h
          exact changesOnly_trans h0 rfl
        · cases h
          exact changesOnly_trans h0 rfl
        · split at h
          · cases h
          · split_ifs at h <;> (cases h; exact changesOnly_trans h0 rfl)

theorem changes_setCurrentCategory (logic : Option vtkSlicerTerminologiesModuleLogic)
    (d : qSlicerTerminologyNavigatorWidgetPrivate) (c : Option vtkSlicerTerminologyCategory)
    (r : Bool × qSlicerTerminologyNavigatorWidgetPrivate)
    (h : setCurrentCategory logic d c = some r) :
    ChangesOnly [Part.category, Part.type, Part.typeModifier, Part.region, Part.regionModifier,
      Part.typeRows, Part.typeModifierItems, Part.regionModifierItems] d r.2 := by
  unfold setCurrentCategory at h
  simp only [resetCurrentType, resetCurrentTypeModifier, resetCurrentRegion,
    resetCurrentRegionModifier, resetCurrentCategory] at h
  split at h
  · cases h
    rfl
  · split at h
    · cases h
    · split at h
      · cases h
      · rename_i e1 he1
        split at h
        · cases h
        · rename_i e2 he2
          split at h
          · cases h
          · rename_i e3 he3
            have h1 : ChangesOnly [Part.category, Part.type, Part.typeModifier, Part.region,
                Part.regionModifier, Part.typeRows, Part.typeModifierItems,
                Part.regionModifierItems] _ e1 :=
              changesOnly_mono (changes_populateTypeTable _ _ _ he1) (by decide)
            have h2 : ChangesOnly [Part.category, Part.type, Part.typeModifier, Part.region,
                Part.regionModifier, Part.typeRows, Part.typeModifierItems,
                Part.regionModifierItems] e1 e2 :=
              changesOnly_mono (changes_populateTypeModifierComboBox _ _ _ he2) (by decide)
            have h3 : ChangesOnly [Part.category, Part.type, Part.typeModifier, Part.region,
                Part.regionModifier, Part.typeRows, Part.typeModifierItems,
                Part.regionModifierItems] _ e3 :=
              changesOnly_mono (changes_populateRegionModifierComboBox _ _ _ he3) (by decide)
            have h0 : ChangesOnly [Part.category, Part.type, Part.typeModifier, Part.region,
                Part.regionModifier, Part.typeRows, Part.typeModifierItems,
                Part.regionModifierItems] d e3 :=
              changesOnly_trans (changesOnly_trans (changesOnly_trans rfl h1) h2)
                (changesOnly_trans rfl h3)
            split_ifs at h
            all_goals
              split at h
              · cases h
              · split at h <;> (cases h; exact changesOnly_trans h0 rfl)

theorem changes_setCurrentTerminology (logic : Option vtkSlicerTerminologiesModuleLogic)
    (d e : qSlicerTerminologyNavigatorWidgetPrivate) (n : QString)
    (h : setCurrentTerminology logic d n = some e) :
    ChangesOnly [Part.terminologyName, Part.category, Part.type, Part.typeModifier,
      Part.categoryRows, Part.typeRows, Part.typeModifierItems] d e := by
  unfold setCurrentTerminology at h
  simp only [resetCurrentType, resetCurrentTypeModifier, resetCurrentCategory] at h
  split_ifs at h
  · cases h
    rfl
  · cases h
    rfl
  all_goals
    split at h
    · cases h
    · rename_i e1 he1
      split at h
      · cases h
      · rename_i e2 he2
        split at h
        · cases h
        · rename_i e3 he3
          have h1 : ChangesOnly [Part.terminologyName, Part.category, Part.type,
              Part.typeModifier, Part.categoryRows, Part.typeRows, Part.typeModifierItems]
              _ e1 :=
            changesOnly_mono (changes_populateCategoryTable _ _ _ he1) (by decide)
          have h2 : ChangesOnly [Part.terminologyName, Part.category, Part.type,
              Part.typeModifier, Part.categoryRows, Part.typeRows, Part.typeModifierItems]
              e1 e2 :=
            changesOnly_mono (changes_populateTypeTable _ _ _ he2) (by decide)
          have h3 : ChangesOnly [Part.terminologyName, Part.category, Part.type,
              Part.typeModifier, Part.categoryRows, Part.typeRows, Part.typeModifierItems]
              e2 e3 :=
            changesOnly_mono (changes_populateTypeModifierComboBox _ _ _ he3) (by decide)
          have h0 := changesOnly_trans (changesOnly_trans (changesOnly_trans rfl h1) h2) h3
          split_ifs at h <;> (cases h; exact changesOnly_trans h0 rfl)

/-! ## Finding an item -/

theorem mem_findItems_iff (t : QTableWidget) (text : QString) (i : Nat)
    (item : QTableWidgetItem) :
    (i, item) ∈ t.findItems text ↔ t.rows[i]? = some (some item) ∧ item.text = text := by
  simp only [QTableWidget.findItems, List.mem_filterMap]
  constructor
  · rintro ⟨⟨j, o⟩, hmem, hf⟩
    have hj := List.mk_mem_enum_iff_getElem?.1 hmem
    cases o with
    | none => simp at hf
    | some it =>
      simp only at hf
      split_ifs at hf with ht
      simp only [Option.some.injEq, Prod.mk.injEq] at hf
      obtain ⟨rfl, rfl⟩ := hf
      exact ⟨hj, ht⟩
  · rintro ⟨hrow, ht⟩
    exact ⟨(i, some item), List.mk_mem_enum_iff_getElem?.2 hrow, by simp [ht]⟩

theorem find_matching_row (t : QTableWidget) (name : QString) (q : QTableWidgetItem → Bool) :
    (∀ i, ((t.findItems name).find? fun p => q p.2).map (fun p => p.1) = some i →
      ∃ item, t.rows[i]? = some (some item) ∧ item.text = name ∧ q item = true)
    ∧ ((((t.findItems name).find? fun p => q p.2).map fun p => p.1).isSome = true ↔
      ∃ (i : Nat) (item : QTableWidgetItem), t.rows[i]? = some (some item) ∧ item.text = name ∧ q item = true) := by
  constructor
  · intro i h
    cases hf : (t.findItems name).find? fun p => q p.2 with
    | none => simp [hf] at h
    | some p =>
      simp only [hf, Option.map_some', Option.some.injEq] at h
      have hq := List.find?_some hf
      have hm := (mem_findItems_iff t name p.1 p.2).1 (List.mem_of_find?_eq_some hf)
      subst h
      exact ⟨p.2, hm.1, hm.2, hq⟩
  · rw [Option.isSome_map', List.find?_isSome]
    constructor
    · rintro ⟨⟨i, item⟩, hmem, hq⟩
      have hm := (mem_findItems_iff t name i item).1 hmem
      exact ⟨i, item, hm.1, hm.2, hq⟩
    · rintro ⟨i, item, hrow, ht, hq⟩
      exact ⟨(i, item), (mem_findItems_iff t name i item).2 ⟨hrow, ht⟩, hq⟩

theorem findTableWidgetItemForType_eq (t : QTableWidget) (type : vtkSlicerTerminologyType) :
    findTableWidgetItemForType (some t) (some type)
      = ((t.findItems (fromCStr type.CodeMeaning)).find? fun p =>
          (fun item : QTableWidgetItem =>
            decide (type.CodingScheme = some item.CodingSchemeDesignator)
              && decide (type.CodeValue = some item.CodeValue)) p.2).map fun p => p.1 := by
  unfold findTableWidgetItemForType
  simp only
  congr 2
  funext p
  cases type.CodingScheme <;> cases type.CodeValue <;> simp [eq_comm]

theorem findTableWidgetItemForCategory_eq (d : qSlicerTerminologyNavigatorWidgetPrivate)
    (category : vtkSlicerTerminologyCategory) :
    findTableWidgetItemForCategory d (some category)
      = ((d.tableWidget_Category.findItems (fromCStr category.CodeMeaning)).find? fun p =>
          (fun item : QTableWidgetItem =>
            decide (category.CodingScheme = some item.CodingSchemeDesignator)
              && decide (category.CodeValue = some item.CodeValue)) p.2).map fun p => p.1 := by
  unfold findTableWidgetItemForCategory
  simp only
  congr 2
  funext p
  cases category.CodingScheme <;> cases category.CodeValue <;> simp [eq_comm]

theorem findTableWidgetItemForType_spec (t : QTableWidget) (type : vtkSlicerTerminologyType) :
    (∀ i, findTableWidgetItemForType (some t) (some type) = some i →
      ∃ item, t.rows[i]? = some (some item)
        ∧ ItemMatches item type.CodeMeaning type.CodingScheme type.CodeValue)
    ∧ ((findTableWidgetItemForType (some t) (some type)).isSome = true ↔
      ∃ (i : Nat) (item : QTableWidgetItem), t.rows[i]? = some (some item)
        ∧ ItemMatches item type.CodeMeaning type.CodingScheme type.CodeValue) := by
  rw [findTableWidgetItemForType_eq]
  have h := find_matching_row t (fromCStr type.CodeMeaning) fun item =>
    decide (type.CodingScheme = some item.CodingSchemeDesignator)
      && decide (type.CodeValue = some item.CodeValue)
  simpa [ItemMatches] using h

theorem findTableWidgetItemForCategory_spec (d : qSlicerTerminologyNavigatorWidgetPrivate)
    (category : vtkSlicerTerminologyCategory) :
    (∀ i, findTableWidgetItemForCategory d (some category) = some i →
      ∃ item, d.tableWidget_Category.rows[i]? = some (some item)
        ∧ ItemMatches item category.CodeMeaning category.CodingScheme category.CodeValue)
    ∧ ((findTableWidgetItemForCategory d (some category)).isSome = true ↔
      ∃ (i : Nat) (item : QTableWidgetItem), d.tableWidget_Category.rows[i]? = some (some item)
        ∧ ItemMatches item category.CodeMeaning category.CodingScheme category.CodeValue) := by
  rw [findTableWidgetItemForCategory_eq]
  have h := find_matching_row d.tableWidget_Category (fromCStr category.CodeMeaning) fun item =>
    decide (category.CodingScheme = some item.CodingSchemeDesignator)
      && decide (category.CodeValue = some item.CodeValue)
  simpa [ItemMatches] using h

theorem flag_setCurrentType (logic : Option vtkSlicerTerminologiesModuleLogic)
    (d : qSlicerTerminologyNavigatorWidgetPrivate) (t : vtkSlicerTerminologyType)
    (r : Bool × qSlicerTerminologyNavigatorWidgetPrivate)
    (h : setCurrentType logic d (some t) = some r) :
    r.1 = (findTableWidgetItemForType (some r.2.tableWidget_Type) (some t)).isSome
    ∧ (r.1 = true → r.2.tableWidget_Type.currentRow
        = findTableWidgetItemForType (some r.2.tableWidget_Type) (some t)) := by
  unfold setCurrentType at h
  simp only [resetCurrentTypeModifier, resetCurrentType] at h
  split at h
  · cases h
  · split at h
    · cases h
    · rename_i e1 he1
      split at h
      · rename_i row hrow
        cases h
        exact ⟨rfl, fun _ => hrow.symm⟩
      · rename_i hrow
        cases h
        refine ⟨rfl, fun hx => ?_⟩
        have hx2 : (findTableWidgetItemForType (some e1.tableWidget_Type) (some t)).isSome
            = true := hx
        rw [hrow] at hx2
        cases hx2

theorem flag_setCurrentRegion (logic : Option vtkSlicerTerminologiesModuleLogic)
    (d : qSlicerTerminologyNavigatorWidgetPrivate) (t : vtkSlicerTerminologyType)
    (r : Bool × qSlicerTerminologyNavigatorWidgetPrivate)
    (h : setCurrentRegion logic d (some t) = some r) :
    r.1 = (findTableWidgetItemForType (some r.2.tableWidget_AnatomicRegion) (some t)).isSome
    ∧ (r.1 = true → r.2.tableWidget_AnatomicRegion.currentRow
        = findTableWidgetItemForType (some r.2.tableWidget_AnatomicRegion) (some t)) := by
  unfold setCurrentRegion at h
  simp only [resetCurrentRegionModifier, resetCurrentRegion] at h
  split at h
  · cases h
  · split at h
    · cases h
    · rename_i e1 he1
      split at h
      · rename_i row hrow
        cases h
        exact ⟨rfl, fun _ => hrow.symm⟩
      · rename_i hrow
        cases h
        refine ⟨rfl, fun hx => ?_⟩
        have hx2 : (findTableWidgetItemForType (some e1.tableWidget_AnatomicRegion)
            (some t)).isSome = true := hx
        rw [hrow] at hx2
        cases hx2

theorem flag_setCurrentCategory (logic : Option vtkSlicerTerminologiesModuleLogic)
    (d : qSlicerTerminologyNavigatorWidgetPrivate) (c : vtkSlicerTerminologyCategory)
    (r : Bool × qSlicerTerminologyNavigatorWidgetPrivate)
    (h : setCurrentCategory logic d (some c) = some r) :
    r.1 = (findTableWidgetItemForCategory r.2 (some c)).isSome
    ∧ (r.1 = true → r.2.tableWidget_Category.currentRow
        = findTableWidgetItemForCategory r.2 (some c)) := by
  unfold setCurrentCategory at h
  simp only [resetCurrentType, resetCurrentTypeModifier, resetCurrentRegion,
    resetCurrentRegionModifier, resetCurrentCategory] at h
  split at h
  · cases h
  · split at h
    · cases h
    · rename_i e1 he1
      split at h
      · cases h
      · rename_i e2 he2
        split at h
        · cases h
        · rename_i e3 he3
          split_ifs at h
          all_goals
            split at h
            · cases h
            · split at h
              · rename_i row hrow
                cases h
                exact ⟨rfl, fun _ => hrow.symm⟩
              · rename_i hrow
                cases h
                refine ⟨rfl, fun hx => ?_⟩
                revert hx
                rw [hrow]
                intro hx
                cases hx

theorem changesOnly_categoryRows {ps : List Part}
    {d e : qSlicerTerminologyNavigatorWidgetPrivate} (h : ChangesOnly ps d e)
    (hp : Part.categoryRows ∉ ps) :
    e.tableWidget_Category.rows = d.tableWidget_Category.rows := by
  simpa [NavigatorView.erase, hp, view] using congrArg NavigatorView.categoryRows h

theorem changesOnly_typeRows {ps : List Part}
    {d e : qSlicerTerminologyNavigatorWidgetPrivate} (h : ChangesOnly ps d e)
    (hp : Part.typeRows ∉ ps) :
    e.tableWidget_Type.rows = d.tableWidget_Type.rows := by
  simpa [NavigatorView.erase, hp, view] using congrArg NavigatorView.typeRows h

theorem changesOnly_regionRows {ps : List Part}
    {d e : qSlicerTerminologyNavigatorWidgetPrivate} (h : ChangesOnly ps d e)
    (hp : Part.regionRows ∉ ps) :
    e.tableWidget_AnatomicRegion.rows = d.tableWidget_AnatomicRegion.rows := by
  simpa [NavigatorView.erase, hp, view] using congrArg NavigatorView.regionRows h

/-- C17: with the current object of the level allocated, `setCurrentCategory(c)`,
`setCurrentType(t)` and `setCurrentRegion(r)` for a non-null argument return a value, leave the
rows of the table of their level as they were, and return true exactly when some row of that
table holds an item whose text is the code meaning of the argument, whose stored coding-scheme
designator is its coding scheme and whose stored code value is its code value; when they return
true the current row of the table holds such an item. For a null argument they return false and
the current object of the level is a fresh empty object. -/
theorem setCurrent_returns_found (logic : Option vtkSlicerTerminologiesModuleLogic)
    (d : qSlicerTerminologyNavigatorWidgetPrivate) :
    (∀ c : vtkSlicerTerminologyCategory, d.CurrentCategoryObject.isSome = true →
      ∃ r, setCurrentCategory logic d (some c) = some r
        ∧ r.2.tableWidget_Category.rows = d.tableWidget_Category.rows
        ∧ (r.1 = true ↔ ∃ (i : Nat) (item : QTableWidgetItem),
            d.tableWidget_Category.rows[i]? = some (some item)
              ∧ ItemMatches item c.CodeMeaning c.CodingScheme c.CodeValue)
        ∧ (r.1 = true → ∃ (i : Nat) (item : QTableWidgetItem),
            r.2.tableWidget_Category.currentRow = some i
              ∧ d.tableWidget_Category.rows[i]? = some (some item)
              ∧ ItemMatches item c.CodeMeaning c.CodingScheme c.CodeValue))
    ∧ (∀ t : vtkSlicerTerminologyType, d.CurrentTypeObject.isSome = true →
      ∃ r, setCurrentType logic d (some t) = some r
        ∧ r.2.tableWidget_Type.rows = d.tableWidget_Type.rows
        ∧ (r.1 = true ↔ ∃ (i : Nat) (item : QTableWidgetItem),
            d.tableWidget_Type.rows[i]? = some (some item)
              ∧ ItemMatches item t.CodeMeaning t.CodingScheme t.CodeValue)
        ∧ (r.1 = true → ∃ (i : Nat) (item : QTableWidgetItem),
            r.2.tableWidget_Type.currentRow = some i
              ∧ d.tableWidget_Type.rows[i]? = some (some item)
              ∧ ItemMatches item t.CodeMeaning t.CodingScheme t.CodeValue))
    ∧ (∀ t : vtkSlicerTerminologyType, d.CurrentRegionObject.isSome = true →
      ∃ r, setCurrentRegion logic d (some t) = some r
        ∧ r.2.tableWidget_AnatomicRegion.rows = d.tableWidget_AnatomicRegion.rows
        ∧ (r.1 = true ↔ ∃ (i : Nat) (item : QTableWidgetItem),
            d.tableWidget_AnatomicRegion.rows[i]? = some (some item)
              ∧ ItemMatches item t.CodeMeaning t.CodingScheme t.CodeValue)
        ∧ (r.1 = true → ∃ (i : Nat) (item : QTableWidgetItem),
            r.2.tableWidget_AnatomicRegion.currentRow = some i
              ∧ d.tableWidget_AnatomicRegion.rows[i]? = some (some item)
              ∧ ItemMatches item t.CodeMeaning t.CodingScheme t.CodeValue))
    ∧ (∃ e, setCurrentCategory logic d none = some (false, e)
        ∧ e.CurrentCategoryObject = some {})
    ∧ (∃ e, setCurrentType logic d none = some (false, e) ∧ e.CurrentTypeObject = some {})
    ∧ (∃ e, setCurrentRegion logic d none = some (false, e)
        ∧ e.CurrentRegionObject = some {}) := by
  refine ⟨?_, ?_, ?_, ⟨_, rfl, rfl⟩, ⟨_, rfl, rfl⟩, ⟨_, rfl, rfl⟩⟩
  · intro c hc
    obtain ⟨r, hr, -⟩ := setCurrentCategory_cascade logic d hc c
    have hrows := changesOnly_categoryRows (changes_setCurrentCategory _ _ _ _ hr) (by decide)
    obtain ⟨hflag, hcur⟩ := flag_setCurrentCategory _ _ _ _ hr
    obtain ⟨hrow, hiff⟩ := findTableWidgetItemForCategory_spec r.2 c
    rw [hrows] at hrow hiff
    refine ⟨r, hr, hrows, ?_, ?_⟩
    · rw [hflag]
      exact hiff
    · intro ht
      cases hfind : findTableWidgetItemForCategory r.2 (some c) with
      | none => rw [hflag, hfind] at ht; cases ht
      | some i =>
        obtain ⟨item, h1, h2⟩ := hrow i hfind
        exact ⟨i, item, (hcur ht).trans hfind, h1, h2⟩
  · intro t ht0
    obtain ⟨r, hr, -⟩ := setCurrentType_cascade logic d ht0 t
    have hrows := changesOnly_typeRows (changes_setCurrentType _ _ _ _ hr) (by decide)
    obtain ⟨hflag, hcur⟩ := flag_setCurrentType _ _ _ _ hr
    obtain ⟨hrow, hiff⟩ := findTableWidgetItemForType_spec r.2.tableWidget_Type t
    rw [hrows] at hrow hiff
    refine ⟨r, hr, hrows, ?_, ?_⟩
    · rw [hflag]
      exact hiff
    · intro ht
      cases hfind : findTableWidgetItemForType (some r.2.tableWidget_Type) (some t) with
      | none => rw [hflag, hfind] at ht; cases ht
      | some i =>
        obtain ⟨item, h1, h2⟩ := hrow i hfind
        exact ⟨i, item, (hcur ht).trans hfind, h1, h2⟩
  · intro t ht0
    obtain ⟨r, hr, -⟩ := setCurrentRegion_cascade logic d ht0 t
    have hrows := changesOnly_regionRows (changes_setCurrentRegion _ _ _ _ hr) (by decide)
    obtain ⟨hflag, hcur⟩ := flag_setCurrentRegion _ _ _ _ hr
    obtain ⟨hrow, hiff⟩ := findTableWidgetItemForType_spec r.2.tableWidget_AnatomicRegion t
    rw [hrows] at hrow hiff
    refine ⟨r, hr, hrows, ?_, ?_⟩
    · rw [hflag]
      exact hiff
    · intro ht
      cases hfind : findTableWidgetItemForType (some r.2.tableWidget_AnatomicRegion) (some t) with
      | none => rw [hflag, hfind] at ht; cases ht
      | some i =>
        obtain ⟨item, h1, h2⟩ := hrow i hfind
        exact ⟨i, item, (hcur ht).trans hfind, h1, h2⟩

/-- The statement C17 for `setCurrentType` at a navigator whose type table holds the item of the
heart type. -/
theorem setCurrent_returns_found_witness :
    heartTableState.CurrentTypeObject.isSome = true
    ∧ ∃ r, setCurrentType none heartTableState (some heartType) = some r
        ∧ r.2.tableWidget_Type.rows = heartTableState.tableWidget_Type.rows
        ∧ (r.1 = true ↔ ∃ (i : Nat) (item : QTableWidgetItem),
            heartTableState.tableWidget_Type.rows[i]? = some (some item)
              ∧ ItemMatches item heartType.CodeMeaning heartType.CodingScheme
                  heartType.CodeValue)
        ∧ (r.1 = true → ∃ (i : Nat) (item : QTableWidgetItem),
            r.2.tableWidget_Type.currentRow = some i
              ∧ heartTableState.tableWidget_Type.rows[i]? = some (some item)
              ∧ ItemMatches item heartType.CodeMeaning heartType.CodingScheme
                  heartType.CodeValue) :=
  ⟨rfl, (setCurrent_returns_found none heartTableState).2.1 heartType rfl⟩

/-! ## Allocation of the current objects -/

theorem present_of_selection {d e : qSlicerTerminologyNavigatorWidgetPrivate}
    (h : selection e = selection d) (hp : Present d) : Present e := by
  simp only [selection, Prod.mk.injEq] at h
  obtain ⟨-, h2, h3, h4, -, h6, h7⟩ := h
  obtain ⟨p1, p2, p3, p4, p5⟩ := hp
  exact ⟨h2 ▸ p1, h3 ▸ p2, h4 ▸ p3, h6 ▸ p4, h7 ▸ p5⟩

theorem present_of_typeModifierFrame {d e : qSlicerTerminologyNavigatorWidgetPrivate}
    (h : TypeModifierFrame d e) (hp : Present d) : Present e := by
  obtain ⟨-, h2, h3, -, h6, h7, h4⟩ := h
  obtain ⟨p1, p2, -, p4, p5⟩ := hp
  exact ⟨h2 ▸ p1, h3 ▸ p2, h4, h6 ▸ p4, h7 ▸ p5⟩

theorem present_of_regionModifierFrame {d e : qSlicerTerminologyNavigatorWidgetPrivate}
    (h : RegionModifierFrame d e) (hp : Present d) : Present e := by
  obtain ⟨-, h2, h3, h4, -, h6, h7⟩ := h
  obtain ⟨p1, p2, p3, p4, -⟩ := hp
  exact ⟨h2 ▸ p1, h3 ▸ p2, h4 ▸ p3, h6 ▸ p4, h7⟩

theorem present_setCurrentTypeModifier (d : qSlicerTerminologyNavigatorWidgetPrivate)
    (hp : Present d) (m : vtkSlicerTerminologyType) :
    ∃ r, setCurrentTypeModifier d (some m) = some r ∧ Present r.2 := by
  obtain ⟨r, hr, hf, -⟩ := setCurrentTypeModifier_frame d m hp.2.2.1
  exact ⟨r, hr, present_of_typeModifierFrame hf hp⟩

theorem present_setCurrentRegionModifier (d : qSlicerTerminologyNavigatorWidgetPrivate)
    (hp : Present d) (m : vtkSlicerTerminologyType) :
    ∃ r, setCurrentRegionModifier d (some m) = some r ∧ Present r.2 := by
  obtain ⟨r, hr, hf, -⟩ := setCurrentRegionModifier_frame d m hp.2.2.2.2
  exact ⟨r, hr, present_of_regionModifierFrame hf hp⟩

theorem present_setCurrentType (logic : Option vtkSlicerTerminologiesModuleLogic)
    (d : qSlicerTerminologyNavigatorWidgetPrivate) (hp : Present d)
    (t : vtkSlicerTerminologyType) :
    ∃ r, setCurrentType logic d (some t) = some r ∧ Present r.2 := by
  obtain ⟨t0, ht0⟩ := Option.isSome_iff_exists.1 hp.2.1
  unfold setCurrentType
  simp only [resetCurrentTypeModifier, ht0]
  obtain ⟨e1, he1, hf1⟩ := populateTypeModifierComboBox_frame logic
    { d with CurrentTypeModifierObject := some {}, CurrentTypeObject := some t } rfl
  have hp1 : Present e1 := present_of_typeModifierFrame hf1 ⟨hp.1, rfl, rfl, hp.2.2.2⟩
  simp only [he1]
  refine ⟨_, rfl, ?_⟩
  split <;> exact hp1

theorem present_setCurrentRegion (logic : Option vtkSlicerTerminologiesModuleLogic)
    (d : qSlicerTerminologyNavigatorWidgetPrivate) (hp : Present d)
    (t : vtkSlicerTerminologyType) :
    ∃ r, setCurrentRegion logic d (some t) = some r ∧ Present r.2 := by
  obtain ⟨t0, ht0⟩ := Option.isSome_iff_exists.1 hp.2.2.2.1
  unfold setCurrentRegion
  simp only [resetCurrentRegionModifier, ht0]
  obtain ⟨e1, he1, hf1⟩ := populateRegionModifierComboBox_frame logic
    { d with CurrentRegionModifierObject := some {}, CurrentRegionObject := some t } rfl
  have hp1 : Present e1 :=
    present_of_regionModifierFrame hf1 ⟨hp.1, hp.2.1, hp.2.2.1, rfl, rfl⟩
  simp only [he1]
  refine ⟨_, rfl, ?_⟩
  split <;> exact hp1

theorem present_setCurrentAnatomicContext (logic : Option vtkSlicerTerminologiesModuleLogic)
    (d : qSlicerTerminologyNavigatorWidgetPrivate) (hp : Present d) (n : QString) :
    ∃ e, setCurrentAnatomicContext logic d n = some e ∧ Present e := by
  unfold setCurrentAnatomicContext
  simp only [resetCurrentRegion, resetCurrentRegionModifier]
  have hp0 : Present
      { d with CurrentRegionObject := some {}, CurrentRegionModifierObject := some {},
               CurrentAnatomicContextName := n } :=
    ⟨hp.1, hp.2.1, hp.2.2.1, rfl, rfl⟩
  split_ifs with h1
  · exact ⟨_, rfl, hp0⟩
  · obtain ⟨e1, he1, hs1⟩ := populateRegionTable_selection logic _ hp0.2.2.2.1
    have hp1 := present_of_selection hs1 hp0
    obtain ⟨e2, he2, hf2⟩ := populateRegionModifierComboBox_frame logic e1 hp1.2.2.2.2
    have hp2 := present_of_regionModifierFrame hf2 hp1
    obtain ⟨c, hc⟩ := Option.isSome_iff_exists.1 hp2.1
    simp only [he1, he2, hc]
    split_ifs <;> first | exact ⟨_, rfl, hp2⟩ | exact ⟨_, rfl, rfl, hp2.2⟩

theorem present_setCurrentCategory (logic : Option vtkSlicerTerminologiesModuleLogic)
    (d : qSlicerTerminologyNavigatorWidgetPrivate) (hp : Present d)
    (c : vtkSlicerTerminologyCategory) :
    ∃ r, setCurrentCategory logic d (some c) = some r ∧ Present r.2 := by
  obtain ⟨c0, hc0⟩ := Option.isSome_iff_exists.1 hp.1
  unfold setCurrentCategory
  simp only [resetCurrentType, resetCurrentTypeModifier, resetCurrentRegion,
    resetCurrentRegionModifier, hc0]
  have hp0 : Present
      { d with CurrentTypeObject := some {}, CurrentTypeModifierObject := some {},
               CurrentRegionObject := some {}, CurrentRegionModifierObject := some {},
               CurrentCategoryObject := some c } := ⟨rfl, rfl, rfl, rfl, rfl⟩
  obtain ⟨e1, he1, hs1⟩ := populateTypeTable_selection logic _ hp0.2.1
  have hp1 := present_of_selection hs1 hp0
  obtain ⟨e2, he2, hf2⟩ := populateTypeModifierComboBox_frame logic e1 hp1.2.2.1
  have hp2 := present_of_typeModifierFrame hf2 hp1
  obtain ⟨e3, he3, hf3⟩ := populateRegionModifierComboBox_frame logic
    { e2 with tableWidget_AnatomicRegion := e2.tableWidget_AnatomicRegion.setCurrentItem none }
    hp2.2.2.2.2
  have hp3 : Present e3 := present_of_regionModifierFrame hf3 hp2
  obtain ⟨c3, hc3⟩ := Option.isSome_iff_exists.1 hp3.1
  simp only [he1, he2, he3]
  split_ifs
  all_goals
    simp only [hc3]
    refine ⟨_, rfl, ?_⟩
    split <;> first | exact hp3 | exact ⟨rfl, hp3.2⟩

theorem present_setCurrentTerminology (logic : Option vtkSlicerTerminologiesModuleLogic)
    (d : qSlicerTerminologyNavigatorWidgetPrivate) (hp : Present d) (n : QString) :
    ∃ e, setCurrentTerminology logic d n = some e ∧ Present e := by
  unfold setCurrentTerminology
  simp only [resetCurrentCategory, resetCurrentType, resetCurrentTypeModifier]
  have hp0 : Present
      { d with CurrentCategoryObject := some {}, CurrentTypeObject := some {},
               CurrentTypeModifierObject := some {}, CurrentTerminologyName := n } :=
    ⟨rfl, rfl, rfl, hp.2.2.2⟩
  split_ifs with h0 h1
  · exact ⟨_, rfl, hp⟩
  · exact ⟨_, rfl, hp0⟩
  · obtain ⟨e1, he1, hs1⟩ := populateCategoryTable_selection logic _ hp0.1
    have hp1 := present_of_selection hs1 hp0
    obtain ⟨e2, he2, hs2⟩ := populateTypeTable_selection logic e1 hp1.2.1
    have hp2 := present_of_selection hs2 hp1
    obtain ⟨e3, he3, hf3⟩ := populateTypeModifierComboBox_frame logic e2 hp2.2.2.1
    have hp3 := present_of_typeModifierFrame hf3 hp2
    simp only [he1, he2, he3]
    refine ⟨_, rfl, ?_⟩
    split_ifs <;> exact hp3

/-! ## Selecting a whole entry -/

theorem changesOnly_terminologyItems {ps : List Part}
    {d e : qSlicerTerminologyNavigatorWidgetPrivate} (h : ChangesOnly ps d e)
    (hp : Part.terminologyItems ∉ ps) :
    e.ComboBox_Terminology.items = d.ComboBox_Terminology.items := by
  simpa [NavigatorView.erase, hp, view] using congrArg NavigatorView.terminologyItems h

theorem changesOnly_typeModifierItems {ps : List Part}
    {d e : qSlicerTerminologyNavigatorWidgetPrivate} (h : ChangesOnly ps d e)
    (hp : Part.typeModifierItems ∉ ps) :
    e.ComboBox_TypeModifier.items = d.ComboBox_TypeModifier.items := by
  simpa [NavigatorView.erase, hp, view] using congrArg NavigatorView.typeModifierItems h

theorem changesOnly_contextItems {ps : List Part}
    {d e : qSlicerTerminologyNavigatorWidgetPrivate} (h : ChangesOnly ps d e)
    (hp : Part.contextItems ∉ ps) :
    e.ComboBox_AnatomicContext.items = d.ComboBox_AnatomicContext.items := by
  simpa [NavigatorView.erase, hp, view] using congrArg NavigatorView.contextItems h

theorem changesOnly_regionModifierItems {ps : List Part}
    {d e : qSlicerTerminologyNavigatorWidgetPrivate} (h : ChangesOnly ps d e)
    (hp : Part.regionModifierItems ∉ ps) :
    e.ComboBox_AnatomicRegionModifier.items = d.ComboBox_AnatomicRegionModifier.items := by
  simpa [NavigatorView.erase, hp, view] using congrArg NavigatorView.regionModifierItems h

theorem changesOnly_contextName {ps : List Part}
    {d e : qSlicerTerminologyNavigatorWidgetPrivate} (h : ChangesOnly ps d e)
    (hp : Part.contextName ∉ ps) :
    e.CurrentAnatomicContextName = d.CurrentAnatomicContextName := by
  simpa [NavigatorView.erase, hp, view] using congrArg NavigatorView.contextName h

theorem changesOnly_region {ps : List Part}
    {d e : qSlicerTerminologyNavigatorWidgetPrivate} (h : ChangesOnly ps d e)
    (hp : Part.region ∉ ps) : e.CurrentRegionObject = d.CurrentRegionObject := by
  simpa [NavigatorView.erase, hp, view] using congrArg NavigatorView.region h

theorem changesOnly_regionModifier {ps : List Part}
    {d e : qSlicerTerminologyNavigatorWidgetPrivate} (h : ChangesOnly ps d e)
    (hp : Part.regionModifier ∉ ps) :
    e.CurrentRegionModifierObject = d.CurrentRegionModifierObject := by
  simpa [NavigatorView.erase, hp, view] using congrArg NavigatorView.regionModifier h

theorem findText_congr {a b : QComboBox} (h : a.items = b.items) (text : QString) :
    a.findText text = b.findText text := by
  simp only [QComboBox.findText, h]

theorem findTableWidgetItemForType_congr {a b : QTableWidget} (h : a.rows = b.rows)
    (type : Option vtkSlicerTerminologyType) :
    findTableWidgetItemForType (some a) type = findTableWidgetItemForType (some b) type := by
  cases type with
  | none => rfl
  | some t => simp only [findTableWidgetItemForType, QTableWidget.findItems, h]

theorem findTableWidgetItemForCategory_congr {d e : qSlicerTerminologyNavigatorWidgetPrivate}
    (h : e.tableWidget_Category.rows = d.tableWidget_Category.rows)
    (category : Option vtkSlicerTerminologyCategory) :
    findTableWidgetItemForCategory e category = findTableWidgetItemForCategory d category := by
  cases category with
  | none => rfl
  | some c => simp only [findTableWidgetItemForCategory, QTableWidget.findItems, h]

theorem findComboBoxIndexForModifier_congr {a b : QComboBox} (h : a.items = b.items)
    (modifier : Option vtkSlicerTerminologyType) :
    findComboBoxIndexForModifier (some a) modifier
      = findComboBoxIndexForModifier (some b) modifier := by
  cases modifier with
  | none => rfl
  | some m => simp only [findComboBoxIndexForModifier, QComboBox.findText, h]

theorem typeComponentsFound_congr {d e : qSlicerTerminologyNavigatorWidgetPrivate}
    (h1 : e.tableWidget_Type.rows = d.tableWidget_Type.rows)
    (h2 : e.ComboBox_TypeModifier.items = d.ComboBox_TypeModifier.items)
    (entry : vtkSlicerTerminologyEntry) :
    typeComponentsFound e entry = typeComponentsFound d entry := by
  simp only [typeComponentsFound, findTableWidgetItemForType_congr h1,
    findComboBoxIndexForModifier_congr h2]

theorem contextComponentFound_congr {d e : qSlicerTerminologyNavigatorWidgetPrivate}
    (h : e.ComboBox_AnatomicContext.items = d.ComboBox_AnatomicContext.items)
    (entry : vtkSlicerTerminologyEntry) :
    contextComponentFound e entry = contextComponentFound d entry := by
  simp only [contextComponentFound, findText_congr h]

theorem regionComponentsFound_congr {d e : qSlicerTerminologyNavigatorWidgetPrivate}
    (h1 : e.tableWidget_AnatomicRegion.rows = d.tableWidget_AnatomicRegion.rows)
    (h2 : e.ComboBox_AnatomicRegionModifier.items = d.ComboBox_AnatomicRegionModifier.items)
    (entry : vtkSlicerTerminologyEntry) :
    regionComponentsFound e entry = regionComponentsFound d entry := by
  simp only [regionComponentsFound, findTableWidgetItemForType_congr h1,
    findComboBoxIndexForModifier_congr h2]

theorem flag_setCurrentTypeModifier (d : qSlicerTerminologyNavigatorWidgetPrivate)
    (m : vtkSlicerTerminologyType) (r : Bool × qSlicerTerminologyNavigatorWidgetPrivate)
    (h : setCurrentTypeModifier d (some m) = some r) :
    r.1 = decide (findComboBoxIndexForModifier (some r.2.ComboBox_TypeModifier) (some m) ≠ -1)
    ∧ r.2.ComboBox_TypeModifier.items = d.ComboBox_TypeModifier.items := by
  unfold setCurrentTypeModifier at h
  simp only at h
  split at h
  · cases h
  · cases h
    split_ifs <;> exact ⟨rfl, rfl⟩

theorem flag_setCurrentRegionModifier (d : qSlicerTerminologyNavigatorWidgetPrivate)
    (m : vtkSlicerTerminologyType) (r : Bool × qSlicerTerminologyNavigatorWidgetPrivate)
    (h : setCurrentRegionModifier d (some m) = some r) :
    r.1 = decide (findComboBoxIndexForModifier (some r.2.ComboBox_AnatomicRegionModifier)
        (some m) ≠ -1)
    ∧ r.2.ComboBox_AnatomicRegionModifier.items = d.ComboBox_AnatomicRegionModifier.items := by
  unfold setCurrentRegionModifier at h
  simp only at h
  split at h
  · cases h
  · cases h
    split_ifs <;> exact ⟨rfl, rfl⟩

theorem stage_selectTerminology (logic : Option vtkSlicerTerminologiesModuleLogic)
    (d : qSlicerTerminologyNavigatorWidgetPrivate) (hp : Present d) (terminologyIndex : Int) :
    ∃ e, selectTerminologyOfEntry logic d terminologyIndex = some e ∧ Present e
      ∧ ChangesOnly [Part.terminologyName, Part.category, Part.type, Part.typeModifier,
          Part.categoryRows, Part.typeRows, Part.typeModifierItems] d e := by
  unfold selectTerminologyOfEntry
  simp only
  split_ifs with h
  · obtain ⟨e1, he1, hp1⟩ := present_setCurrentTerminology logic d hp
      (d.ComboBox_Terminology.itemText terminologyIndex)
    simp only [he1]
    exact ⟨_, rfl, hp1, changesOnly_trans (changes_setCurrentTerminology _ _ _ _ he1) rfl⟩
  · exact ⟨_, rfl, hp, rfl⟩

theorem stage_selectType (logic : Option vtkSlicerTerminologiesModuleLogic)
    (d : qSlicerTerminologyNavigatorWidgetPrivate) (hp : Present d)
    (entry : vtkSlicerTerminologyEntry) (returnValue : Bool) :
    ∃ r, selectTypeOfEntry logic d entry returnValue = some r ∧ Present r.2
      ∧ ChangesOnly [Part.type, Part.typeModifier, Part.typeModifierItems] d r.2
      ∧ r.1 = (returnValue && typeComponentsFound r.2 entry) := by
  unfold selectTypeOfEntry
  cases hty : entry.TypeObject with
  | none =>
    refine ⟨(false, d), ?_, hp, rfl, ?_⟩
    · cases entry.TypeModifierObject <;> rfl
    · simp [typeComponentsFound, hty]
  | some t =>
    obtain ⟨r1, hr1, hp1⟩ := present_setCurrentType logic d hp t
    obtain ⟨f1, -⟩ := flag_setCurrentType _ _ _ _ hr1
    have c1 := changes_setCurrentType _ _ _ _ hr1
    simp only [hr1]
    cases hm : entry.TypeModifierObject with
    | none =>
      refine ⟨_, rfl, hp1, c1, ?_⟩
      simp only [typeComponentsFound, hty, hm, ← f1]
      cases r1.1 <;> cases returnValue <;> rfl
    | some m =>
      by_cases hmod : t.HasModifiers = true
      · obtain ⟨r2, hr2, hp2⟩ := present_setCurrentTypeModifier r1.2 hp1 m
        obtain ⟨f2, -⟩ := flag_setCurrentTypeModifier _ _ _ hr2
        have c2 := changes_setCurrentTypeModifier _ _ _ hr2
        have hrows := changesOnly_typeRows c2 (by decide)
        simp only [hmod, if_true, hr2]
        refine ⟨_, rfl, hp2, changesOnly_trans c1 (changesOnly_mono c2 (by decide)), ?_⟩
        simp only [typeComponentsFound, hty, hm, hmod, findTableWidgetItemForType_congr hrows,
          ← f1, ← f2]
        cases r1.1 <;> cases r2.1 <;> cases returnValue <;> rfl
      · simp only [hmod]
        refine ⟨_, rfl, hp1, c1, ?_⟩
        simp only [typeComponentsFound, hty, hm, hmod, ← f1]
        cases r1.1 <;> cases returnValue <;> rfl

theorem stage_selectRegion (logic : Option vtkSlicerTerminologiesModuleLogic)
    (d : qSlicerTerminologyNavigatorWidgetPrivate) (hp : Present d)
    (entry : vtkSlicerTerminologyEntry) (returnValue : Bool) :
    ∃ r, selectRegionOfEntry logic d entry returnValue = some r ∧ Present r.2
      ∧ ChangesOnly [Part.region, Part.regionModifier, Part.regionModifierItems] d r.2
      ∧ r.1 = (returnValue && regionComponentsFound r.2 entry) := by
  unfold selectRegionOfEntry
  cases hty : entry.AnatomicRegionObject with
  | none =>
    refine ⟨(returnValue, d), rfl, hp, rfl, ?_⟩
    simp [regionComponentsFound, hty]
  | some t =>
    obtain ⟨r1, hr1, hp1⟩ := present_setCurrentRegion logic d hp t
    obtain ⟨f1, -⟩ := flag_setCurrentRegion _ _ _ _ hr1
    have c1 := changes_setCurrentRegion _ _ _ _ hr1
    simp only [hr1]
    cases hm : entry.AnatomicRegionModifierObject with
    | none =>
      refine ⟨_, rfl, hp1, c1, ?_⟩
      simp only [regionComponentsFound, hty, hm, ← f1]
      cases r1.1 <;> cases returnValue <;> rfl
    | some m =>
      by_cases hmod : t.HasModifiers = true
      · obtain ⟨r2, hr2, hp2⟩ := present_setCurrentRegionModifier r1.2 hp1 m
        obtain ⟨f2, -⟩ := flag_setCurrentRegionModifier _ _ _ hr2
        have c2 := changes_setCurrentRegionModifier _ _ _ hr2
        have hrows := changesOnly_regionRows c2 (by decide)
        simp only [hmod, if_true, hr2]
        refine ⟨_, rfl, hp2, changesOnly_trans c1 (changesOnly_mono c2 (by decide)), ?_⟩
        simp only [regionComponentsFound, hty, hm, hmod,
          findTableWidgetItemForType_congr hrows, ← f1, ← f2]
        cases r1.1 <;> cases r2.1 <;> cases returnValue <;> rfl
      · simp only [hmod]
        refine ⟨_, rfl, hp1, c1, ?_⟩
        simp only [regionComponentsFound, hty, hm, hmod, ← f1]
        cases r1.1 <;> cases returnValue <;> rfl

theorem stage_selectAnatomicContext (logic : Option vtkSlicerTerminologiesModuleLogic)
    (d : qSlicerTerminologyNavigatorWidgetPrivate) (hp : Present d)
    (entry : vtkSlicerTerminologyEntry) (returnValue : Bool) :
    ∃ r, selectAnatomicContextOfEntry logic d entry returnValue = some r ∧ Present r.2
      ∧ ChangesOnly [Part.contextName, Part.region, Part.regionModifier, Part.regionRows,
          Part.regionModifierItems] d r.2
      ∧ r.1 = (returnValue && contextComponentFound r.2 entry) := by
  unfold selectAnatomicContextOfEntry
  cases hn : entry.AnatomicContextName with
  | none =>
    refine ⟨(returnValue, d), rfl, hp, rfl, ?_⟩
    simp [contextComponentFound, hn]
  | some name =>
    simp only
    split_ifs with h1 h2 h2
    · obtain ⟨e1, he1, hp1⟩ := present_setCurrentAnatomicContext logic d hp
        (d.ComboBox_AnatomicContext.itemText (d.ComboBox_AnatomicContext.findText name))
      have c1 := changes_setCurrentAnatomicContext _ _ _ _ he1
      have hitems := changesOnly_contextItems c1 (by decide)
      simp only [he1]
      refine ⟨_, rfl, hp1, changesOnly_trans c1 rfl, ?_⟩
      have hfind : e1.ComboBox_AnatomicContext.findText name
          = d.ComboBox_AnatomicContext.findText name := findText_congr hitems name
      simp only [contextComponentFound, hn]
      show _ = (returnValue && decide (e1.ComboBox_AnatomicContext.findText name ≠ -1))
      rw [hfind]
      simp [h2]
    · obtain ⟨e1, he1, hp1⟩ := present_setCurrentAnatomicContext logic d hp
        (d.ComboBox_AnatomicContext.itemText (d.ComboBox_AnatomicContext.findText name))
      have c1 := changes_setCurrentAnatomicContext _ _ _ _ he1
      have hitems := changesOnly_contextItems c1 (by decide)
      simp only [he1]
      refine ⟨_, rfl, hp1, changesOnly_trans c1 rfl, ?_⟩
      have hfind : e1.ComboBox_AnatomicContext.findText name
          = d.ComboBox_AnatomicContext.findText name := findText_congr hitems name
      simp only [contextComponentFound, hn]
      show _ = (returnValue && decide (e1.ComboBox_AnatomicContext.findText name ≠ -1))
      rw [hfind]
      simp [h2]
    · refine ⟨_, rfl, hp, rfl, ?_⟩
      simp only [contextComponentFound, hn]
      show _ = (returnValue && decide (d.ComboBox_AnatomicContext.findText name ≠ -1))
      simp [h2]
    · refine ⟨_, rfl, hp, rfl, ?_⟩
      simp only [contextComponentFound, hn]
      show _ = (returnValue && decide (d.ComboBox_AnatomicContext.findText name ≠ -1))
      simp [h2]

theorem colour_step (d : qSlicerTerminologyNavigatorWidgetPrivate) :
    ∃ e, (if (!d.CustomColor.isValid) = true then setRecommendedColorFromCurrentTerminology d
        else d) = e ∧ view e = view d := by
  split_ifs
  · exact ⟨_, rfl, view_setRecommendedColor d⟩
  · exact ⟨_, rfl, rfl⟩

theorem setTerminologyEntry_flag
    (logic : Option vtkSlicerTerminologiesModuleLogic)
    (d : qSlicerTerminologyNavigatorWidgetPrivate) (entry : Option vtkSlicerTerminologyEntry)
    (hp : Present d) :
    ∃ r, setTerminologyEntry logic d entry = some r
      ∧ r.1 = entryComponentsFound r.2 entry := by
  unfold setTerminologyEntry
  cases entry with
  | none => exact ⟨(false, d), rfl, rfl⟩
  | some en =>
    simp only
    cases hn : en.TerminologyContextName with
    | none => exact ⟨(false, d), rfl, by simp [entryComponentsFound, hn]⟩
    | some name =>
      simp only
      by_cases hidx : d.ComboBox_Terminology.findText name = -1
      · simp only [hidx, if_true]
        refine ⟨_, rfl, ?_⟩
        cases hc : en.CategoryObject <;> simp [entryComponentsFound, hn, hc, hidx]
      · simp only [hidx, if_false]
        obtain ⟨e1, he1, hp1, c1⟩ := stage_selectTerminology logic d hp
          (d.ComboBox_Terminology.findText name)
        simp only [he1]
        cases hc : en.CategoryObject with
        | none => exact ⟨_, rfl, by simp [entryComponentsFound, hn, hc]⟩
        | some c =>
          obtain ⟨r1, hr1, hq1⟩ := present_setCurrentCategory logic e1 hp1 c
          obtain ⟨f1, -⟩ := flag_setCurrentCategory _ _ _ _ hr1
          have cc1 := changes_setCurrentCategory _ _ _ _ hr1
          simp only [hr1]
          obtain ⟨⟨rv2, e2⟩, hr2, hq2, cc2, f2⟩ := stage_selectType logic r1.2 hq1 en
            (if (!r1.1) = true then false else true)
          simp only at hq2 cc2 f2
          simp only [hr2]
          have hd1 : ChangesOnly selectionParts d r1.2 :=
            changesOnly_trans (changesOnly_mono c1 (by decide))
              (changesOnly_mono cc1 (by decide))
          by_cases hs : c.ShowAnatomy = true
          · simp only [hs, if_true]
            obtain ⟨⟨rv3, e3⟩, hr3, hq3, cc3, f3⟩ :=
              stage_selectAnatomicContext logic e2 hq2 en rv2
            simp only at hq3 cc3 f3
            simp only [hr3]
            obtain ⟨⟨rv4, e4⟩, hr4, hq4, cc4, f4⟩ := stage_selectRegion logic e3 hq3 en rv3
            simp only at hq4 cc4 f4
            simp only [hr4]
            obtain ⟨F, hF, hview⟩ := colour_step e4
            simp only [hF]
            refine ⟨_, rfl, ?_⟩
            have t4 : ChangesOnly anatomicParts e4 F := changesOnly_of_view _ hview
            have t3 : ChangesOnly anatomicParts e3 F :=
              changesOnly_trans (changesOnly_mono cc4 (by decide)) t4
            have t2 : ChangesOnly anatomicParts e2 F :=
              changesOnly_trans (changesOnly_mono cc3 (by decide)) t3
            have t1 : ChangesOnly belowCategoryParts r1.2 F :=
              changesOnly_trans (changesOnly_mono cc2 (by decide))
                (changesOnly_mono t2 (by decide))
            have t0 : ChangesOnly selectionParts d F :=
              changesOnly_trans hd1 (changesOnly_mono t1 (by decide))
            have k0 := findText_congr (changesOnly_terminologyItems t0 (by decide)) name
            have k1 := findTableWidgetItemForCategory_congr
              (changesOnly_categoryRows t1 (by decide)) (some c)
            have k2 := typeComponentsFound_congr (changesOnly_typeRows t2 (by decide))
              (changesOnly_typeModifierItems t2 (by decide)) en
            have k3 := contextComponentFound_congr
              (changesOnly_contextItems (changesOnly_trans (changesOnly_mono cc4 (by decide)) t4)
                (by decide)) en
            have k4 := regionComponentsFound_congr
              (show F.tableWidget_AnatomicRegion.rows = e4.tableWidget_AnatomicRegion.rows from
                congrArg NavigatorView.regionRows hview)
              (show F.ComboBox_AnatomicRegionModifier.items
                  = e4.ComboBox_AnatomicRegionModifier.items from
                congrArg NavigatorView.regionModifierItems hview) en
            simp only [entryComponentsFound, hn, hc, k0, k1, k2, k3, k4, hs]
            rw [f4, f3, f2, ← f1]
            cases r1.1 <;> simp [hidx, Bool.and_assoc]
          · simp only [hs, Bool.false_eq_true, if_false]
            obtain ⟨F, hF, hview⟩ := colour_step e2
            simp only [hF]
            refine ⟨_, rfl, ?_⟩
            have t2 : ChangesOnly anatomicParts e2 F := changesOnly_of_view _ hview
            have t1 : ChangesOnly belowCategoryParts r1.2 F :=
              changesOnly_trans (changesOnly_mono cc2 (by decide))
                (changesOnly_mono t2 (by decide))
            have t0 : ChangesOnly selectionParts d F :=
              changesOnly_trans hd1 (changesOnly_mono t1 (by decide))
            have k0 := findText_congr (changesOnly_terminologyItems t0 (by decide)) name
            have k1 := findTableWidgetItemForCategory_congr
              (changesOnly_categoryRows t1 (by decide)) (some c)
            have k2 := typeComponentsFound_congr (changesOnly_typeRows t2 (by decide))
              (changesOnly_typeModifierItems t2 (by decide)) en
            simp only [entryComponentsFound, hn, hc, k0, k1, k2, hs]
            rw [f2, ← f1]
            cases r1.1 <;> simp [hidx, Bool.and_assoc]

theorem setTerminologyEntry_ignores_anatomy (logic : Option vtkSlicerTerminologiesModuleLogic)
    (d : qSlicerTerminologyNavigatorWidgetPrivate) (entry : vtkSlicerTerminologyEntry)
    (c : vtkSlicerTerminologyCategory) (hc : entry.CategoryObject = some c)
    (hs : c.ShowAnatomy = false) (a : Option QString)
    (region modifier : Option vtkSlicerTerminologyType) :
    setTerminologyEntry logic d
      (some { entry with AnatomicContextName := a, AnatomicRegionObject := region,
                         AnatomicRegionModifierObject := modifier })
    = setTerminologyEntry logic d (some entry) := by
  unfold setTerminologyEntry
  simp only [hc, hs]
  rfl

/-- Counterexample to C19 as stated: with the lung region and its modifier selected, an entry
whose category has the show-anatomy flag off but which names no terminology makes
`setTerminologyEntry` return at once, the region and its modifier still current; and with the
lenient logic an entry of the sample terminology with such a category leaves the region empty
but a region modifier current: clearing the region-modifier combobox reports the index `-1`,
and the slot selects what the logic finds under the empty identifier. -/
theorem setTerminologyEntry_without_anatomy_counterexample :
    (afterRegionSelection.bind fun d =>
      (setTerminologyEntry (some sampleLogic) d
        (some { kidneyEntry with CategoryObject := some plainCategory,
                                 TerminologyContextName := none })).map fun r =>
        (r.2.CurrentRegionObject, r.2.CurrentRegionModifierObject))
      = some (some lungRegion, some (typeOfId rightId))
    ∧ (afterModifierSelection.bind fun d =>
      (setTerminologyEntry (some lenientLogic) d
        (some { kidneyEntry with CategoryObject := some plainCategory })).map fun r =>
        (r.2.CurrentRegionObject, r.2.CurrentRegionModifierObject))
      = some (some {}, some (typeOfId rightId))
    ∧ plainCategory.ShowAnatomy = false
    ∧ some lungRegion ≠ some ({} : vtkSlicerTerminologyType)
    ∧ some (typeOfId rightId) ≠ some ({} : vtkSlicerTerminologyType) := by
  refine ⟨?_, ?_, ?_, ?_, ?_⟩
  · decide
  · decide
  · decide
  · decide
  · decide

/-- C19 (amended): with the five current objects allocated, for an entry whose category has the
show-anatomy flag off `setTerminologyEntry` returns a value, leaves the current anatomic-context
name as it was, and does the same whatever the anatomic-context name, region and region
modifier of the entry are; when moreover the terminology name of the entry is found in the
terminology combobox, the current region is empty afterwards, and so is the current region
modifier provided the logic finds no modifier under the empty code identifier. -/
theorem setTerminologyEntry_without_anatomy (logic : Option vtkSlicerTerminologiesModuleLogic)
    (d : qSlicerTerminologyNavigatorWidgetPrivate) (entry : vtkSlicerTerminologyEntry)
    (c : vtkSlicerTerminologyCategory) (hp : Present d) (hc : entry.CategoryObject = some c)
    (hs : c.ShowAnatomy = false) :
    ∃ r, setTerminologyEntry logic d (some entry) = some r
      ∧ r.2.CurrentAnatomicContextName = d.CurrentAnatomicContextName
      ∧ (∀ (a : Option QString) (region modifier : Option vtkSlicerTerminologyType),
          setTerminologyEntry logic d
            (some { entry with AnatomicContextName := a, AnatomicRegionObject := region,
                               AnatomicRegionModifierObject := modifier }) = some r)
      ∧ (∀ n, entry.TerminologyContextName = some n →
          d.ComboBox_Terminology.findText n ≠ -1 →
          r.2.CurrentRegionObject = some {}
          ∧ (FindsNoEmptyModifier logic → r.2.CurrentRegionModifierObject = some {})) := by
  suffices hmain : ∃ r, setTerminologyEntry logic d (some entry) = some r
      ∧ r.2.CurrentAnatomicContextName = d.CurrentAnatomicContextName
      ∧ (∀ n, entry.TerminologyContextName = some n →
          d.ComboBox_Terminology.findText n ≠ -1 →
          r.2.CurrentRegionObject = some {}
          ∧ (FindsNoEmptyModifier logic → r.2.CurrentRegionModifierObject = some {})) by
    obtain ⟨r, hr, h1, h2⟩ := hmain
    refine ⟨r, hr, h1, ?_, h2⟩
    intro a region modifier
    rw [setTerminologyEntry_ignores_anatomy logic d entry c hc hs a region modifier, hr]
  unfold setTerminologyEntry
  simp only
  cases hn : entry.TerminologyContextName with
  | none => exact ⟨(false, d), rfl, rfl, fun n h => by cases h⟩
  | some name =>
    simp only
    by_cases hidx : d.ComboBox_Terminology.findText name = -1
    · simp only [hidx, if_true]
      refine ⟨_, rfl, rfl, ?_⟩
      intro n h hfind
      cases h
      exact absurd hidx hfind
    · simp only [hidx, if_false]
      obtain ⟨e1, he1, hp1, c1⟩ := stage_selectTerminology logic d hp
        (d.ComboBox_Terminology.findText name)
      simp only [he1, hc]
      obtain ⟨r1, hr1, -, -, hreg, hmod⟩ := setCurrentCategory_cascade logic e1 hp1.1 c
      obtain ⟨r1b, hr1b, hq1⟩ := present_setCurrentCategory logic e1 hp1 c
      have hsame : r1b = r1 := Option.some.inj (hr1b.symm.trans hr1)
      rw [hsame] at hq1
      have cc1 := changes_setCurrentCategory _ _ _ _ hr1
      simp only [hr1]
      obtain ⟨⟨rv2, e2⟩, hr2, hq2, cc2, -⟩ := stage_selectType logic r1.2 hq1 entry
        (if (!r1.1) = true then false else true)
      simp only at hq2 cc2
      simp only [hr2, hs, Bool.false_eq_true, if_false]
      obtain ⟨F, hF, hview⟩ := colour_step e2
      simp only [hF]
      have t2 : ChangesOnly [Part.type, Part.typeModifier, Part.typeModifierItems] e2 F :=
        changesOnly_of_view _ hview
      have t1 : ChangesOnly [Part.type, Part.typeModifier, Part.typeModifierItems] r1.2 F :=
        changesOnly_trans cc2 t2
      have t0 : ChangesOnly terminologyParts d F :=
        changesOnly_trans
          (changesOnly_trans (changesOnly_mono c1 (by decide)) (changesOnly_mono cc1 (by decide)))
          (changesOnly_mono t1 (by decide))
      refine ⟨_, rfl, changesOnly_contextName t0 (by decide), ?_⟩
      intro n _ _
      refine ⟨?_, fun hq => ?_⟩
      · exact (changesOnly_region t1 (by decide)).trans hreg
      · exact (changesOnly_regionModifier t1 (by decide)).trans (hmod hq).2

/-- The amended statement C19 at a navigator whose terminology combobox holds the terminology
of the entry: the anatomic-context name is unchanged and the region is empty afterwards. -/
theorem setTerminologyEntry_without_anatomy_witness :
    Present namedState
    ∧ ({ kidneyEntry with CategoryObject := some plainCategory }
        : vtkSlicerTerminologyEntry).CategoryObject = some plainCategory
    ∧ plainCategory.ShowAnatomy = false
    ∧ ∃ r, setTerminologyEntry (some sampleLogic) namedState
          (some { kidneyEntry with CategoryObject := some plainCategory }) = some r
      ∧ r.2.CurrentAnatomicContextName = namedState.CurrentAnatomicContextName
      ∧ r.2.CurrentRegionObject = some {} :=
  ⟨⟨rfl, rfl, rfl, rfl, rfl⟩, rfl, rfl,
    (setTerminologyEntry_without_anatomy (some sampleLogic) namedState
      { kidneyEntry with CategoryObject := some plainCategory } plainCategory
      ⟨rfl, rfl, rfl, rfl, rfl⟩ rfl rfl).imp fun _ h =>
        ⟨h.1, h.2.1, (h.2.2.2 "T".toList rfl (by decide)).1⟩⟩

/-! ## What the finders find -/

theorem findText_found (box : QComboBox) (text : QString) :
    decide (box.findText text ≠ -1) = comboHoldsText box text := by
  unfold QComboBox.findText comboHoldsText
  rw [← List.findIdx?_isSome]
  cases (box.items.findIdx? fun item => decide (item.text = text)) with
  | none => rfl
  | some i =>
    have h : (i : Int) ≠ -1 := by omega
    simp [h]

theorem findComboBoxIndexForModifier_found (box : QComboBox)
    (modifier : vtkSlicerTerminologyType) :
    decide (findComboBoxIndexForModifier (some box) (some modifier) ≠ -1)
      = comboHoldsText box (fromCStr modifier.CodeMeaning) :=
  findText_found box (fromCStr modifier.CodeMeaning)

theorem tableHoldsIdentifier_iff (table : QTableWidget) (meaning scheme value : Option QString) :
    tableHoldsIdentifier table meaning scheme value = true ↔
      ∃ (i : Nat) (item : QTableWidgetItem), table.rows[i]? = some (some item)
        ∧ ItemMatches item meaning scheme value := by
  unfold tableHoldsIdentifier
  rw [List.any_eq_true]
  constructor
  · rintro ⟨row, hmem, hrow⟩
    cases row with
    | none => simp at hrow
    | some item =>
      obtain ⟨i, hi⟩ := List.mem_iff_getElem?.1 hmem
      exact ⟨i, item, hi, by simpa [ItemMatches, and_assoc] using hrow⟩
  · rintro ⟨i, item, hi, hm⟩
    exact ⟨some item, List.mem_iff_getElem?.2 ⟨i, hi⟩, by simpa [ItemMatches, and_assoc] using hm⟩

theorem findTableWidgetItemForType_found (table : QTableWidget)
    (type : vtkSlicerTerminologyType) :
    (findTableWidgetItemForType (some table) (some type)).isSome
      = tableHoldsIdentifier table type.CodeMeaning type.CodingScheme type.CodeValue := by
  rw [Bool.eq_iff_iff, (findTableWidgetItemForType_spec table type).2,
    tableHoldsIdentifier_iff]

theorem findTableWidgetItemForCategory_found (d : qSlicerTerminologyNavigatorWidgetPrivate)
    (category : vtkSlicerTerminologyCategory) :
    (findTableWidgetItemForCategory d (some category)).isSome
      = tableHoldsIdentifier d.tableWidget_Category category.CodeMeaning category.CodingScheme
          category.CodeValue := by
  rw [Bool.eq_iff_iff, (findTableWidgetItemForCategory_spec d category).2,
    tableHoldsIdentifier_iff]

theorem entryComponentsFound_eq_present (d : qSlicerTerminologyNavigatorWidgetPrivate)
    (entry : Option vtkSlicerTerminologyEntry) :
    entryComponentsFound d entry = entryComponentsPresent d entry := by
  cases entry with
  | none => rfl
  | some en =>
    simp only [entryComponentsFound, entryComponentsPresent, typeComponentsFound,
      contextComponentFound, regionComponentsFound, findText_found,
      findComboBoxIndexForModifier_found, findTableWidgetItemForType_found,
      findTableWidgetItemForCategory_found]

/-- C14: with the five current objects allocated, `setTerminologyEntry(entry)` returns a value,
and the value is true exactly when, in the widgets as the call leaves them, every component it
was asked to select is there: the entry is not null, its terminology name is an item of the
terminology combobox, its category is present and the category table holds its identifier, its
type is present and the type table holds its identifier, its type modifier (when the type has
modifiers and one is given) is an item of the type-modifier combobox and, when the category
shows anatomy, its anatomic-context name (if given) is an item of the anatomic-context
combobox, the region table holds the identifier of its region (if given) and its region
modifier (if the region has modifiers and one is given) is an item of the region-modifier
combobox. -/
theorem setTerminologyEntry_returns_true_iff
    (logic : Option vtkSlicerTerminologiesModuleLogic)
    (d : qSlicerTerminologyNavigatorWidgetPrivate) (entry : Option vtkSlicerTerminologyEntry)
    (hp : Present d) :
    ∃ r, setTerminologyEntry logic d entry = some r
      ∧ (r.1 = true ↔ entryComponentsPresent r.2 entry = true) := by
  obtain ⟨r, hr, hf⟩ := setTerminologyEntry_flag logic d entry hp
  exact ⟨r, hr, by rw [hf, entryComponentsFound_eq_present]⟩

/-- The statement C14 at a navigator whose terminology combobox holds the terminology of the
entry, with the sample logic. -/
theorem setTerminologyEntry_returns_true_iff_witness :
    Present namedState
    ∧ ∃ r, setTerminologyEntry (some sampleLogic) namedState (some kidneyEntry) = some r
      ∧ (r.1 = true ↔ entryComponentsPresent r.2 (some kidneyEntry) = true) :=
  ⟨⟨rfl, rfl, rfl, rfl, rfl⟩,
    setTerminologyEntry_returns_true_iff (some sampleLogic) namedState (some kidneyEntry)
      ⟨rfl, rfl, rfl, rfl, rfl⟩⟩

theorem setTerminologyEntry_sample_present :
    ((constructedNavigator (some sampleLogic)).bind fun d =>
      (setTerminologyEntry (some sampleLogic) d (some kidneyEntry)).map fun r =>
        (r.1, entryComponentsPresent r.2 (some kidneyEntry)))
    = some (true, true) := by
  decide

/-! ## What the code does where it departs from the specification -/

theorem terminologyEntry_flag (d : qSlicerTerminologyNavigatorWidgetPrivate)
    (entry : vtkSlicerTerminologyEntry) (hp : Present d) :
    (terminologyEntry d (some entry)).1 = !d.CurrentTerminologyName.isEmpty := by
  obtain ⟨c, hc⟩ := Option.isSome_iff_exists.1 hp.1
  obtain ⟨t, ht⟩ := Option.isSome_iff_exists.1 hp.2.1
  unfold terminologyEntry
  simp only [hc, ht]
  split_ifs with h <;> simp [h]

theorem populateRegionTable_rows (L : vtkSlicerTerminologiesModuleLogic)
    (d : qSlicerTerminologyNavigatorWidgetPrivate) (hn : d.CurrentAnatomicContextName ≠ [])
    (hr : d.CurrentRegionObject.isSome = true) :
    ∃ e, populateRegionTable (some L) d = some e
      ∧ e.tableWidget_AnatomicRegion.rows
        = (L.FindRegionsInAnatomicContext (toStdString d.CurrentAnatomicContextName)
            (toStdString d.SearchBox_Type.text)).map fun id => some (tableItemOfId id) := by
  obtain ⟨c, hc⟩ := Option.isSome_iff_exists.1 hr
  unfold populateRegionTable
  have hne : d.CurrentAnatomicContextName.isEmpty = false := by
    cases hd : d.CurrentAnatomicContextName with
    | nil => exact absurd hd hn
    | cons a l => rfl
  simp only [hne, hc, Bool.false_eq_true, if_false]
  have key2 := populateTypeLoop_fresh c
    (L.FindRegionsInAnatomicContext (toStdString d.CurrentAnatomicContextName)
      (toStdString d.SearchBox_Type.text)) d.tableWidget_AnatomicRegion.clearContents none
  split <;> exact ⟨_, rfl, key2⟩

theorem setColor_recommended_stores (d : qSlicerTerminologyNavigatorWidgetPrivate) (c : QColor)
    (hctx : d.CurrentAnatomicContextName ≠ []) (hp : Present d)
    (hrc : recommendedColorFromCurrentTerminology d = some c)
    (hne : d.ColorPickerButton_RecommendedRGB.color ≠ c)
    (hsig : d.ColorPickerButton_RecommendedRGB.signalsBlocked = false) :
    ∃ e, setColor d c = some e ∧ e.CustomColor = c
      ∧ e.ColorPickerButton_RecommendedRGB.color = c := by
  obtain ⟨k, hk⟩ := Option.isSome_iff_exists.1 hp.1
  obtain ⟨t, ht⟩ := Option.isSome_iff_exists.1 hp.2.1
  have hne2 : d.CurrentAnatomicContextName.isEmpty = false := by
    cases hd : d.CurrentAnatomicContextName with
    | nil => exact absurd hd hctx
    | cons a l => rfl
  unfold setColor
  simp only [hne2, hk, ht, hrc, Option.isNone_some, Bool.or_self, Bool.false_eq_true, if_false,
    ne_eq, not_true_eq_false]
  refine ⟨_, rfl, ?_, ?_⟩ <;>
    simp [setPickerColor, ctkColorPickerButton.setColor, hne, hsig, onColorChanged]

/-! ## The two overloads and the delimiter-free case -/

/-- C23: for every entry the entry overload of `serializeTerminologyEntry` returns what the string
overload returns for the texts of the entry (a missing value as the empty text), each triple
passed in the parameter order of the overload (code value, scheme designator, code meaning); and
the string overload writes each triple as scheme designator, caret, code value, caret, code
meaning, the seven components joined by tildes. -/
theorem serialize_overloads_agree :
    (∀ e : vtkSlicerTerminologyEntry,
      serializeTerminologyEntry (some e) = serializeFields (fieldsOfEntry e)
      ∧ serializeFields (fieldsOfEntry e)
        = serializeTerminologyEntryStrings (fromCStr e.TerminologyContextName)
            (categoryValue e.CategoryObject) (categoryScheme e.CategoryObject)
            (categoryMeaning e.CategoryObject)
            (typeValue e.TypeObject) (typeScheme e.TypeObject) (typeMeaning e.TypeObject)
            (typeValue e.TypeModifierObject) (typeScheme e.TypeModifierObject)
            (typeMeaning e.TypeModifierObject)
            (fromCStr e.AnatomicContextName)
            (typeValue e.AnatomicRegionObject) (typeScheme e.AnatomicRegionObject)
            (typeMeaning e.AnatomicRegionObject)
            (typeValue e.AnatomicRegionModifierObject)
            (typeScheme e.AnatomicRegionModifierObject)
            (typeMeaning e.AnatomicRegionModifierObject))
    ∧ (∀ n cv cs cm tv ts tm mv ms mm a rv rs rm qv qs qm : QString,
      serializeTerminologyEntryStrings n cv cs cm tv ts tm mv ms mm a rv rs rm qv qs qm
        = [tilde].intercalate
            [ n, [caret].intercalate [cs, cv, cm], [caret].intercalate [ts, tv, tm],
              [caret].intercalate [ms, mv, mm], a, [caret].intercalate [rs, rv, rm],
              [caret].intercalate [qs, qv, qm] ]) := by
  refine ⟨fun e => ⟨rfl, rfl⟩, ?_⟩
  intro n cv cs cm tv ts tm mv ms mm a rv rs rm qv qs qm
  simp [serializeTerminologyEntryStrings, List.intercalate, List.intersperse]

theorem serializeFields_nested (f : SerializedFields) :
    serializeFields f =
      f.terminologyContextName ++ tilde ::
      ((f.categorySchemeDesignator ++ caret :: (f.categoryValue ++ caret :: f.categoryMeaning))
        ++ tilde ::
      ((f.typeSchemeDesignator ++ caret :: (f.typeValue ++ caret :: f.typeMeaning)) ++ tilde ::
      ((f.modifierSchemeDesignator ++ caret :: (f.modifierValue ++ caret :: f.modifierMeaning))
        ++ tilde ::
      (f.anatomicContextName ++ tilde ::
      ((f.regionSchemeDesignator ++ caret :: (f.regionValue ++ caret :: f.regionMeaning))
        ++ tilde ::
      (f.regionModifierSchemeDesignator ++ caret :: (f.regionModifierValue ++ caret ::
        f.regionModifierMeaning))))))) := by
  simp [serializeFields, serializeTerminologyEntryStrings]

theorem tilde_not_mem_of_parts (a b c : QString) (ha : tilde ∉ a) (hb : tilde ∉ b)
    (hc : tilde ∉ c) : tilde ∉ a ++ caret :: (b ++ caret :: c) := by
  have ht : tilde ≠ caret := by decide
  simp [ha, hb, hc, ht]

theorem split_serializeFields (f : SerializedFields) (hf : DelimiterFree f) :
    split tilde (serializeFields f) =
      [ f.terminologyContextName,
        f.categorySchemeDesignator ++ caret :: (f.categoryValue ++ caret :: f.categoryMeaning),
        f.typeSchemeDesignator ++ caret :: (f.typeValue ++ caret :: f.typeMeaning),
        f.modifierSchemeDesignator ++ caret :: (f.modifierValue ++ caret :: f.modifierMeaning),
        f.anatomicContextName,
        f.regionSchemeDesignator ++ caret :: (f.regionValue ++ caret :: f.regionMeaning),
        f.regionModifierSchemeDesignator ++ caret :: (f.regionModifierValue ++ caret ::
          f.regionModifierMeaning) ] := by
  simp only [DelimiterFree, fieldTexts, List.mem_cons, List.mem_singleton, forall_eq_or_imp,
    forall_eq, List.not_mem_nil, false_implies, implies_true, and_true] at hf
  obtain ⟨p0, p1, p2, p3, p4, p5, p6, p7, p8, p9, p10, p11, p12, p13, p14, p15, p16⟩ := hf
  rw [serializeFields_nested]
  exact split_seven _ _ _ _ _ _ _ p0.1 (tilde_not_mem_of_parts _ _ _ p2.1 p1.1 p3.1)
    (tilde_not_mem_of_parts _ _ _ p5.1 p4.1 p6.1) (tilde_not_mem_of_parts _ _ _ p8.1 p7.1 p9.1)
    p10.1 (tilde_not_mem_of_parts _ _ _ p12.1 p11.1 p13.1)
    (tilde_not_mem_of_parts _ _ _ p15.1 p14.1 p16.1)

theorem triple_injective (a b c x y z : QString) (ha : caret ∉ a) (hb : caret ∉ b)
    (hc : caret ∉ c) (hx : caret ∉ x) (hy : caret ∉ y) (hz : caret ∉ z)
    (h : a ++ caret :: (b ++ caret :: c) = x ++ caret :: (y ++ caret :: z)) :
    a = x ∧ b = y ∧ c = z := by
  have h2 := congrArg (split caret) h
  rw [split_three a b c ha hb hc, split_three x y z hx hy hz] at h2
  simpa using h2

/-- C24: for a tuple of seventeen texts none of which contains a tilde or a caret, the string
overload of `serializeTerminologyEntry` returns a text that splits at the tildes into exactly
seven components, the five triple components splitting at the carets into exactly the three
parts scheme designator, code value, code meaning; and any other such tuple with the same
serialized text is the same tuple. -/
theorem serializeFields_injective_of_delimiterFree (f : SerializedFields)
    (hf : DelimiterFree f) :
    (∀ g : SerializedFields, DelimiterFree g → serializeFields f = serializeFields g → f = g)
    ∧ (split tilde (serializeFields f)).length = 7
    ∧ (split tilde (serializeFields f)).getD 0 [] = f.terminologyContextName
    ∧ split caret ((split tilde (serializeFields f)).getD 1 [])
        = [f.categorySchemeDesignator, f.categoryValue, f.categoryMeaning]
    ∧ split caret ((split tilde (serializeFields f)).getD 2 [])
        = [f.typeSchemeDesignator, f.typeValue, f.typeMeaning]
    ∧ split caret ((split tilde (serializeFields f)).getD 3 [])
        = [f.modifierSchemeDesignator, f.modifierValue, f.modifierMeaning]
    ∧ (split tilde (serializeFields f)).getD 4 [] = f.anatomicContextName
    ∧ split caret ((split tilde (serializeFields f)).getD 5 [])
        = [f.regionSchemeDesignator, f.regionValue, f.regionMeaning]
    ∧ split caret ((split tilde (serializeFields f)).getD 6 [])
        = [f.regionModifierSchemeDesignator, f.regionModifierValue,
            f.regionModifierMeaning] := by
  have hs := split_serializeFields f hf
  have hf0 := hf
  simp only [DelimiterFree, fieldTexts, List.mem_cons, List.mem_singleton, forall_eq_or_imp,
    forall_eq, List.not_mem_nil, false_implies, implies_true, and_true] at hf
  obtain ⟨p0, p1, p2, p3, p4, p5, p6, p7, p8, p9, p10, p11, p12, p13, p14, p15, p16⟩ := hf
  refine ⟨?_, ?_, ?_, ?_, ?_, ?_, ?_, ?_, ?_⟩
  · intro g hg h
    have hsg := split_serializeFields g hg
    simp only [DelimiterFree, fieldTexts, List.mem_cons, List.mem_singleton, forall_eq_or_imp,
      forall_eq, List.not_mem_nil, false_implies, implies_true, and_true] at hg
    obtain ⟨q0, q1, q2, q3, q4, q5, q6, q7, q8, q9, q10, q11, q12, q13, q14, q15, q16⟩ := hg
    rw [h, hsg] at hs
    simp only [List.cons.injEq, and_true] at hs
    obtain ⟨e0, e1, e2, e3, e4, e5, e6⟩ := hs
    have t1 := triple_injective _ _ _ _ _ _ q2.2 q1.2 q3.2 p2.2 p1.2 p3.2 e1
    have t2 := triple_injective _ _ _ _ _ _ q5.2 q4.2 q6.2 p5.2 p4.2 p6.2 e2
    have t3 := triple_injective _ _ _ _ _ _ q8.2 q7.2 q9.2 p8.2 p7.2 p9.2 e3
    have t5 := triple_injective _ _ _ _ _ _ q12.2 q11.2 q13.2 p12.2 p11.2 p13.2 e5
    have t6 := triple_injective _ _ _ _ _ _ q15.2 q14.2 q16.2 p15.2 p14.2 p16.2 e6
    cases f
    cases g
    simp only [SerializedFields.mk.injEq]
    simp only at e0 e4 t1 t2 t3 t5 t6
    exact ⟨e0.symm, t1.2.1.symm, t1.1.symm, t1.2.2.symm, t2.2.1.symm, t2.1.symm, t2.2.2.symm,
      t3.2.1.symm, t3.1.symm, t3.2.2.symm, e4.symm, t5.2.1.symm, t5.1.symm, t5.2.2.symm,
      t6.2.1.symm, t6.1.symm, t6.2.2.symm⟩
  · rw [hs]; rfl
  · rw [hs]; rfl
  · rw [hs]; exact split_three _ _ _ p2.2 p1.2 p3.2
  · rw [hs]; exact split_three _ _ _ p5.2 p4.2 p6.2
  · rw [hs]; exact split_three _ _ _ p8.2 p7.2 p9.2
  · rw [hs]; rfl
  · rw [hs]; exact split_three _ _ _ p12.2 p11.2 p13.2
  · rw [hs]; exact split_three _ _ _ p15.2 p14.2 p16.2

theorem sampleFields_delimiterFree : DelimiterFree sampleFields := by
  simp only [DelimiterFree, fieldTexts, List.mem_cons, List.mem_singleton, forall_eq_or_imp,
    forall_eq, List.not_mem_nil, false_implies, implies_true, and_true]
  simp [sampleFields, tilde, caret]

/-- The statement C24 at a tuple without delimiter characters: its serialized text has seven
components. -/
theorem serializeFields_injective_of_delimiterFree_witness :
    DelimiterFree sampleFields ∧ (split tilde (serializeFields sampleFields)).length = 7 :=
  ⟨sampleFields_delimiterFree,
    (serializeFields_injective_of_delimiterFree sampleFields sampleFields_delimiterFree).2.1⟩

/-! ## What a call of the deserialization leaves in the entry -/

theorem toStdString_ne_nil (c : QString) (hne : c ≠ []) (hnul : c.head? ≠ some nul) :
    toStdString c ≠ [] := by
  cases c with
  | nil => exact absurd rfl hne
  | cons a l =>
    have ha : (a != nul) = true := by
      have : a ≠ nul := fun h => hnul (by simp [h])
      simpa using this
    have hq : (('?' : Char) != nul) = true := by decide
    unfold toStdString toLatin1 constData
    simp only [List.flatMap_cons]
    split_ifs <;> simp [List.takeWhile_cons, ha, hq]

theorem cstrOrNull_of_ne_nil (s : QString) (h : s ≠ []) : cstrOrNull s = some s := by
  cases s with
  | nil => exact absurd rfl h
  | cons a l => rfl

theorem deserialize_false_fields (logic : Option vtkSlicerTerminologiesModuleLogic)
    (s : QString) (e : vtkSlicerTerminologyEntry)
    (h : (deserializeTerminologyEntry logic s e).1 = false) :
    (deserializeTerminologyEntry logic s e).2.TypeObject = none
    ∧ (deserializeTerminologyEntry logic s e).2.TypeModifierObject = none
    ∧ (deserializeTerminologyEntry logic s e).2.AnatomicContextName = none
    ∧ (deserializeTerminologyEntry logic s e).2.AnatomicRegionObject = none
    ∧ (deserializeTerminologyEntry logic s e).2.AnatomicRegionModifierObject = none := by
  cases logic with
  | none => simp [deserializeTerminologyEntry]
  | some L =>
    by_cases h7 : (split tilde s).length = 7
    swap
    · simp [deserializeTerminologyEntry, h7]
    obtain ⟨c0, c1, c2, c3, c4, c5, c6, hc⟩ := length_seven _ h7
    by_cases h0 : c0 = []
    · simp [deserializeTerminologyEntry, hc, h0]
    have h0e := isEmpty_eq_false_of_ne_nil c0 h0
    by_cases h1 : (split caret c1).length = 3
    swap
    · simp [deserializeTerminologyEntry, hc, h0, h0e, h1]
    cases hcat : L.GetCategoryInTerminology (toStdString c0)
        (codeIdentifierOfParts (split caret c1)) with
    | none => simp [deserializeTerminologyEntry, hc, h0, h0e, h1, hcat]
    | some oc =>
      by_cases h2 : (split caret c2).length = 3
      swap
      · simp [deserializeTerminologyEntry, hc, h0, h0e, h1, hcat, h2]
      cases ht : L.GetTypeInTerminologyCategory (toStdString c0)
          (codeIdentifierOfParts (split caret c1))
          (codeIdentifierOfParts (split caret c2)) with
      | none => simp [deserializeTerminologyEntry, hc, h0, h0e, h1, hcat, h2, ht]
      | some ot =>
        rw [deserialize_success_eq L s e c0 c1 c2 c3 c4 c5 c6 oc ot hc h0 h1 hcat h2 ht] at h
        cases h

theorem deserialize_early_failure (logic : Option vtkSlicerTerminologiesModuleLogic)
    (s : QString) (e : vtkSlicerTerminologyEntry)
    (h : (split tilde s).length ≠ 7 ∨ logic = none ∨ (split tilde s).getD 0 [] = []) :
    (deserializeTerminologyEntry logic s e).1 = false
    ∧ (deserializeTerminologyEntry logic s e).2.TerminologyContextName = none
    ∧ (deserializeTerminologyEntry logic s e).2.CategoryObject = none := by
  cases logic with
  | none => by_cases h7 : (split tilde s).length = 7 <;> simp [deserializeTerminologyEntry, h7]
  | some L =>
    by_cases h7 : (split tilde s).length = 7
    swap
    · simp [deserializeTerminologyEntry, h7]
    obtain ⟨c0, c1, c2, c3, c4, c5, c6, hc⟩ := length_seven _ h7
    rcases h with h | h | h
    · exact absurd h7 h
    · cases h
    · simp only [hc, List.getD_cons_zero] at h
      simp [deserializeTerminologyEntry, hc, h]

theorem deserialize_true_fields (logic : Option vtkSlicerTerminologiesModuleLogic)
    (s : QString) (e : vtkSlicerTerminologyEntry)
    (h : (deserializeTerminologyEntry logic s e).1 = true) :
    (deserializeTerminologyEntry logic s e).2.CategoryObject.isSome = true
    ∧ (deserializeTerminologyEntry logic s e).2.TypeObject.isSome = true
    ∧ (deserializeTerminologyEntry logic s e).2.TerminologyContextName
        = cstrOrNull (toStdString ((split tilde s).getD 0 []))
    ∧ (split tilde s).getD 0 [] ≠ [] := by
  obtain ⟨L, hL, h7, h0, h1, hcat, h2, ht⟩ := (deserialize_true_iff logic s e).1 h
  subst hL
  obtain ⟨c0, c1, c2, c3, c4, c5, c6, hc⟩ := length_seven _ h7
  simp only [hc, List.getD_cons_zero, List.getD_cons_succ] at h0 h1 hcat h2 ht ⊢
  obtain ⟨oc, hoc⟩ := Option.isSome_iff_exists.1 hcat
  obtain ⟨ot, hot⟩ := Option.isSome_iff_exists.1 ht
  rw [deserialize_success_eq L s e c0 c1 c2 c3 c4 c5 c6 oc ot hc h0 h1 hoc h2 hot]
  exact ⟨rfl, rfl, rfl, h0⟩

theorem toStdString_of_head_nul (c : QString) (h : c.head? = some nul) : toStdString c = [] := by
  cases c with
  | nil => cases h
  | cons a l =>
    have ha : a = nul := by simpa using h
    subst ha
    have h1 : nul.toNat < 256 := by decide
    have h2 : (nul != nul) = false := by decide
    unfold toStdString toLatin1 constData
    simp [List.flatMap_cons, h1, List.takeWhile_cons, h2]

/-- Counterexample to C26 as stated: with the logic that answers every lookup, a text whose
first component begins with the NUL character deserializes successfully (the component is not
empty), but the terminology name handed to the entry is the C string of the component, which is
empty, so the name of the entry is left unset. -/
theorem deserialize_postconditions_counterexample :
    (deserializeTerminologyEntry (some echoLogic) nulText {}).1 = true
    ∧ (deserializeTerminologyEntry (some echoLogic) nulText {}).2.TerminologyContextName = none
    ∧ (split tilde nulText).getD 0 [] = [nul, 'T'] := by
  decide

/-- C26 (amended): whatever the entry held before the call of `deserializeTerminologyEntry`: if
the call returns true, the category and type objects of the entry are set, and its terminology
name is set and not empty unless the first component of the text begins with the NUL character,
in which case the name is unset; if the call returns false, the type object, the type-modifier
object, the anatomic-context name, the region object and the region-modifier object are unset;
and when the text has not seven components, the logic is not available or the first component is
empty, the call returns false and the terminology name and the category object are unset too. -/
theorem deserialize_postconditions (logic : Option vtkSlicerTerminologiesModuleLogic)
    (s : QString) (e : vtkSlicerTerminologyEntry) :
    ((deserializeTerminologyEntry logic s e).1 = true →
      (deserializeTerminologyEntry logic s e).2.CategoryObject.isSome = true
      ∧ (deserializeTerminologyEntry logic s e).2.TypeObject.isSome = true
      ∧ (((split tilde s).getD 0 []).head? ≠ some nul →
          ∃ n, (deserializeTerminologyEntry logic s e).2.TerminologyContextName = some n
            ∧ n ≠ [])
      ∧ (((split tilde s).getD 0 []).head? = some nul →
          (deserializeTerminologyEntry logic s e).2.TerminologyContextName = none))
    ∧ ((deserializeTerminologyEntry logic s e).1 = false →
      (deserializeTerminologyEntry logic s e).2.TypeObject = none
      ∧ (deserializeTerminologyEntry logic s e).2.TypeModifierObject = none
      ∧ (deserializeTerminologyEntry logic s e).2.AnatomicContextName = none
      ∧ (deserializeTerminologyEntry logic s e).2.AnatomicRegionObject = none
      ∧ (deserializeTerminologyEntry logic s e).2.AnatomicRegionModifierObject = none)
    ∧ ((split tilde s).length ≠ 7 ∨ logic = none ∨ (split tilde s).getD 0 [] = [] →
      (deserializeTerminologyEntry logic s e).1 = false
      ∧ (deserializeTerminologyEntry logic s e).2.TerminologyContextName = none
      ∧ (deserializeTerminologyEntry logic s e).2.CategoryObject = none) := by
  refine ⟨?_, deserialize_false_fields logic s e, deserialize_early_failure logic s e⟩
  intro h
  obtain ⟨h1, h2, h3, h4⟩ := deserialize_true_fields logic s e h
  refine ⟨h1, h2, ?_, ?_⟩
  · intro hnul
    have hne := toStdString_ne_nil _ h4 hnul
    exact ⟨_, h3.trans (cstrOrNull_of_ne_nil _ hne), hne⟩
  · intro hnul
    rw [h3, toStdString_of_head_nul _ hnul]
    rfl

/-- The amended statement C26 at a well-formed text with the logic that answers every lookup:
the call returns true, so the category and type objects are set. -/
theorem deserialize_postconditions_witness :
    (deserializeTerminologyEntry (some echoLogic) sampleText {}).1 = true
    ∧ (deserializeTerminologyEntry (some echoLogic) sampleText {}).2.CategoryObject.isSome = true
    ∧ (deserializeTerminologyEntry (some echoLogic) sampleText {}).2.TypeObject.isSome = true :=
  ⟨by decide,
    ((deserialize_postconditions (some echoLogic) sampleText {}).1 (by decide)).1,
    ((deserialize_postconditions (some echoLogic) sampleText {}).1 (by decide)).2.1⟩

/-! ## The editor of the delegate -/

/-- C29: `createEditor` returns an editor whose `changeDataOnSet` flag is true; `setEditorData`
on an editor whose flag is true hands the editor, with the flag false, the entry deserialized
from the text of the cell and the colour of the cell, and the flag is false afterwards when the
methods of the editor leave it alone; `setEditorData` on an editor whose flag is false returns
the editor unchanged; hence a sequence of `setEditorData` calls on an editor whose flag is true
does what its first call does. -/
theorem setEditorData_once (methods : SelectorButtonMethods)
    (logic : Option vtkSlicerTerminologiesModuleLogic) (hk : KeepsChangeDataOnSet methods) :
    createEditor.changeDataOnSet = true
    ∧ (∀ (button : qSlicerTerminologySelectorButton) (model : QAbstractItemModel)
        (index : QModelIndex), button.changeDataOnSet = true →
      setEditorData methods logic button model index =
        methods.changeTerminology (methods.setColor
          (methods.setTerminologyEntry { button with changeDataOnSet := false }
            (deserializeTerminologyEntry logic (model.data index WhatsThisRole).toString {}).2
            false)
          (model.data index DecorationRole).toColor)
      ∧ (setEditorData methods logic button model index).changeDataOnSet = false)
    ∧ (∀ (button : qSlicerTerminologySelectorButton) (model : QAbstractItemModel)
        (index : QModelIndex), button.changeDataOnSet = false →
      setEditorData methods logic button model index = button)
    ∧ (∀ (button : qSlicerTerminologySelectorButton)
        (call : QAbstractItemModel × QModelIndex)
        (rest : List (QAbstractItemModel × QModelIndex)), button.changeDataOnSet = true →
      setEditorDataSequence methods logic (call :: rest) button
        = setEditorData methods logic button call.1 call.2) := by
  obtain ⟨k1, k2, k3⟩ := hk
  have hfirst : ∀ (button : qSlicerTerminologySelectorButton) (model : QAbstractItemModel)
      (index : QModelIndex), button.changeDataOnSet = true →
      (setEditorData methods logic button model index).changeDataOnSet = false := by
    intro button model index h
    simp only [setEditorData, h, if_true]
    rw [k3, k2, k1]
  have hlater : ∀ (button : qSlicerTerminologySelectorButton) (model : QAbstractItemModel)
      (index : QModelIndex), button.changeDataOnSet = false →
      setEditorData methods logic button model index = button := by
    intro button model index h
    simp [setEditorData, h]
  have hseq : ∀ (rest : List (QAbstractItemModel × QModelIndex))
      (button : qSlicerTerminologySelectorButton), button.changeDataOnSet = false →
      setEditorDataSequence methods logic rest button = button := by
    intro rest
    induction rest with
    | nil => intro button _; rfl
    | cons call rest ih =>
      intro button h
      simp only [setEditorDataSequence, hlater button call.1 call.2 h]
      exact ih button h
  refine ⟨rfl, ?_, hlater, ?_⟩
  · intro button model index h
    exact ⟨by simp [setEditorData, h], hfirst button model index h⟩
  · intro button call rest h
    simp only [setEditorDataSequence]
    exact hseq rest _ (hfirst button call.1 call.2 h)

theorem storingMethods_keeps : KeepsChangeDataOnSet storingMethods :=
  ⟨fun _ _ _ => rfl, fun _ _ => rfl, fun _ => rfl⟩

/-- The statement C29 with methods that store what they are given: a fresh editor loaded twice
from the sample model is the editor loaded once. -/
theorem setEditorData_once_witness :
    KeepsChangeDataOnSet storingMethods
    ∧ createEditor.changeDataOnSet = true
    ∧ setEditorDataSequence storingMethods (some echoLogic)
        [(sampleModel, (0, 0)), (emptyModel, (0, 0))] createEditor
      = setEditorData storingMethods (some echoLogic) createEditor sampleModel (0, 0) :=
  ⟨storingMethods_keeps, rfl,
    (setEditorData_once storingMethods (some echoLogic) storingMethods_keeps).2.2.2
      createEditor (sampleModel, (0, 0)) [(emptyModel, (0, 0))] rfl⟩

/-- C30: the slot `close()`, which `createEditor` connects to the signal `canceled` of the
editor, emits `closeEditor` for the sending editor and no `commitData`, so the view leaves the
model as it is; the slot `commitAndClose()`, connected to `terminologyChanged`, emits
`commitData` for the sending editor and then `closeEditor` for it, so the view writes the data
of the editor to the model with `setModelData`. -/
theorem close_never_commits :
    connectedSlot SelectorButtonSignal.canceled = close
    ∧ connectedSlot SelectorButtonSignal.terminologyChanged = commitAndClose
    ∧ (∀ sender, close sender = [DelegateSignal.closeEditor sender])
    ∧ (∀ sender editor, DelegateSignal.commitData editor ∉ close sender)
    ∧ (∀ sender, commitAndClose sender
        = [DelegateSignal.commitData sender, DelegateSignal.closeEditor sender])
    ∧ (∀ sender index model,
        viewReactions index (connectedSlot SelectorButtonSignal.canceled sender) model
          = some model)
    ∧ (∀ sender index model,
        viewReactions index (connectedSlot SelectorButtonSignal.terminologyChanged sender) model
          = setModelData sender model index) := by
  refine ⟨rfl, rfl, fun _ => rfl, ?_, fun _ => rfl, fun _ _ _ => rfl, ?_⟩
  · intro sender editor h
    simp [close] at h
  · intro sender index model
    simp only [connectedSlot, commitAndClose, viewReactions, viewReaction]
    cases setModelData sender model index <;> rfl

/-- C25: the entry deserialized with the sample logic from the serialized form of an entry with
the kidney type, which has modifiers, and without type modifier has that type and no type
modifier; `recommendedColorFromTerminology` then reads the colour of the absent type modifier
(the result `none` of the model), and so does `setModelData` for an editor that holds this entry
and no custom colour. -/
theorem recommendedColorFromTerminology_reads_absent_modifier :
    (deserializeTerminologyEntry (some sampleLogic) kidneyText {}).1 = true
    ∧ (deserializeTerminologyEntry (some sampleLogic) kidneyText {}).2.TypeObject
        = some kidneyType
    ∧ kidneyType.HasModifiers = true
    ∧ (deserializeTerminologyEntry (some sampleLogic) kidneyText {}).2.TypeModifierObject = none
    ∧ recommendedColorFromTerminology
        (some (deserializeTerminologyEntry (some sampleLogic) kidneyText {}).2) = none
    ∧ (setModelData kidneyButton emptyModel (0, 0)).isNone = true := by
  refine ⟨?_, ?_, ?_, ?_, ?_, ?_⟩ <;> decide

/-! ## Validity of the current terminology and the colour -/

/-- C21: with terminology, category, type and type modifier selected and the anatomic-context
name empty, `terminologyEntry` returns true but `setColor(red)` leaves the private data as it
is; and with an anatomic context current but no terminology, `terminologyEntry` returns false
but `setColor(red)` stores red as custom colour and shows it in the picker: `setColor` tests the
anatomic-context name where `terminologyEntry` tests the terminology name. -/
theorem setColor_tests_anatomic_context :
    (afterTypeWithoutContext.map fun d =>
      (d.CurrentTerminologyName, d.CurrentAnatomicContextName,
        (terminologyEntry d (some {})).1, decide (setColor d (QColor.rgb 255 0 0) = some d)))
      = some ("T".toList, [], true, true)
    ∧ ((constructedNavigator (some noTerminologyLogic)).map fun d =>
      (d.CurrentTerminologyName, d.CurrentAnatomicContextName,
        (terminologyEntry d (some {})).1,
        (setColor d (QColor.rgb 255 0 0)).map fun e =>
          (e.CustomColor, e.ColorPickerButton_RecommendedRGB.color)))
      = some ([], "A".toList, false, some (QColor.rgb 255 0 0, QColor.rgb 255 0 0)) := by
  refine ⟨?_, ?_⟩ <;> decide

/-- C27: with terminology, category, type and type modifier selected and the anatomic-context
name empty, `terminologyEntry(e)` returns true and `recommendedColorFromTerminology(e)` is the
gray recommended by the type modifier, but `recommendedColorFromCurrentTerminology()` is the
invalid colour. -/
theorem recommended_colours_differ_without_context :
    (afterTypeWithoutContext.map fun d =>
      ((terminologyEntry d (some {})).1, recommendedColorFromCurrentTerminology d,
        recommendedColorFromTerminology (terminologyEntry d (some {})).2))
    = some (true, some QColor.invalid, some (QColor.rgb 127 127 127)) := by
  decide

/-- C22: with the category selected and no type selected (the current type is the fresh empty
object), `setRecommendedColorFromCurrentTerminology` enables the colour picker; and with the
kidney type, which has modifiers, selected and no type modifier selected, it enables the picker
as well: it compares the pointers with null, which the reset helpers never store. The public
`setTerminologyEntry` reaches the first case with an entry that has a category and no type. -/
theorem setRecommendedColor_enables_without_type :
    (afterCategorySelection.map fun d =>
      (d.CurrentTypeObject,
        (setRecommendedColorFromCurrentTerminology d).ColorPickerButton_RecommendedRGB.enabled))
      = some (some {}, true)
    ∧ (afterTypeWithoutModifier.map fun d =>
      (d.CurrentTypeObject, d.CurrentTypeModifierObject,
        (setRecommendedColorFromCurrentTerminology d).ColorPickerButton_RecommendedRGB.enabled))
      = some (some kidneyType, some {}, true)
    ∧ ((constructedNavigator (some sampleLogic)).bind fun d =>
      (setTerminologyEntry (some sampleLogic) d
        (some { TerminologyContextName := some "T".toList
                CategoryObject := some tissueCategory })).map fun r =>
        (r.2.CurrentTypeObject, r.2.ColorPickerButton_RecommendedRGB.enabled))
      = some (some {}, true) := by
  refine ⟨?_, ?_, ?_⟩ <;> decide

theorem setColor_of_no_context (d : qSlicerTerminologyNavigatorWidgetPrivate) (c : QColor)
    (h : d.CurrentAnatomicContextName = []) : setColor d c = some d := by
  simp [setColor, h]

theorem recommended_colours_agree (d : qSlicerTerminologyNavigatorWidgetPrivate)
    (entry : vtkSlicerTerminologyEntry) (hp : Present d)
    (hname : d.CurrentTerminologyName ≠ []) (hctx : d.CurrentAnatomicContextName ≠ []) :
    (terminologyEntry d (some entry)).1 = true
    ∧ recommendedColorFromCurrentTerminology d
        = recommendedColorFromTerminology (terminologyEntry d (some entry)).2 := by
  obtain ⟨c, hc⟩ := Option.isSome_iff_exists.1 hp.1
  obtain ⟨t, ht⟩ := Option.isSome_iff_exists.1 hp.2.1
  obtain ⟨m, hm⟩ := Option.isSome_iff_exists.1 hp.2.2.1
  obtain ⟨r, hr⟩ := Option.isSome_iff_exists.1 hp.2.2.2.1
  obtain ⟨q, hq⟩ := Option.isSome_iff_exists.1 hp.2.2.2.2
  have h1 := isEmpty_eq_false_of_ne_nil _ hname
  have h2 := isEmpty_eq_false_of_ne_nil _ hctx
  simp only [terminologyEntry, recommendedColorFromCurrentTerminology,
    recommendedColorFromTerminology, hc, ht, hm, hr, hq, h1, h2]
  cases hh : t.HasModifiers <;> simp [hh]

theorem setRecommendedColor_cases (d : qSlicerTerminologyNavigatorWidgetPrivate) :
    ((d.CurrentTypeObject = none
        ∨ ∃ t, d.CurrentTypeObject = some t ∧ t.HasModifiers = true
            ∧ d.CurrentTypeModifierObject = none) →
      (setRecommendedColorFromCurrentTerminology d).ColorPickerButton_RecommendedRGB.color
          = QColor.rgb 127 127 127
      ∧ (setRecommendedColorFromCurrentTerminology d).ColorPickerButton_RecommendedRGB.enabled
          = false
      ∧ (setRecommendedColorFromCurrentTerminology d).CustomColor = d.CustomColor)
    ∧ (∀ t, d.CurrentTypeObject = some t → t.HasModifiers = false →
      (setRecommendedColorFromCurrentTerminology d).ColorPickerButton_RecommendedRGB.color
          = recommendedDisplayColor t
      ∧ (setRecommendedColorFromCurrentTerminology d).ColorPickerButton_RecommendedRGB.enabled
          = true
      ∧ (setRecommendedColorFromCurrentTerminology d).CustomColor = QColor.invalid)
    ∧ (∀ t m, d.CurrentTypeObject = some t → t.HasModifiers = true →
      d.CurrentTypeModifierObject = some m →
      (setRecommendedColorFromCurrentTerminology d).ColorPickerButton_RecommendedRGB.color
          = recommendedDisplayColor m
      ∧ (setRecommendedColorFromCurrentTerminology d).ColorPickerButton_RecommendedRGB.enabled
          = true
      ∧ (setRecommendedColorFromCurrentTerminology d).CustomColor = QColor.invalid) := by
  refine ⟨?_, ?_, ?_⟩
  · rintro (h | ⟨t, ht, hm, hmod⟩)
    · simp only [setRecommendedColorFromCurrentTerminology, setPickerColor,
        ctkColorPickerButton.setColor, h]
      split_ifs <;> simp_all
    · simp only [setRecommendedColorFromCurrentTerminology, setPickerColor,
        ctkColorPickerButton.setColor, ht, hm, hmod]
      split_ifs <;> simp_all
  · intro t ht hm
    simp only [setRecommendedColorFromCurrentTerminology, setPickerColor,
      ctkColorPickerButton.setColor, ht, hm]
    split_ifs <;> simp_all
  · intro t m ht hm hmod
    simp only [setRecommendedColorFromCurrentTerminology, setPickerColor,
      ctkColorPickerButton.setColor, ht, hm, hmod]
    split_ifs <;> simp_all

/-! ## The current objects in every reachable state -/

theorem present_setRecommendedColor (d : qSlicerTerminologyNavigatorWidgetPrivate)
    (hp : Present d) : Present (setRecommendedColorFromCurrentTerminology d) :=
  present_of_selection (selection_setRecommendedColor d) hp

theorem selection_setPickerColor (d : qSlicerTerminologyNavigatorWidgetPrivate) (c : QColor) :
    selection (setPickerColor d c) = selection d := by
  unfold setPickerColor
  simp only [selection, onColorChanged]
  split <;> rfl

theorem present_populateCategoryTable (logic : Option vtkSlicerTerminologiesModuleLogic)
    (d : qSlicerTerminologyNavigatorWidgetPrivate) (hp : Present d) :
    ∃ e, populateCategoryTable logic d = some e ∧ Present e := by
  obtain ⟨e, he, hs⟩ := populateCategoryTable_selection logic d hp.1
  exact ⟨e, he, present_of_selection hs hp⟩

theorem present_populateTypeTable (logic : Option vtkSlicerTerminologiesModuleLogic)
    (d : qSlicerTerminologyNavigatorWidgetPrivate) (hp : Present d) :
    ∃ e, populateTypeTable logic d = some e ∧ Present e := by
  obtain ⟨e, he, hs⟩ := populateTypeTable_selection logic d hp.2.1
  exact ⟨e, he, present_of_selection hs hp⟩

theorem present_populateRegionTable (logic : Option vtkSlicerTerminologiesModuleLogic)
    (d : qSlicerTerminologyNavigatorWidgetPrivate) (hp : Present d) :
    ∃ e, populateRegionTable logic d = some e ∧ Present e := by
  obtain ⟨e, he, hs⟩ := populateRegionTable_selection logic d hp.2.2.2.1
  exact ⟨e, he, present_of_selection hs hp⟩

theorem present_populateTypeModifierComboBox (logic : Option vtkSlicerTerminologiesModuleLogic)
    (d : qSlicerTerminologyNavigatorWidgetPrivate) (hp : Present d) :
    ∃ e, populateTypeModifierComboBox logic d = some e ∧ Present e := by
  obtain ⟨e, he, hf⟩ := populateTypeModifierComboBox_frame logic d hp.2.2.1
  exact ⟨e, he, present_of_typeModifierFrame hf hp⟩

theorem present_populateRegionModifierComboBox
    (logic : Option vtkSlicerTerminologiesModuleLogic)
    (d : qSlicerTerminologyNavigatorWidgetPrivate) (hp : Present d) :
    ∃ e, populateRegionModifierComboBox logic d = some e ∧ Present e := by
  obtain ⟨e, he, hf⟩ := populateRegionModifierComboBox_frame logic d hp.2.2.2.2
  exact ⟨e, he, present_of_regionModifierFrame hf hp⟩

theorem present_onTypeModifierSelectionChanged
    (logic : Option vtkSlicerTerminologiesModuleLogic)
    (d : qSlicerTerminologyNavigatorWidgetPrivate) (hp : Present d) (index : Int) :
    ∃ e, onTypeModifierSelectionChanged logic d index = some e ∧ Present e := by
  obtain ⟨e, he, hf⟩ := onTypeModifierSelectionChanged_frame logic d index hp.2.2.1
  exact ⟨e, he, present_of_typeModifierFrame hf hp⟩

theorem present_onRegionModifierSelectionChanged
    (logic : Option vtkSlicerTerminologiesModuleLogic)
    (d : qSlicerTerminologyNavigatorWidgetPrivate) (hp : Present d) (index : Int) :
    ∃ e, onRegionModifierSelectionChanged logic d index = some e ∧ Present e := by
  obtain ⟨e, he, hf⟩ := onRegionModifierSelectionChanged_frame logic d index hp.2.2.2.2
  exact ⟨e, he, present_of_regionModifierFrame hf hp⟩

theorem present_onTerminologySelectionChanged
    (logic : Option vtkSlicerTerminologiesModuleLogic)
    (d : qSlicerTerminologyNavigatorWidgetPrivate) (hp : Present d) (index : Int) :
    ∃ e, onTerminologySelectionChanged logic d index = some e ∧ Present e := by
  unfold onTerminologySelectionChanged
  obtain ⟨e, he, hq⟩ := present_setCurrentTerminology logic
    { d with overrideCursor := d.overrideCursor + 1 } hp
    (d.ComboBox_Terminology.itemText index)
  simp only [he]
  exact ⟨_, rfl, hq⟩

theorem present_onAnatomicContextSelectionChanged
    (logic : Option vtkSlicerTerminologiesModuleLogic)
    (d : qSlicerTerminologyNavigatorWidgetPrivate) (hp : Present d) (index : Int) :
    ∃ e, onAnatomicContextSelectionChanged logic d index = some e ∧ Present e := by
  unfold onAnatomicContextSelectionChanged
  obtain ⟨e, he, hq⟩ := present_setCurrentAnatomicContext logic
    { d with overrideCursor := d.overrideCursor + 1 } hp
    (d.ComboBox_AnatomicContext.itemText index)
  simp only [he]
  exact ⟨_, rfl, hq⟩

theorem present_deliverTerminologySignal (logic : Option vtkSlicerTerminologiesModuleLogic)
    (d : qSlicerTerminologyNavigatorWidgetPrivate) (hp : Present d) (signal : Option Int) :
    ∃ e, deliverTerminologySignal logic d signal = some e ∧ Present e := by
  cases signal with
  | none => exact ⟨d, rfl, hp⟩
  | some index => exact present_onTerminologySelectionChanged logic d hp index

theorem present_deliverAnatomicContextSignal (logic : Option vtkSlicerTerminologiesModuleLogic)
    (d : qSlicerTerminologyNavigatorWidgetPrivate) (hp : Present d) (signal : Option Int) :
    ∃ e, deliverAnatomicContextSignal logic d signal = some e ∧ Present e := by
  cases signal with
  | none => exact ⟨d, rfl, hp⟩
  | some index => exact present_onAnatomicContextSelectionChanged logic d hp index

theorem present_populateTerminologyLoop (logic : Option vtkSlicerTerminologiesModuleLogic)
    (names : List QString) :
    ∀ d, Present d → ∃ e, populateTerminologyLoop logic names d = some e ∧ Present e := by
  induction names with
  | nil => intro d hp; exact ⟨d, rfl, hp⟩
  | cons name rest ih =>
    intro d hp
    obtain ⟨e1, he1, hp1⟩ := present_deliverTerminologySignal logic
      { d with ComboBox_Terminology := (d.ComboBox_Terminology.addItem { text := name }).1 } hp
      (d.ComboBox_Terminology.addItem { text := name }).2
    obtain ⟨e2, he2, hp2⟩ := ih e1 hp1
    refine ⟨e2, ?_, hp2⟩
    simp only [populateTerminologyLoop, he1, he2]

theorem present_populateAnatomicContextLoop (logic : Option vtkSlicerTerminologiesModuleLogic)
    (names : List QString) :
    ∀ d, Present d → ∃ e, populateAnatomicContextLoop logic names d = some e ∧ Present e := by
  induction names with
  | nil => intro d hp; exact ⟨d, rfl, hp⟩
  | cons name rest ih =>
    intro d hp
    obtain ⟨e1, he1, hp1⟩ := present_deliverAnatomicContextSignal logic
      { d with
        ComboBox_AnatomicContext := (d.ComboBox_AnatomicContext.addItem { text := name }).1 } hp
      (d.ComboBox_AnatomicContext.addItem { text := name }).2
    obtain ⟨e2, he2, hp2⟩ := ih e1 hp1
    refine ⟨e2, ?_, hp2⟩
    simp only [populateAnatomicContextLoop, he1, he2]

theorem present_populateTerminologyComboBox (logic : Option vtkSlicerTerminologiesModuleLogic)
    (d : qSlicerTerminologyNavigatorWidgetPrivate) (hp : Present d) :
    ∃ e, populateTerminologyComboBox logic d = some e ∧ Present e := by
  unfold populateTerminologyComboBox
  obtain ⟨e1, he1, hp1⟩ := present_deliverTerminologySignal logic
    { d with ComboBox_Terminology := d.ComboBox_Terminology.clear.1 } hp
    d.ComboBox_Terminology.clear.2
  simp only [he1]
  cases logic with
  | none => exact ⟨e1, rfl, hp1⟩
  | some L => exact present_populateTerminologyLoop (some L) _ e1 hp1

theorem present_populateAnatomicContextComboBox
    (logic : Option vtkSlicerTerminologiesModuleLogic)
    (d : qSlicerTerminologyNavigatorWidgetPrivate) (hp : Present d) :
    ∃ e, populateAnatomicContextComboBox logic d = some e ∧ Present e := by
  unfold populateAnatomicContextComboBox
  obtain ⟨e1, he1, hp1⟩ := present_deliverAnatomicContextSignal logic
    { d with ComboBox_AnatomicContext := d.ComboBox_AnatomicContext.clear.1 } hp
    d.ComboBox_AnatomicContext.clear.2
  simp only [he1]
  cases logic with
  | none => exact ⟨e1, rfl, hp1⟩
  | some L =>
    obtain ⟨e2, he2, hp2⟩ :=
      present_populateAnatomicContextLoop (some L) L.GetLoadedAnatomicContextNames e1 hp1
    simp only [he2]
    split_ifs
    · obtain ⟨e3, he3, hp3⟩ := present_onAnatomicContextSelectionChanged (some L) e2 hp2 0
      simp only [he3]
      exact ⟨_, rfl, hp3⟩
    · exact ⟨_, rfl, hp2⟩
    · exact ⟨_, rfl, hp2⟩

theorem present_init (logic : Option vtkSlicerTerminologiesModuleLogic)
    (d : qSlicerTerminologyNavigatorWidgetPrivate) (hp : Present d) :
    ∃ e, init logic d = some e ∧ Present e := by
  unfold init
  simp only
  obtain ⟨e1, he1, hp1⟩ := present_populateTerminologyComboBox logic _
    (show Present
      { d with
        tableWidget_Category := d.tableWidget_Category.setEnabled false
        SearchBox_Category := { d.SearchBox_Category with enabled := false }
        tableWidget_Type := d.tableWidget_Type.setEnabled false
        SearchBox_Type := { d.SearchBox_Type with enabled := false }
        ComboBox_TypeModifier := d.ComboBox_TypeModifier.setEnabled false
        ColorPickerButton_RecommendedRGB :=
          { d.ColorPickerButton_RecommendedRGB with enabled := false }
        SearchBox_AnatomicRegion := { d.SearchBox_AnatomicRegion with enabled := false }
        tableWidget_AnatomicRegion := d.tableWidget_AnatomicRegion.setEnabled false
        ComboBox_AnatomicRegionModifier :=
          d.ComboBox_AnatomicRegionModifier.setEnabled false } from hp)
  simp only [he1]
  exact present_populateAnatomicContextComboBox logic e1 hp1

theorem present_onLogicModified (logic : Option vtkSlicerTerminologiesModuleLogic)
    (d : qSlicerTerminologyNavigatorWidgetPrivate) (hp : Present d) :
    ∃ e, onLogicModified logic d = some e ∧ Present e := by
  unfold onLogicModified
  obtain ⟨e1, he1, hp1⟩ := present_populateTerminologyComboBox logic d hp
  obtain ⟨e2, he2, hp2⟩ := present_populateAnatomicContextComboBox logic
    (resetCurrentCategory e1) ⟨rfl, hp1.2⟩
  simp only [he1, he2]
  exact ⟨_, rfl, hp2.1, hp2.2.1, hp2.2.2.1, rfl, hp2.2.2.2.2⟩

theorem present_onCategoryClicked (logic : Option vtkSlicerTerminologiesModuleLogic)
    (d : qSlicerTerminologyNavigatorWidgetPrivate) (hp : Present d) (item : QTableWidgetItem) :
    ∃ e, onCategoryClicked logic d item = some e ∧ Present e := by
  unfold onCategoryClicked
  cases logic with
  | none => exact ⟨_, rfl, hp⟩
  | some L =>
    simp only
    split
    · exact ⟨_, rfl, hp⟩
    · rename_i category _
      obtain ⟨r, hr, hq⟩ := present_setCurrentCategory (some L)
        { d with overrideCursor := d.overrideCursor + 1 } hp category
      simp only [hr]
      exact ⟨_, rfl, hq⟩

theorem present_onTypeClicked (logic : Option vtkSlicerTerminologiesModuleLogic)
    (d : qSlicerTerminologyNavigatorWidgetPrivate) (hp : Present d) (item : QTableWidgetItem) :
    ∃ e, onTypeClicked logic d item = some e ∧ Present e := by
  unfold onTypeClicked
  cases logic with
  | none => exact ⟨_, rfl, hp⟩
  | some L =>
    simp only
    split
    · exact ⟨_, rfl, hp⟩
    · rename_i type _
      obtain ⟨r, hr, hq⟩ := present_setCurrentType (some L)
        { d with overrideCursor := d.overrideCursor + 1 } hp type
      simp only [hr]
      exact ⟨_, rfl, present_setRecommendedColor _ hq⟩

theorem present_onRegionClicked (logic : Option vtkSlicerTerminologiesModuleLogic)
    (d : qSlicerTerminologyNavigatorWidgetPrivate) (hp : Present d) (item : QTableWidgetItem) :
    ∃ e, onRegionClicked logic d item = some e ∧ Present e := by
  unfold onRegionClicked
  cases logic with
  | none => exact ⟨_, rfl, hp⟩
  | some L =>
    simp only
    split
    · exact ⟨_, rfl, hp⟩
    · rename_i region _
      obtain ⟨r, hr, hq⟩ := present_setCurrentRegion (some L)
        { d with overrideCursor := d.overrideCursor + 1 } hp region
      simp only [hr]
      exact ⟨_, rfl, hq⟩

theorem recommendedColorFromCurrentTerminology_isSome
    (d : qSlicerTerminologyNavigatorWidgetPrivate) (hp : Present d) :
    ∃ c, recommendedColorFromCurrentTerminology d = some c := by
  obtain ⟨c, hc⟩ := Option.isSome_iff_exists.1 hp.1
  obtain ⟨t, ht⟩ := Option.isSome_iff_exists.1 hp.2.1
  obtain ⟨m, hm⟩ := Option.isSome_iff_exists.1 hp.2.2.1
  simp only [recommendedColorFromCurrentTerminology, hc, ht, hm]
  split_ifs <;> exact ⟨_, rfl⟩

theorem present_setColor (d : qSlicerTerminologyNavigatorWidgetPrivate) (hp : Present d)
    (color : QColor) : ∃ e, setColor d color = some e ∧ Present e := by
  obtain ⟨c, hc⟩ := recommendedColorFromCurrentTerminology_isSome d hp
  unfold setColor
  simp only [hc]
  split_ifs
  · exact ⟨_, rfl, hp⟩
  · exact ⟨_, rfl, present_of_selection (selection_setPickerColor _ _) hp⟩
  · exact ⟨_, rfl, present_of_selection (selection_setPickerColor _ _) hp⟩

theorem present_setTerminologyEntry (logic : Option vtkSlicerTerminologiesModuleLogic)
    (d : qSlicerTerminologyNavigatorWidgetPrivate) (hp : Present d)
    (entry : Option vtkSlicerTerminologyEntry) :
    ∃ r, setTerminologyEntry logic d entry = some r ∧ Present r.2 := by
  unfold setTerminologyEntry
  cases entry with
  | none => exact ⟨(false, d), rfl, hp⟩
  | some en =>
    simp only
    cases hn : en.TerminologyContextName with
    | none => exact ⟨(false, d), rfl, hp⟩
    | some name =>
      simp only
      by_cases hidx : d.ComboBox_Terminology.findText name = -1
      · simp only [hidx, if_true]
        exact ⟨_, rfl, hp⟩
      · simp only [hidx, if_false]
        obtain ⟨e1, he1, hp1, -⟩ := stage_selectTerminology logic d hp
          (d.ComboBox_Terminology.findText name)
        simp only [he1]
        cases hc : en.CategoryObject with
        | none => exact ⟨_, rfl, hp1⟩
        | some c =>
          obtain ⟨r1, hr1, hq1⟩ := present_setCurrentCategory logic e1 hp1 c
          simp only [hr1]
          obtain ⟨⟨rv2, e2⟩, hr2, hq2, -⟩ := stage_selectType logic r1.2 hq1 en
            (if (!r1.1) = true then false else true)
          simp only at hq2
          simp only [hr2]
          have hcol : ∀ e, Present e →
              Present (if (!e.CustomColor.isValid) = true
                then setRecommendedColorFromCurrentTerminology e else e) := by
            intro e he
            split_ifs
            · exact present_setRecommendedColor e he
            · exact he
          by_cases hs : c.ShowAnatomy = true
          · simp only [hs, if_true]
            obtain ⟨⟨rv3, e3⟩, hr3, hq3, -⟩ :=
              stage_selectAnatomicContext logic e2 hq2 en rv2
            simp only at hq3
            simp only [hr3]
            obtain ⟨⟨rv4, e4⟩, hr4, hq4, -⟩ := stage_selectRegion logic e3 hq3 en rv3
            simp only at hq4
            simp only [hr4]
            exact ⟨_, rfl, hcol e4 hq4⟩
          · simp only [hs, Bool.false_eq_true, if_false]
            exact ⟨_, rfl, hcol e2 hq2⟩

theorem present_runCall (logic : Option vtkSlicerTerminologiesModuleLogic)
    (d : qSlicerTerminologyNavigatorWidgetPrivate) (hp : Present d) (call : NavigatorCall) :
    ∃ e, runCall logic d call = some e ∧ Present e := by
  cases call with
  | setTerminologyEntry entry =>
    obtain ⟨r, hr, hq⟩ := present_setTerminologyEntry logic d hp entry
    exact ⟨r.2, by simp [runCall, hr], hq⟩
  | setColor color => exact present_setColor d hp color
  | populateTerminologyComboBox => exact present_populateTerminologyComboBox logic d hp
  | populateCategoryTable => exact present_populateCategoryTable logic d hp
  | populateTypeTable => exact present_populateTypeTable logic d hp
  | populateTypeModifierComboBox => exact present_populateTypeModifierComboBox logic d hp
  | populateAnatomicContextComboBox =>
    exact present_populateAnatomicContextComboBox logic d hp
  | populateRegionTable => exact present_populateRegionTable logic d hp
  | populateRegionModifierComboBox => exact present_populateRegionModifierComboBox logic d hp
  | setCurrentTerminology n => exact present_setCurrentTerminology logic d hp n
  | setCurrentCategory category =>
    cases category with
    | none => exact ⟨_, rfl, rfl, rfl, rfl, rfl, rfl⟩
    | some c =>
      obtain ⟨r, hr, hq⟩ := present_setCurrentCategory logic d hp c
      exact ⟨r.2, by simp [runCall, hr], hq⟩
  | setCurrentType type =>
    cases type with
    | none => exact ⟨_, rfl, hp.1, rfl, rfl, hp.2.2.2⟩
    | some t =>
      obtain ⟨r, hr, hq⟩ := present_setCurrentType logic d hp t
      exact ⟨r.2, by simp [runCall, hr], hq⟩
  | setCurrentTypeModifier modifier =>
    cases modifier with
    | none => exact ⟨_, rfl, hp.1, hp.2.1, rfl, hp.2.2.2⟩
    | some m =>
      obtain ⟨r, hr, hq⟩ := present_setCurrentTypeModifier d hp m
      exact ⟨r.2, by simp [runCall, hr], hq⟩
  | setCurrentAnatomicContext n => exact present_setCurrentAnatomicContext logic d hp n
  | setCurrentRegion region =>
    cases region with
    | none => exact ⟨_, rfl, hp.1, hp.2.1, hp.2.2.1, rfl, rfl⟩
    | some t =>
      obtain ⟨r, hr, hq⟩ := present_setCurrentRegion logic d hp t
      exact ⟨r.2, by simp [runCall, hr], hq⟩
  | setCurrentRegionModifier modifier =>
    cases modifier with
    | none => exact ⟨_, rfl, hp.1, hp.2.1, hp.2.2.1, hp.2.2.2.1, rfl⟩
    | some m =>
      obtain ⟨r, hr, hq⟩ := present_setCurrentRegionModifier d hp m
      exact ⟨r.2, by simp [runCall, hr], hq⟩
  | onTerminologySelectionChanged index =>
    exact present_onTerminologySelectionChanged logic d hp index
  | onCategoryClicked item => exact present_onCategoryClicked logic d hp item
  | onTypeClicked item => exact present_onTypeClicked logic d hp item
  | onTypeModifierSelectionChanged index =>
    exact present_onTypeModifierSelectionChanged logic d hp index
  | onCategorySearchTextChanged search => exact present_populateCategoryTable logic d hp
  | onTypeSearchTextChanged search => exact present_populateTypeTable logic d hp
  | onColorChanged color => exact ⟨_, rfl, hp⟩
  | onAnatomicContextSelectionChanged index =>
    exact present_onAnatomicContextSelectionChanged logic d hp index
  | onRegionClicked item => exact present_onRegionClicked logic d hp item
  | onRegionModifierSelectionChanged index =>
    exact present_onRegionModifierSelectionChanged logic d hp index
  | onRegionSearchTextChanged search => exact present_populateRegionTable logic d hp
  | onLogicModified => exact present_onLogicModified logic d hp

theorem present_of_reachable (d : qSlicerTerminologyNavigatorWidgetPrivate)
    (h : Reachable d) : Present d := by
  induction h with
  | constructed logic d hd =>
    obtain ⟨e, he, hp⟩ := present_init logic constructedPrivate constructedPrivate_present
    have : e = d := Option.some.inj (he.symm.trans hd)
    exact this ▸ hp
  | call logic c d e _ hrun ih =>
    obtain ⟨e1, he1, hp1⟩ := present_runCall logic d ih c
    have : e1 = e := Option.some.inj (he1.symm.trans hrun)
    exact this ▸ hp1
  | widgets d e _ hs ih => exact present_of_selection hs ih

/-- C28: the constructor allocates the five current objects and leaves a state; every clearing
helper stores a fresh object; in every reachable state the five current objects are non-null;
and every call made in a reachable state (a setCurrent or populate function, a slot,
`setTerminologyEntry`, `setColor`), with any arguments and any logic, returns without reading an
absent object and leaves the five objects non-null. -/
theorem current_objects_allocated (d : qSlicerTerminologyNavigatorWidgetPrivate)
    (h : Reachable d) :
    Present constructedPrivate
    ∧ (∀ logic, ∃ d0, constructedNavigator logic = some d0 ∧ Reachable d0)
    ∧ (resetCurrentCategory d).CurrentCategoryObject = some {}
    ∧ (resetCurrentType d).CurrentTypeObject = some {}
    ∧ (resetCurrentTypeModifier d).CurrentTypeModifierObject = some {}
    ∧ (resetCurrentRegion d).CurrentRegionObject = some {}
    ∧ (resetCurrentRegionModifier d).CurrentRegionModifierObject = some {}
    ∧ Present d
    ∧ ∀ logic call, ∃ e, runCall logic d call = some e ∧ Present e := by
  refine ⟨constructedPrivate_present, ?_, rfl, rfl, rfl, rfl, rfl, present_of_reachable d h, ?_⟩
  · intro logic
    obtain ⟨e, he, -⟩ := present_init logic constructedPrivate constructedPrivate_present
    exact ⟨e, he, Reachable.constructed logic e he⟩
  · intro logic call
    exact present_runCall logic d (present_of_reachable d h) call

theorem current_objects_allocated_witness :
    Reachable constructedSample ∧ Present constructedSample
    ∧ ∃ e, runCall (some sampleLogic) constructedSample
        (NavigatorCall.setCurrentType (some kidneyType)) = some e ∧ Present e :=
  have h : Reachable constructedSample :=
    Reachable.constructed (some sampleLogic) constructedSample (by decide)
  ⟨h, (current_objects_allocated constructedSample h).2.2.2.2.2.2.2.1,
    (current_objects_allocated constructedSample h).2.2.2.2.2.2.2.2 (some sampleLogic)
      (NavigatorCall.setCurrentType (some kidneyType))⟩

end Slicer
